import Mathlib

/-!
# Generic value conversion of `js_manual_conversions.cpp`

A shallow embedding of the recursive converters between scripting values and
the native tagged value (`jsval_to_ccvalue`, `jsval_to_ccvaluemap`,
`jsval_to_ccvaluevector`, `ccvalue_to_jsval`, `ccvaluemap_to_jsval`,
`ccvaluemapintkey_to_jsval`, `ccvaluevector_to_jsval`).

The scripting engine is a collaborator of the file: its values are modelled by
the data type `JsVal`, and the engine calls whose result the source consults
(`JS_NextProperty`, `JS_GetElement`, `JS_SetElement`) can fail in the model.
Text is modelled by `String`; a transcoding between UTF-8 and UTF-16 that
succeeds is the identity on it. Where the source hands a text on as a C string
(`const char*`), the text ends before its first character U+0000 (`c_str`).
-/

set_option autoImplicit false

/-! ## Data model -/

/-- A number of the scripting engine (an IEEE double as far as the converters
can tell): not-a-number, an infinity, or a finite value. The converters only
copy numbers, they never compute with them. -/
inductive JsNumber
  | nan
  | infinite (negative : Bool)
  | finite (q : ℚ)
  deriving DecidableEq, Repr

/-- The number `INT_TO_JSVAL(i)` stands for. -/
def JsNumber.ofInt (i : Int) : JsNumber := .finite i

/-- A property id as `JS_IdToValue` presents it: an integer index (a name that is
an array index is presented so) or a string. -/
inductive JsId
  | int (i : Int)
  | str (s : String)
  deriving DecidableEq, Repr

/-- A scripting value, by the type tests the converters apply
(`isNullOrUndefined`, `isBoolean`, `isNumber`, `isString`, `isObject`,
`JS_IsArrayObject`, `jsb_get_js_proxy`).

* `object proxy props enumFails` is an object that is not an array: `proxy`
  says that `jsb_get_js_proxy` finds a native proxy for it, `props` are the
  properties its property iterator yields, in order, with their values, and
  `enumFails` says that the iterator reports an error instead of the end of
  the iteration once `props` are exhausted. Every value for which `isObject()`
  holds and `JS_IsArrayObject` does not is of this form, a function included.
* `array proxy elems props enumFails` is an array object of length
  `elems.length`; `elems[i] = none` means that `JS_GetElement` reports a
  failure at index `i`; `props` are the properties next to the indexed
  elements (the iterator yields the indices first, as integer ids). -/
inductive JsVal
  | undefined
  | null
  | boolean (b : Bool)
  | number (n : JsNumber)
  | string (s : String)
  | object (proxy : Bool) (props : List (JsId × JsVal)) (enumFails : Bool)
  | array (proxy : Bool) (elems : List (Option JsVal)) (props : List (JsId × JsVal))
      (enumFails : Bool)

/-- Modelled from the spec: the tagged value `cocos2d::Value`, declared outside
this file. Its variants are those of the spec's TaggedValue (boolean, integer,
double, string, list, string-keyed map, integer-keyed map) together with the
`FLOAT` case the switch statements of the file name and the empty variant
(`none`) of a default-constructed value, which falls into their `default:`.
The payload of `string` is the text of the native string, which may hold the
character U+0000; whether the bytes of a native string are accepted as UTF-8
is the answer `transcodeOk` of the engine. -/
inductive Value
  | none
  | integer (i : Int)
  | float (f : JsNumber)
  | double (d : JsNumber)
  | boolean (b : Bool)
  | string (s : String)
  | vector (v : List Value)
  | map (m : List (String × Value))
  | intKeyMap (m : List (Int × Value))

/-- The list `cocos2d::ValueVector` (`std::vector<Value>`). -/
abbrev ValueVector := List Value

/-- The map `cocos2d::ValueMap` (`std::unordered_map<std::string, Value>`), as the
list of its entries in iteration order. -/
abbrev ValueMap := List (String × Value)

/-- The map `cocos2d::ValueMapIntKey` (`std::unordered_map<int, Value>`), as the
list of its entries in iteration order. -/
abbrev ValueMapIntKey := List (Int × Value)

/-- Modelled from the spec: what a call of a converter with an output parameter
does. `CCASSERT` is declared outside this file and the spec calls a failed one
a fatal assertion: `abort`. Otherwise the call returns the flag `ok` and leaves
`out` in its output parameter. -/
inductive Outcome (α : Type)
  | abort
  | ret (ok : Bool) (out : α)

/-- The text a C string holds: a buffer read as `const char*` ends before its
first zero byte, that is before the first character U+0000 of the text. This
is what `JSStringWrapper::get()` and `std::string::c_str()` hand on. -/
def c_str (text : String) : String :=
  ⟨text.data.takeWhile (fun c => c.toNat != 0)⟩

/-- The bytes of a character in UTF-8. -/
def utf8Bytes (c : Char) : List Nat :=
  if c.toNat < 0x80 then [c.toNat]
  else if c.toNat < 0x800 then [0xC0 + c.toNat / 0x40, 0x80 + c.toNat % 0x40]
  else if c.toNat < 0x10000 then
    [0xE0 + c.toNat / 0x1000, 0x80 + c.toNat / 0x40 % 0x40, 0x80 + c.toNat % 0x40]
  else
    [0xF0 + c.toNat / 0x40000, 0x80 + c.toNat / 0x1000 % 0x40, 0x80 + c.toNat / 0x40 % 0x40,
      0x80 + c.toNat % 0x40]

/-- The property name the engine makes of the C string `key.c_str()` that is
passed to `JS_SetProperty`: the string ends before its first zero byte, and
every byte of the UTF-8 text becomes one character of the name. A text of
ASCII characters without U+0000 names itself. -/
def propertyName (key : String) : String :=
  ⟨((c_str key).data.flatMap utf8Bytes).map Char.ofNat⟩

/-- The character of the decimal digit `d`. -/
def digitChar (d : Nat) : Char := Char.ofNat (48 + d)

/-- The decimal digits of a natural number, the most significant first, as
`printf` writes them: `0` for zero, no leading zero otherwise. -/
def decimalDigits (n : Nat) : List Char :=
  if n = 0 then ['0'] else (Nat.digits 10 n).reverse.map digitChar

/-- The decimal text of an integer: a minus sign for a negative number, then the
decimal digits. This is the text `snprintf(chr, sizeof(chr)-1, "%ld", number)`
leaves in `chr` (a `long` of 64 bits has at most twenty characters, which fit
the buffer of 128) and the text `keyss << key` prints for an `int`. -/
def printLong (number : Int) : String :=
  ⟨if number < 0 then '-' :: decimalDigits number.natAbs else decimalDigits number.natAbs⟩

/-- The call `dict.insert(ValueMap::value_type(key, x))`: an entry whose key is
already present is left as it is. -/
def ValueMap.insert (dict : ValueMap) (key : String) (x : Value) : ValueMap :=
  if dict.any (fun e => e.1 == key) then dict else dict ++ [(key, x)]

/-! ## Script to native -/

mutual
/-- The function `jsval_to_ccvaluemap` (lines 1052-1137). -/
def jsval_to_ccvaluemap (v : JsVal) (ret : ValueMap) : Outcome ValueMap :=
  match v with
  | .undefined => .ret true ret
  | .null => .ret true ret
  -- `toObjectOrNull()` of a value that is no object: "the jsval is not an object"
  | .boolean _ => .ret false ret
  | .number _ => .ret false ret
  | .string _ => .ret false ret
  | .object _ props enumFails => jsval_to_ccvaluemap_loop props enumFails ret
  -- the indices of an array come first, as integer ids, and are skipped
  | .array _ _ props enumFails => jsval_to_ccvaluemap_loop props enumFails ret
/-- The `while (true)` loop of `jsval_to_ccvaluemap` over the property iterator.
The key of an entry is `keyWrapper.get()` and a string value is
`valueWapper.get()`, both taken as C strings. -/
def jsval_to_ccvaluemap_loop (props : List (JsId × JsVal)) (enumFails : Bool)
    (dict : ValueMap) : Outcome ValueMap :=
  match props with
  | [] => if enumFails then .ret false dict else .ret true dict
  | (.int _, _) :: rest => jsval_to_ccvaluemap_loop rest enumFails dict
  | (.str key, value) :: rest =>
    match value with
    | .object proxy ps ef =>
      if proxy then .abort else
      match jsval_to_ccvaluemap (.object proxy ps ef) [] with
      | .abort => .abort
      | .ret true dictVal =>
        jsval_to_ccvaluemap_loop rest enumFails (ValueMap.insert dict (c_str key) (.map dictVal))
      | .ret false _ => jsval_to_ccvaluemap_loop rest enumFails dict
    | .array proxy es ps ef =>
      if proxy then .abort else
      match jsval_to_ccvaluevector (.array proxy es ps ef) [] with
      | .abort => .abort
      | .ret true arrVal =>
        jsval_to_ccvaluemap_loop rest enumFails (ValueMap.insert dict (c_str key) (.vector arrVal))
      | .ret false _ => jsval_to_ccvaluemap_loop rest enumFails dict
    | .string s =>
      jsval_to_ccvaluemap_loop rest enumFails
        (ValueMap.insert dict (c_str key) (.string (c_str s)))
    | .number n =>
      jsval_to_ccvaluemap_loop rest enumFails (ValueMap.insert dict (c_str key) (.double n))
    | .boolean b =>
      jsval_to_ccvaluemap_loop rest enumFails (ValueMap.insert dict (c_str key) (.boolean b))
    | .undefined => .abort
    | .null => .abort
/-- The function `jsval_to_ccvaluevector` (lines 1226-1293). -/
def jsval_to_ccvaluevector (v : JsVal) (ret : ValueVector) : Outcome ValueVector :=
  match v with
  | .array _ elems _ _ => jsval_to_ccvaluevector_loop elems ret
  | .object _ _ _ => .ret false ret
  | .undefined => .ret false ret
  | .null => .ret false ret
  | .boolean _ => .ret false ret
  | .number _ => .ret false ret
  | .string _ => .ret false ret
/-- The `for` loop of `jsval_to_ccvaluevector` over the indices `0 .. len-1`; a
string element is `valueWapper.get()`, taken as a C string. -/
def jsval_to_ccvaluevector_loop (elems : List (Option JsVal)) (ret : ValueVector) :
    Outcome ValueVector :=
  match elems with
  | [] => .ret true ret
  | none :: rest => jsval_to_ccvaluevector_loop rest ret
  | some value :: rest =>
    match value with
    | .object proxy ps ef =>
      if proxy then .abort else
      match jsval_to_ccvaluemap (.object proxy ps ef) [] with
      | .abort => .abort
      | .ret true dictVal => jsval_to_ccvaluevector_loop rest (ret ++ [.map dictVal])
      | .ret false _ => jsval_to_ccvaluevector_loop rest ret
    | .array proxy es ps ef =>
      if proxy then .abort else
      match jsval_to_ccvaluevector (.array proxy es ps ef) [] with
      | .abort => .abort
      | .ret true arrVal => jsval_to_ccvaluevector_loop rest (ret ++ [.vector arrVal])
      | .ret false _ => jsval_to_ccvaluevector_loop rest ret
    | .string s => jsval_to_ccvaluevector_loop rest (ret ++ [.string (c_str s)])
    | .number n => jsval_to_ccvaluevector_loop rest (ret ++ [.double n])
    | .boolean b => jsval_to_ccvaluevector_loop rest (ret ++ [.boolean b])
    | .undefined => .abort
    | .null => .abort
end

/-- The function `jsval_to_ccvalue` (lines 1001-1050): whatever the nested
converter reports, the function ends in `return true`. A string is
`valueWapper.get()`, taken as a C string. -/
def jsval_to_ccvalue (v : JsVal) (ret : Value) : Outcome Value :=
  match v with
  | .object proxy ps ef =>
    if proxy then .abort else
    match jsval_to_ccvaluemap (.object proxy ps ef) [] with
    | .abort => .abort
    | .ret true dictVal => .ret true (.map dictVal)
    | .ret false _ => .ret true ret
  | .array proxy es ps ef =>
    if proxy then .abort else
    match jsval_to_ccvaluevector (.array proxy es ps ef) [] with
    | .abort => .abort
    | .ret true arrVal => .ret true (.vector arrVal)
    | .ret false _ => .ret true ret
  | .string s => .ret true (.string (c_str s))
  | .number n => .ret true (.double n)
  | .boolean b => .ret true (.boolean b)
  | .undefined => .abort
  | .null => .abort

/-! ## Native to script -/

/-- The part of the engine and of the platform the native-to-script converters
consult:
* `setElementOk i v`: the call `JS_SetElement(cx, arr, i, v)` succeeds;
* `toLength v`: the array length a string, an object or an array stands for
  when it is assigned to the property `length` of an array (none when the
  engine refuses it with a range error);
* `transcodeOk text`: `StringUtils::UTF8ToUTF16` accepts the bytes of the native
  string whose text is `text` (it returns false for bytes that are not UTF-8);
* `newStringOk text`: `JS_NewUCStringCopyN` delivers a string of this text (it
  returns the null pointer when the engine cannot allocate it). -/
structure Engine where
  setElementOk : Nat → JsVal → Bool
  toLength : JsVal → Option Nat
  transcodeOk : String → Bool
  newStringOk : String → Bool

/-- An engine on which every element assignment succeeds and every string is
transcoded and created, and to which no string, object or array is an array
length (as the engine decides for a text that is no numeral and for an array
of several elements). -/
def okEngine : Engine := ⟨fun _ _ => true, fun _ => none, fun _ => true, fun _ => true⟩

/-- An engine like `okEngine` on which `StringUtils::UTF8ToUTF16` returns false,
as it does for a native string whose bytes are not UTF-8. -/
def noTranscodingEngine : Engine :=
  ⟨fun _ _ => true, fun _ => none, fun _ => false, fun _ => true⟩

/-- An engine like `okEngine` on which `JS_NewUCStringCopyN` returns the null
pointer. -/
def noStringEngine : Engine :=
  ⟨fun _ _ => true, fun _ => none, fun _ => true, fun _ => false⟩

/-- The effect of `JS_SetProperty(cx, obj, name, v)` on the properties of `obj`,
for a name that the object does not treat specially: the property called
`name` is overwritten, or added after the others. -/
def JS_SetProperty (props : List (JsId × JsVal)) (name : String) (v : JsVal) :
    List (JsId × JsVal) :=
  match props with
  | [] => [(.str name, v)]
  | (id, old) :: rest =>
    if id = .str name then (id, v) :: rest else (id, old) :: JS_SetProperty rest name v

/-- The effect of a successful `JS_SetElement(cx, arr, i, v)` on the elements of
`arr`: a hole below `i` reads as `undefined`. -/
def JS_SetElement (elems : List (Option JsVal)) (i : Nat) (v : JsVal) : List (Option JsVal) :=
  if i < elems.length then elems.set i (some v)
  else elems ++ List.replicate (i - elems.length) (some .undefined) ++ [some v]

/-- The array index a property name stands for: the name is the decimal numeral,
without sign and without a leading zero, of a number below `2^32 - 1`. The
engine keeps such a name as an integer id and, on an array, as an element. -/
def arrayIndex (name : String) : Option Nat :=
  if name.data.all Char.isDigit && !name.data.isEmpty &&
      (name.data.length == 1 || name.data.head? != some '0') then
    if name.data.foldl (fun acc c => 10 * acc + (c.toNat - 48)) 0 < 2 ^ 32 - 1 then
      some (name.data.foldl (fun acc c => 10 * acc + (c.toNat - 48)) 0)
    else none
  else none

/-- The elements of an array after its length is set to `n`: the elements from
`n` on are dropped, or the array is extended by holes, which read as
`undefined`. -/
def setArrayLength (elems : List (Option JsVal)) (n : Nat) : List (Option JsVal) :=
  if n ≤ elems.length then elems.take n
  else elems ++ List.replicate (n - elems.length) (some .undefined)

/-- The array length a value stands for when it is assigned to the property
`length` of an array: its number, when that is an integer from 0 to
`2^32 - 1`; none when the engine raises a range error. -/
def lengthOf (E : Engine) (v : JsVal) : Option Nat :=
  match v with
  | .number (.finite q) =>
    if q.den = 1 ∧ 0 ≤ q.num ∧ q.num < 2 ^ 32 then some q.num.toNat else none
  | .number _ => none
  | .boolean b => some (if b then 1 else 0)
  | .null => some 0
  | .undefined => none
  | other => E.toLength other

/-- A name that an array object treats specially when it is assigned: an array
index, `length`, and `__proto__`. -/
def specialName (name : String) : Bool :=
  (arrayIndex name).isSome || name == "length" || name == "__proto__"

/-- The effect of `JS_SetProperty(cx, arr, name, v)` on an array object, given by
its elements and its properties. A name that is an array index assigns the
element; `length` sets the length, when the value stands for one; `__proto__`
reaches the setter of the prototype and leaves elements and properties as they
are (the prototype is not part of the model); any other name assigns the
property. -/
def JS_SetProperty_array (E : Engine) (arr : List (Option JsVal) × List (JsId × JsVal))
    (name : String) (v : JsVal) : List (Option JsVal) × List (JsId × JsVal) :=
  if name = "__proto__" then arr
  else if name = "length" then
    match lengthOf E v with
    | some n => (setArrayLength arr.1 n, arr.2)
    | none => arr
  else
    match arrayIndex name with
    | some i => (JS_SetElement arr.1 i v, arr.2)
    | none => (arr.1, JS_SetProperty arr.2 name v)

/-- The function `c_string_to_jsval` (lines 1776-1825) on a string buffer that is
present and whose length is given: the empty text gives the empty string
(`JS_NewStringCopyZ(cx, "")`, whose result the source does not test); any
other text gives a string when `UTF8ToUTF16` accepts it and
`JS_NewUCStringCopyN` delivers the string, and `JSVAL_NULL` otherwise. -/
def c_string_to_jsval (E : Engine) (v : String) : JsVal :=
  if v = "" then .string ""
  else if E.transcodeOk v then
    if E.newStringOk v then .string v else .null
  else .null

/-- The function `std_string_to_jsval` (lines 1771-1774): the whole string, with
its length, is passed on. -/
def std_string_to_jsval (E : Engine) (v : String) : JsVal := c_string_to_jsval E v

mutual
/-- The function `ccvalue_to_jsval` (lines 2262-2296); `ret` starts as `JSVAL_NULL`. -/
def ccvalue_to_jsval (E : Engine) (v : Value) : JsVal :=
  match v with
  | .boolean b => .boolean b
  | .float f => .number f
  | .double d => .number d
  | .integer i => .number (.ofInt i)
  | .string s => std_string_to_jsval E s
  | .vector vec => ccvaluevector_to_jsval E vec
  | .map m => ccvaluemap_to_jsval E m
  | .intKeyMap m => ccvaluemapintkey_to_jsval E m
  | .none => .null
/-- The function `ccvaluemap_to_jsval` (lines 2298-2343). -/
def ccvaluemap_to_jsval (E : Engine) (v : ValueMap) : JsVal :=
  -- `JS_NewArrayObject(cx, 0)`, then the loop
  .array false (ccvaluemap_to_jsval_loop E v ([], [])).1
    (ccvaluemap_to_jsval_loop E v ([], [])).2 false
/-- The `for` loop of `ccvaluemap_to_jsval`; `dictElement` starts as `undefined`,
and `jsRet` is the array, by its elements and its properties. The test
`key.empty()` is on the whole key; the name of the property is the C string
`key.c_str()`. -/
def ccvaluemap_to_jsval_loop (E : Engine) (v : ValueMap)
    (jsRet : List (Option JsVal) × List (JsId × JsVal)) :
    List (Option JsVal) × List (JsId × JsVal) :=
  match v with
  | [] => jsRet
  | (key, obj) :: rest =>
    let dictElement : JsVal :=
      match obj with
      | .boolean b => .boolean b
      | .float f => .number f
      | .double d => .number d
      | .integer i => .number (.ofInt i)
      | .string s => std_string_to_jsval E s
      | .vector vec => ccvaluevector_to_jsval E vec
      | .map m => ccvaluemap_to_jsval E m
      | .intKeyMap m => ccvaluemapintkey_to_jsval E m
      | .none => .undefined
    if key ≠ "" then
      ccvaluemap_to_jsval_loop E rest
        (JS_SetProperty_array E jsRet (propertyName key) dictElement)
    else ccvaluemap_to_jsval_loop E rest jsRet
/-- The function `ccvaluemapintkey_to_jsval` (lines 2345-2392). -/
def ccvaluemapintkey_to_jsval (E : Engine) (v : ValueMapIntKey) : JsVal :=
  -- `JS_NewArrayObject(cx, 0)`, then the loop
  .array false (ccvaluemapintkey_to_jsval_loop E v ([], [])).1
    (ccvaluemapintkey_to_jsval_loop E v ([], [])).2 false
/-- The `for` loop of `ccvaluemapintkey_to_jsval`; the key is printed in decimal,
so the key of an entry that is not negative is an array index. The name of
the property is the C string `key.c_str()`. -/
def ccvaluemapintkey_to_jsval_loop (E : Engine) (v : ValueMapIntKey)
    (jsRet : List (Option JsVal) × List (JsId × JsVal)) :
    List (Option JsVal) × List (JsId × JsVal) :=
  match v with
  | [] => jsRet
  | (k, obj) :: rest =>
    let key : String := printLong k
    let dictElement : JsVal :=
      match obj with
      | .boolean b => .boolean b
      | .float f => .number f
      | .double d => .number d
      | .integer i => .number (.ofInt i)
      | .string s => std_string_to_jsval E s
      | .vector vec => ccvaluevector_to_jsval E vec
      | .map m => ccvaluemap_to_jsval E m
      | .intKeyMap m => ccvaluemapintkey_to_jsval E m
      | .none => .undefined
    if key ≠ "" then
      ccvaluemapintkey_to_jsval_loop E rest
        (JS_SetProperty_array E jsRet (propertyName key) dictElement)
    else ccvaluemapintkey_to_jsval_loop E rest jsRet
/-- The function `ccvaluevector_to_jsval` (lines 2394-2437). -/
def ccvaluevector_to_jsval (E : Engine) (v : ValueVector) : JsVal :=
  -- `JS_NewArrayObject(cx, 0)`, then the loop from `i = 0`
  .array false (ccvaluevector_to_jsval_loop E v 0 []) [] false
/-- The `for` loop of `ccvaluevector_to_jsval`; `arrElement` starts as `undefined`,
and a failed `JS_SetElement` leaves the loop. -/
def ccvaluevector_to_jsval_loop (E : Engine) (v : ValueVector) (i : Nat)
    (jsretArr : List (Option JsVal)) : List (Option JsVal) :=
  match v with
  | [] => jsretArr
  | obj :: rest =>
    let arrElement : JsVal :=
      match obj with
      | .boolean b => .boolean b
      | .float f => .number f
      | .double d => .number d
      | .integer i => .number (.ofInt i)
      | .string s => std_string_to_jsval E s
      | .vector vec => ccvaluevector_to_jsval E vec
      | .map m => ccvaluemap_to_jsval E m
      | .intKeyMap m => ccvaluemapintkey_to_jsval E m
      | .none => .undefined
    if E.setElementOk i arrElement then
      ccvaluevector_to_jsval_loop E rest (i + 1) (JS_SetElement jsretArr i arrElement)
    else jsretArr
end

/-! ## Predicates of the statements -/

mutual
/-- A value the generic converter handles when it meets it as a nested element:
a string, a number, a boolean, or an object or array that is bound to no native
instance, whose iteration ends without an error and whose string-keyed property
values, respectively readable elements, are again such values. -/
def supported : JsVal → Bool
  | .boolean _ => true
  | .number _ => true
  | .string _ => true
  | .object proxy ps ef => !proxy && !ef && supportedProps ps
  | .array proxy es _ _ => !proxy && supportedElems es
  | .undefined => false
  | .null => false
/-- Every value under a string key is `supported`. -/
def supportedProps : List (JsId × JsVal) → Bool
  | [] => true
  | (.int _, _) :: rest => supportedProps rest
  | (.str _, v) :: rest => supported v && supportedProps rest
/-- Every element can be read and is `supported`. -/
def supportedElems : List (Option JsVal) → Bool
  | [] => true
  | none :: _ => false
  | some v :: rest => supported v && supportedElems rest
end

mutual
/-- The tagged value the converters build for a `supported` value (a device of
the proofs: the statements speak of `jsval_to_ccvalue` itself). -/
def convValue : JsVal → Value
  | .boolean b => .boolean b
  | .number n => .double n
  | .string s => .string (c_str s)
  | .object _ ps _ => .map (convProps ps [])
  | .array _ es _ _ => .vector (convElems es)
  | .undefined => .none
  | .null => .none
/-- The entries the map loop inserts into `dict` for `supported` properties. -/
def convProps : List (JsId × JsVal) → ValueMap → ValueMap
  | [], dict => dict
  | (.int _, _) :: rest, dict => convProps rest dict
  | (.str k, v) :: rest, dict => convProps rest (ValueMap.insert dict (c_str k) (convValue v))
/-- The values the vector loop appends for `supported` elements. -/
def convElems : List (Option JsVal) → List Value
  | [] => []
  | none :: rest => convElems rest
  | some v :: rest => convValue v :: convElems rest
end

/-- The string keys of a property list, in iteration order. -/
def stringKeys : List (JsId × JsVal) → List String
  | [] => []
  | (.int _, _) :: rest => stringKeys rest
  | (.str k, _) :: rest => k :: stringKeys rest

/-- The keys under which the map loop inserts the string-keyed properties: each
string key as a C string, in iteration order. -/
def entryKeys (ps : List (JsId × JsVal)) : List String := (stringKeys ps).map c_str

/-- A text without the character U+0000. -/
def noNul (text : String) : Bool := text.data.all (fun c => c.toNat != 0)

/-- A key that names itself as a property: its characters are ASCII and none is
U+0000. -/
def asciiKey (key : String) : Bool := key.data.all (fun c => c.toNat != 0 && c.toNat < 0x80)

/-- The value the loops of the native-to-script converters assign for an entry:
`ccvalue_to_jsval` of a tagged value, and `undefined` for the empty variant,
which falls into the `default:` of their switch. -/
def assignedValue (E : Engine) (x : Value) : JsVal :=
  match x with
  | .none => .undefined
  | other => ccvalue_to_jsval E other

mutual
/-- A value on which the element switch of the loops ends in a failed `CCASSERT`:
`null`, `undefined`, an object or array bound to a native instance, or an
unbound one that holds such a value in a readable element or under a string key. -/
def asserts : JsVal → Bool
  | .undefined => true
  | .null => true
  | .boolean _ => false
  | .number _ => false
  | .string _ => false
  | .object proxy ps _ => proxy || assertsProps ps
  | .array proxy es _ _ => proxy || assertsElems es
/-- Some value under a string key `asserts`. -/
def assertsProps : List (JsId × JsVal) → Bool
  | [] => false
  | (.int _, _) :: rest => assertsProps rest
  | (.str _, v) :: rest => asserts v || assertsProps rest
/-- Some readable element `asserts`. -/
def assertsElems : List (Option JsVal) → Bool
  | [] => false
  | none :: rest => assertsElems rest
  | some v :: rest => asserts v || assertsElems rest
end

/-- A tagged value of the closed set of the spec: any variant but the empty one. -/
def Value.isTagged : Value → Bool
  | .none => false
  | _ => true

/-- The entries the map loop inserts for string-keyed properties with distinct
keys: one per property, in iteration order. -/
def convEntries : List (JsId × JsVal) → ValueMap
  | [] => []
  | (.int _, _) :: rest => convEntries rest
  | (.str k, v) :: rest => (c_str k, convValue v) :: convEntries rest

mutual
/-- The structures of the round trip: a nested structure (of any depth) of arrays
and of objects with pairwise distinct string keys, over booleans, numbers and
strings; nothing bound to a native instance, no engine failure. No string
holds the character U+0000; every key is of ASCII characters without U+0000,
and none is a name that an array treats specially (`length`, `__proto__`; an
array index is an integer key for the engine, not a string key). With
`emptyKeys = false` the empty string is excluded as a key. -/
def plainData (emptyKeys : Bool) : JsVal → Bool
  | .boolean _ => true
  | .number _ => true
  | .string s => noNul s
  | .object proxy ps ef =>
    !proxy && !ef && plainProps emptyKeys ps && decide (stringKeys ps).Nodup
  | .array proxy es ps _ => !proxy && plainElems emptyKeys es && ps.isEmpty
  | .undefined => false
  | .null => false
/-- Every key is a string of ASCII characters without U+0000, none a special
name, and every value is `plainData`. -/
def plainProps (emptyKeys : Bool) : List (JsId × JsVal) → Bool
  | [] => true
  | (.int _, _) :: _ => false
  | (.str k, v) :: rest =>
    ((emptyKeys || k != "") && (!specialName k && asciiKey k)) && plainData emptyKeys v &&
      plainProps emptyKeys rest
/-- Every element can be read and is `plainData`. -/
def plainElems (emptyKeys : Bool) : List (Option JsVal) → Bool
  | [] => true
  | none :: _ => false
  | some v :: rest => plainData emptyKeys v && plainElems emptyKeys rest
end

/-- The indexed elements of a value: those of an array, none for any other value. -/
def JsVal.elems : JsVal → List (Option JsVal)
  | .array _ es _ _ => es
  | _ => []

/-- The properties of an object, or of an array next to its indexed elements. -/
def JsVal.props : JsVal → List (JsId × JsVal)
  | .object _ ps _ => ps
  | .array _ _ ps _ => ps
  | _ => []

/-- The test `isObject()`. -/
def JsVal.isObject : JsVal → Bool
  | .object _ _ _ => true
  | .array _ _ _ _ => true
  | _ => false

mutual
/-- Equivalence of two structures as the round trip understands it: equal
booleans, numbers and strings; for objects and arrays, the indexed elements
have the same length and are equivalent in the same order, and the properties
have the same keys bound to equivalent values. Whether the object is an array
object or not is not compared. -/
def jsEquiv : JsVal → JsVal → Bool
  | .undefined, y => (match y with | .undefined => true | _ => false)
  | .null, y => (match y with | .null => true | _ => false)
  | .boolean a, y => (match y with | .boolean b => a == b | _ => false)
  | .number a, y => (match y with | .number b => a == b | _ => false)
  | .string a, y => (match y with | .string b => a == b | _ => false)
  | .object _ ps _, y =>
    y.isObject && y.elems.isEmpty && jsEquivProps ps y.props &&
      y.props.all (fun q => ps.any (fun p => p.1 == q.1))
  | .array _ es ps _, y =>
    y.isObject && jsEquivElems es y.elems && jsEquivProps ps y.props &&
      y.props.all (fun q => ps.any (fun p => p.1 == q.1))
/-- Same length, equivalent elements in the same order. -/
def jsEquivElems : List (Option JsVal) → List (Option JsVal) → Bool
  | [], fs => fs.isEmpty
  | none :: rest, fs => (match fs with | none :: gs => jsEquivElems rest gs | _ => false)
  | some a :: rest, fs =>
    (match fs with | some b :: gs => jsEquiv a b && jsEquivElems rest gs | _ => false)
/-- Every key of the first list is bound in the second, to an equivalent value. -/
def jsEquivProps : List (JsId × JsVal) → List (JsId × JsVal) → Bool
  | [], _ => true
  | (k, a) :: rest, qs =>
    (match qs.lookup k with | some b => jsEquiv a b | none => false) && jsEquivProps rest qs
end
/-! ## Scripting values by identity

The identity table and the callback holder store and compare scripting
objects; for them a value is its handle, not its content. -/

/-- A scripting value up to identity: an object is the identity `id` of the
engine object behind the handle (`JSObject*`). -/
inductive JsRef
  | undefined
  | null
  | boolean (b : Bool)
  | number (n : JsNumber)
  | string (s : String)
  | object (id : Nat)
  deriving DecidableEq, Repr

/-- The test `isNullOrUndefined()`. -/
def JsRef.isNullOrUndefined : JsRef → Bool
  | .undefined => true
  | .null => true
  | _ => false

/-- The call `toObjectOrNull()`: the object of an object value, the null pointer
(`none`) otherwise. -/
def JsRef.toObjectOrNull : JsRef → Option Nat
  | .object id => some id
  | _ => none

/-- The call `OBJECT_TO_JSVAL(obj)`: the null value for the null pointer. -/
def OBJECT_TO_JSVAL : Option Nat → JsRef
  | some id => .object id
  | none => .null

/-! ## The identity table of native handles -/

/-- Modelled from the spec: the flags of a proxy record, declared outside this
file; the spec names the flag "do not auto-free on collection"
(`JSB_C_FLAG_DO_NOT_CALL_FREE`). -/
inductive jsb_c_flag
  | JSB_C_FLAG_CALL_FREE
  | JSB_C_FLAG_DO_NOT_CALL_FREE
  deriving DecidableEq, Repr

/-- Modelled from the spec: the proxy record `jsb_c_proxy_s`, declared outside
this file: the native handle, the flags and the scripting object. -/
structure jsb_c_proxy_s where
  handle : Nat
  flags : jsb_c_flag
  jsobj : Nat
  deriving DecidableEq, Repr

/-- Modelled from the spec: the process-wide identity table, kept outside this
file. It maps a native handle to its scripting object (`jsobject_for_proxy`)
and a scripting object to its proxy record (`c_proxy_for_jsobject`), the latest
registration first. `objects` counts the scripting objects the engine has
created: their identities are the numbers below it. -/
structure ProxyTable where
  jsobject_for_proxy : List (Nat × Nat)
  c_proxy_for_jsobject : List (Nat × jsb_c_proxy_s)
  objects : Nat
  deriving DecidableEq, Repr

/-- The table of a runtime that has wrapped nothing yet. -/
def ProxyTable.empty : ProxyTable := ⟨[], [], 0⟩

/-- Modelled from the spec: the lookup `jsb_get_jsobject_for_proxy(handle)`, which
is not part of this file: the scripting object registered for the handle, or
the null pointer (`none`). -/
def jsb_get_jsobject_for_proxy (t : ProxyTable) (handle : Nat) : Option Nat :=
  t.jsobject_for_proxy.lookup handle

/-- Modelled from the spec: the registration `jsb_set_jsobject_for_proxy(jsobj,
handle)`, which is not part of this file. -/
def jsb_set_jsobject_for_proxy (t : ProxyTable) (jsobj : Nat) (handle : Nat) : ProxyTable :=
  { t with jsobject_for_proxy := (handle, jsobj) :: t.jsobject_for_proxy }

/-- Modelled from the spec: the lookup `jsb_get_c_proxy_for_jsobject(jsobj)`, which
is not part of this file: the proxy record registered for the object, or the
null pointer (`none`) when there is none or `jsobj` is the null pointer. -/
def jsb_get_c_proxy_for_jsobject (t : ProxyTable) (jsobj : Option Nat) : Option jsb_c_proxy_s :=
  match jsobj with
  | some o => t.c_proxy_for_jsobject.lookup o
  | none => none

/-- Modelled from the spec: the registration `jsb_set_c_proxy_for_jsobject(jsobj,
handle, flags)`, which is not part of this file: a new record for the object. -/
def jsb_set_c_proxy_for_jsobject (t : ProxyTable) (jsobj : Nat) (handle : Nat)
    (flags : jsb_c_flag) : ProxyTable :=
  { t with c_proxy_for_jsobject := (jsobj, ⟨handle, flags, jsobj⟩) :: t.c_proxy_for_jsobject }

/-- The call `JS_NewObject(cx, klass, proto, parent)`: a new object with the next
identity, or the null pointer when the engine fails (`ok = false`). -/
def JS_NewObject (ok : Bool) (t : ProxyTable) : Option Nat × ProxyTable :=
  if ok then (some t.objects, { t with objects := t.objects + 1 }) else (none, t)

/-- The function `c_class_to_jsval` (lines 296-310) on the handle `handle`; the
class, prototype and name only reach `JS_NewObject`. The result is the value
returned and the table after the call; `none` is the failed
`CCASSERT(jsobj, "Invalid object")`. -/
def c_class_to_jsval (newObjectOk : Bool) (t : ProxyTable) (handle : Nat) :
    Option (JsRef × ProxyTable) :=
  match jsb_get_jsobject_for_proxy t handle with
  | some jsobj => some (OBJECT_TO_JSVAL (some jsobj), t)
  | none =>
    match JS_NewObject newObjectOk t with
    | (none, _) => none
    | (some jsobj, t1) =>
      let t2 := jsb_set_c_proxy_for_jsobject t1 jsobj handle .JSB_C_FLAG_DO_NOT_CALL_FREE
      let t3 := jsb_set_jsobject_for_proxy t2 jsobj handle
      some (OBJECT_TO_JSVAL (some jsobj), t3)

/-- The call `JS_ValueToObject(cx, vp, &jsobj)`: `none` when it returns false,
otherwise the object delivered (`some none` is the null pointer). An object
value delivers its object; what the engine delivers for any other value is
`toObject`. -/
def JS_ValueToObject (toObject : JsRef → Option (Option Nat)) (vp : JsRef) :
    Option (Option Nat) :=
  match vp with
  | .object id => some (some id)
  | v => toObject v

/-- What a call of `jsval_to_c_class` does: it dereferences a null pointer, or it
returns `ok` and leaves `out_native` and `out_proxy` in its output parameters
(`out_proxy = none` when the caller passed no location for the record). -/
inductive Unwrapped
  | nullDereference
  | ret (ok : Bool) (out_native : Nat) (out_proxy : Option (Option jsb_c_proxy_s))
  deriving DecidableEq, Repr

/-- The function `jsval_to_c_class` (lines 312-323): `proxy->handle` is read without
a test of `proxy`. -/
def jsval_to_c_class (toObject : JsRef → Option (Option Nat)) (t : ProxyTable) (vp : JsRef)
    (out_native : Nat) (out_proxy : Option (Option jsb_c_proxy_s)) : Unwrapped :=
  match JS_ValueToObject toObject vp with
  | none => .ret false out_native out_proxy
  | some jsobj =>
    match jsb_get_c_proxy_for_jsobject t jsobj with
    | none => .nullDereference
    | some proxy => .ret true proxy.handle (out_proxy.map (fun _ => some proxy))

/-- The two directions of the table agree: the object registered for a handle
carries a proxy record of that handle. -/
def ProxyTable.consistent (t : ProxyTable) : Prop :=
  ∀ handle jsobj, jsb_get_jsobject_for_proxy t handle = some jsobj →
    ∃ proxy, jsb_get_c_proxy_for_jsobject t (some jsobj) = some proxy ∧ proxy.handle = handle

/-- Every object the table mentions has been created by the engine. -/
def ProxyTable.created (t : ProxyTable) : Prop :=
  (∀ e ∈ t.jsobject_for_proxy, e.2 < t.objects) ∧
  (∀ e ∈ t.c_proxy_for_jsobject, e.1 < t.objects)

/-! ## The callback holder `JSFunctionWrapper` -/

/-- Modelled from the spec: the reachability graph of the engine, kept outside
this file, as the set of its registered strong edges (owner, target). -/
abbrev RefGraph := List (JsRef × JsRef)

/-- Modelled from the spec: the call `js_add_object_reference(owner, target)`, which
is not part of this file: it adds the strong edge from `owner` to `target`. -/
def js_add_object_reference (g : RefGraph) (owner target : JsRef) : RefGraph :=
  if (owner, target) ∈ g then g else g ++ [(owner, target)]

/-- Modelled from the spec: the call `js_remove_object_reference(owner, target)`,
which is not part of this file: it removes the strong edge from `owner` to
`target`. -/
def js_remove_object_reference (g : RefGraph) (owner target : JsRef) : RefGraph :=
  g.filter (fun e => e ≠ (owner, target))

/-- Modelled from the spec: the lookup `jsb_get_js_proxy(obj)`, which is not part
of this file, in the table `proxies` of the objects that have a native proxy:
the native pointer `t->ptr` of the proxy of `obj` (0 is the null pointer), or
`none` when `obj` has no proxy (`t == nullptr`) or is the null pointer. -/
def jsb_get_js_proxy (proxies : List (Nat × Nat)) (obj : Option Nat) : Option Nat :=
  match obj with
  | some o => proxies.lookup o
  | none => none

/-- The fields of a `JSFunctionWrapper`: the receiver object (or the null pointer),
the function value, the owner value and the cached native pointer of the owner
(0 is `nullptr`). -/
structure JSFunctionWrapper where
  _jsthis : Option Nat
  _fval : JsRef
  _owner : JsRef
  _cppOwner : Nat
  deriving DecidableEq, Repr

/-- The method `JSFunctionWrapper::setOwner` (lines 154-179), with the graph before
and after the call. -/
def JSFunctionWrapper.setOwner (proxies : List (Nat × Nat)) (self : JSFunctionWrapper)
    (owner : JsRef) (g : RefGraph) : JSFunctionWrapper × RefGraph :=
  if !owner.isNullOrUndefined then
    let self1 := { self with _owner := owner }
    let self2 :=
      match jsb_get_js_proxy proxies owner.toObjectOrNull with
      | some ptr => { self1 with _cppOwner := ptr }
      | none => self1
    let thisVal := OBJECT_TO_JSVAL self._jsthis
    let g1 := if !thisVal.isNullOrUndefined then js_add_object_reference g owner thisVal else g
    let funcVal := self._fval
    let g2 := if !funcVal.isNullOrUndefined then js_add_object_reference g1 owner funcVal else g1
    (self2, g2)
  else (self, g)

/-- The constructor without an owner (lines 103-110). -/
def JSFunctionWrapper.create (jsthis : Option Nat) (fval : JsRef) : JSFunctionWrapper :=
  { _jsthis := jsthis, _fval := fval, _owner := .null, _cppOwner := 0 }

/-- The constructor with an owner (lines 111-118): `_owner` starts as the default
value `undefined`, then `setOwner` runs. -/
def JSFunctionWrapper.createWithOwner (proxies : List (Nat × Nat)) (jsthis : Option Nat)
    (fval : JsRef) (owner : JsRef) (g : RefGraph) : JSFunctionWrapper × RefGraph :=
  JSFunctionWrapper.setOwner proxies
    { _jsthis := jsthis, _fval := fval, _owner := .undefined, _cppOwner := 0 } owner g

/-- The destructor `JSFunctionWrapper::~JSFunctionWrapper` (lines 120-152):
`finalizing` is `sc->getFinalizing()`, the result is the graph after the call. -/
def JSFunctionWrapper.destroy (finalizing : Bool) (proxies : List (Nat × Nat))
    (self : JSFunctionWrapper) (g : RefGraph) : RefGraph :=
  let ownerVal := self._owner
  if finalizing || ownerVal.isNullOrUndefined then g
  else
    let released : Bool :=
      if self._cppOwner ≠ 0 then
        match jsb_get_js_proxy proxies ownerVal.toObjectOrNull with
        | none => true
        | some ptr => decide (self._cppOwner ≠ ptr)
      else false
    if released then g
    else
      let thisVal := OBJECT_TO_JSVAL self._jsthis
      let g1 :=
        if !thisVal.isNullOrUndefined then js_remove_object_reference g ownerVal thisVal else g
      let funcVal := self._fval
      if !funcVal.isNullOrUndefined then js_remove_object_reference g1 ownerVal funcVal else g1

/-- The targets of the edges a holder registers: the receiver when it is not the
null pointer, then the function value when it is neither null nor undefined. -/
def JSFunctionWrapper.targets (self : JSFunctionWrapper) : List JsRef :=
  (if (OBJECT_TO_JSVAL self._jsthis).isNullOrUndefined then [] else [OBJECT_TO_JSVAL self._jsthis])
    ++ (if self._fval.isNullOrUndefined then [] else [self._fval])

/-! ## Scalar and record conversions -/

/-- The operations of the engine and of the platform that the scalar and record
converters consult:
* `toStringOk v`: `JS::ToString` delivers a string for `v` (it returns the null
  pointer when the engine fails);
* `fractionToString q`: the text the engine prints for a finite number that is
  not an integer of magnitude at most `2^53`;
* `toNumber v`: `JS::ToNumber` on a string, an object or an array (`none` when
  it returns false);
* `toFloat x`: the C cast `(float)x` of a double;
* `newObjectOk`, `definePropertyOk name`: `JS_NewObject`, respectively
  `JS_DefineProperty` for the property `name`, succeeds. -/
structure Capabilities where
  toStringOk : JsVal → Bool
  fractionToString : ℚ → String
  toNumber : JsVal → Option JsNumber
  toFloat : JsNumber → JsNumber
  newObjectOk : Bool
  definePropertyOk : String → Bool

/-- An engine on which these calls succeed, with a cast to float that is exact (as
it is on every number that is a float). It serves to evaluate the converters
on integers of magnitude at most `2^53`, booleans and plain objects:
`toNumber` answers not-a-number, as the engine does for a plain object and for
a string that is no numeric literal, and `fractionToString` is not meant to be
consulted. -/
def exactCapabilities : Capabilities :=
  { toStringOk := fun _ => true
    fractionToString := fun _ => ""
    toNumber := fun _ => some .nan
    toFloat := fun x => x
    newObjectOk := true
    definePropertyOk := fun _ => true }

/-- The text of a number by the engine's `ToString`: `NaN`, the infinities, the
decimal digits of an integer of magnitude at most `2^53`. For any other
number the engine prints the shortest digits that identify the double, which
is left to `fractionToString`. -/
def numberToString (C : Capabilities) : JsNumber → String
  | .nan => "NaN"
  | .infinite false => "Infinity"
  | .infinite true => "-Infinity"
  | .finite q =>
    if q.den = 1 ∧ q.num.natAbs ≤ 2 ^ 53 then toString q.num else C.fractionToString q

/-- The call `JS::ToString(cx, v)` on a string, a number or a boolean: the null
pointer (`none`) when the engine fails. -/
def JS_ToString (C : Capabilities) (v : JsVal) : Option String :=
  if C.toStringOk v then
    match v with
    | .string s => some s
    | .boolean true => some "true"
    | .boolean false => some "false"
    | .number n => some (numberToString C n)
    | _ => none
  else none

/-- The function `jsval_to_std_string` (lines 618-634): the output is assigned
`str.get()`, a C string. -/
def jsval_to_std_string (C : Capabilities) (v : JsVal) (ret : String) : Outcome String :=
  match v with
  | .string _ | .boolean _ | .number _ =>
    match JS_ToString C v with
    | none => .ret false ret
    | some tmp => .ret true (c_str tmp)
  | .undefined | .null => .ret true ""
  | .object _ _ _ | .array _ _ _ _ => .ret false ret

/-- The vector `cocos2d::Vec4`: four floats, each given by its value. -/
structure Vec4 where
  x : JsNumber
  y : JsNumber
  z : JsNumber
  w : JsNumber
  deriving DecidableEq, Repr

/-- The call `JS_DefineProperty(cx, obj, name, v, attrs)` on the properties of an
object, when it succeeds: the property is defined or redefined. -/
def JS_DefineProperty (props : List (JsId × JsVal)) (name : String) (v : JsVal) :
    List (JsId × JsVal) :=
  JS_SetProperty props name v

/-- The call `JS_GetProperty(cx, obj, name, &v)` on an object of data properties:
the value of the property, `undefined` when there is none. -/
def JS_GetProperty (obj : JsVal) (name : String) : JsVal :=
  match obj.props.lookup (.str name) with
  | some v => v
  | none => .undefined

/-- The call `JS::ToNumber(cx, v, &d)`: `none` when it returns false. -/
def JS_ToNumber (C : Capabilities) (v : JsVal) : Option JsNumber :=
  match v with
  | .number n => some n
  | .undefined => some .nan
  | .null => some (.ofInt 0)
  | .boolean true => some (.ofInt 1)
  | .boolean false => some (.ofInt 0)
  | other => C.toNumber other

/-- The test `std::isnan`. -/
def JsNumber.isnan : JsNumber → Bool
  | .nan => true
  | _ => false

/-- The function `vector4_to_jsval` (lines 2540-2552): the property `w` is defined
from `v.z`. -/
def vector4_to_jsval (C : Capabilities) (v : Vec4) : JsVal :=
  if !C.newObjectOk then .null
  else
    let ok := C.definePropertyOk "x" && C.definePropertyOk "y" && C.definePropertyOk "z" &&
      C.definePropertyOk "w"
    if ok then
      .object false
        (JS_DefineProperty (JS_DefineProperty (JS_DefineProperty (JS_DefineProperty []
          "x" (.number v.x)) "y" (.number v.y)) "z" (.number v.z)) "w" (.number v.z)) false
    else .null

/-- The function `jsval_to_vector4` (lines 1491-1518). -/
def jsval_to_vector4 (C : Capabilities) (vp : JsVal) (ret : Vec4) : Outcome Vec4 :=
  if vp.isObject then
    match JS_ToNumber C (JS_GetProperty vp "x"), JS_ToNumber C (JS_GetProperty vp "y"),
      JS_ToNumber C (JS_GetProperty vp "z"), JS_ToNumber C (JS_GetProperty vp "w") with
    | some x, some y, some z, some w =>
      if !x.isnan && !y.isnan && !z.isnan && !w.isnan then
        .ret true { x := C.toFloat x, y := C.toFloat y, z := C.toFloat z, w := C.toFloat w }
      else .ret false ret
    | _, _, _, _ => .ret false ret
  else .ret false ret

/-! ## Geometry and colour records -/

/-- Modelled from the spec: the point `cocos2d::Point`, declared outside this
file: the floats `x` and `y`. -/
structure Point where
  x : JsNumber
  y : JsNumber
  deriving DecidableEq, Repr

/-- Modelled from the spec: the size `cocos2d::Size`, declared outside this file:
the floats `width` and `height`. -/
structure Size where
  width : JsNumber
  height : JsNumber
  deriving DecidableEq, Repr

/-- Modelled from the spec: the rectangle `cocos2d::Rect`, declared outside this
file: an origin and a size. -/
structure Rect where
  origin : Point
  size : Size
  deriving DecidableEq, Repr

/-- Modelled from the spec: the colour `cocos2d::Color3B`, declared outside this
file: three bytes (`GLubyte`), each a number below 256. -/
structure Color3B where
  r : Nat
  g : Nat
  b : Nat
  deriving DecidableEq, Repr

/-- Modelled from the spec: the colour `cocos2d::Color4B`, declared outside this
file: four bytes (`GLubyte`), each a number below 256. -/
structure Color4B where
  r : Nat
  g : Nat
  b : Nat
  a : Nat
  deriving DecidableEq, Repr

/-- Modelled from the spec: the colour `cocos2d::Color4F`, declared outside this
file: four floats. -/
structure Color4F where
  r : JsNumber
  g : JsNumber
  b : JsNumber
  a : JsNumber
  deriving DecidableEq, Repr

/-- Modelled from the spec: the transform `cocos2d::AffineTransform`, declared
outside this file: six floats, as `AffineTransformMake(a, b, c, d, tx, ty)`
stores them. -/
structure AffineTransform where
  a : JsNumber
  b : JsNumber
  c : JsNumber
  d : JsNumber
  tx : JsNumber
  ty : JsNumber
  deriving DecidableEq, Repr

/-- Modelled from the spec: the matrix `cocos2d::Mat4`, declared outside this
file: the array `float m[16]`, as the list of its sixteen elements. -/
structure Mat4 where
  m : List JsNumber
  deriving DecidableEq, Repr

/-- What a call does that may leave the defined behaviour of the language: it
reads through a null object (`nullDereference`), it writes the element `index`
past the end of a fixed array (`outOfBounds`), or it returns the flag `ok` and
leaves `out` in its output parameter. -/
inductive Faulting (α : Type)
  | nullDereference
  | outOfBounds (index : Nat)
  | ret (ok : Bool) (out : α)

/-- The results of the conversions from floating point to an integer type that
the language leaves undefined: the operand is not finite, or its truncation
is not a value of the target type. -/
structure Casts where
  ubyte : JsNumber → Nat
  int32 : JsNumber → Int

/-- The integer part of a number, the fraction discarded (toward zero); none for
not-a-number and the infinities. -/
def JsNumber.trunc : JsNumber → Option Int
  | .finite q => some (if 0 ≤ q then ⌊q⌋ else ⌈q⌉)
  | _ => none

/-- The cast `(GLubyte)d` of a double. -/
def castGLubyte (P : Casts) (d : JsNumber) : Nat :=
  match d.trunc with
  | some k => if 0 ≤ k ∧ k < 256 then k.toNat else P.ubyte d % 256
  | none => P.ubyte d % 256

/-- The cast `(int32_t)f` of a float. -/
def castInt32 (P : Casts) (f : JsNumber) : Int :=
  match f.trunc with
  | some k =>
    if -2 ^ 31 ≤ k ∧ k < 2 ^ 31 then k else (P.int32 f + 2 ^ 31) % 2 ^ 32 - 2 ^ 31
  | none => (P.int32 f + 2 ^ 31) % 2 ^ 32 - 2 ^ 31

/-- The exact product `x * 255`. -/
def JsNumber.mul255 : JsNumber → JsNumber
  | .finite q => .finite (q * 255)
  | other => other

/-- The exact quotient `x / 255`. -/
def JsNumber.div255 : JsNumber → JsNumber
  | .finite q => .finite (q / 255)
  | other => other

/-- The test `JS_IsArrayObject` on a value for which `isObject()` holds. -/
def JsVal.isArray : JsVal → Bool
  | .array _ _ _ _ => true
  | _ => false

/-- The function `jsval_to_ccpoint` (lines 636-653). -/
def jsval_to_ccpoint (C : Capabilities) (v : JsVal) (ret : Point) : Outcome Point :=
  if v.isObject then
    match JS_ToNumber C (JS_GetProperty v "x"), JS_ToNumber C (JS_GetProperty v "y") with
    | some x, some y => .ret true { x := C.toFloat x, y := C.toFloat y }
    | _, _ => .ret false ret
  else .ret false ret

/-- The function `jsval_to_ccrect` (lines 832-858). -/
def jsval_to_ccrect (C : Capabilities) (v : JsVal) (ret : Rect) : Outcome Rect :=
  if v.isObject then
    match JS_ToNumber C (JS_GetProperty v "x"), JS_ToNumber C (JS_GetProperty v "y"),
      JS_ToNumber C (JS_GetProperty v "width"), JS_ToNumber C (JS_GetProperty v "height") with
    | some x, some y, some width, some height =>
      .ret true { origin := { x := C.toFloat x, y := C.toFloat y },
                  size := { width := C.toFloat width, height := C.toFloat height } }
    | _, _, _, _ => .ret false ret
  else .ret false ret

/-- The function `jsval_to_ccsize` (lines 860-876). -/
def jsval_to_ccsize (C : Capabilities) (v : JsVal) (ret : Size) : Outcome Size :=
  if v.isObject then
    match JS_ToNumber C (JS_GetProperty v "width"), JS_ToNumber C (JS_GetProperty v "height") with
    | some w, some h => .ret true { width := C.toFloat w, height := C.toFloat h }
    | _, _ => .ret false ret
  else .ret false ret

/-- The function `jsval_to_cccolor4b` (lines 878-904). -/
def jsval_to_cccolor4b (C : Capabilities) (P : Casts) (v : JsVal) (ret : Color4B) :
    Outcome Color4B :=
  if v.isObject then
    match JS_ToNumber C (JS_GetProperty v "r"), JS_ToNumber C (JS_GetProperty v "g"),
      JS_ToNumber C (JS_GetProperty v "b"), JS_ToNumber C (JS_GetProperty v "a") with
    | some r, some g, some b, some a =>
      .ret true { r := castGLubyte P r, g := castGLubyte P g, b := castGLubyte P b,
                  a := castGLubyte P a }
    | _, _, _, _ => .ret false ret
  else .ret false ret

/-- The function `jsval_to_cccolor4f` (lines 906-930): each component is
`(float)r / 255`, a division of floats. -/
def jsval_to_cccolor4f (C : Capabilities) (v : JsVal) (ret : Color4F) : Outcome Color4F :=
  if v.isObject then
    match JS_ToNumber C (JS_GetProperty v "r"), JS_ToNumber C (JS_GetProperty v "g"),
      JS_ToNumber C (JS_GetProperty v "b"), JS_ToNumber C (JS_GetProperty v "a") with
    | some r, some g, some b, some a =>
      .ret true { r := C.toFloat (C.toFloat r).div255, g := C.toFloat (C.toFloat g).div255,
                  b := C.toFloat (C.toFloat b).div255, a := C.toFloat (C.toFloat a).div255 }
    | _, _, _, _ => .ret false ret
  else .ret false ret

/-- The function `jsval_to_cccolor3b` (lines 932-953). -/
def jsval_to_cccolor3b (C : Capabilities) (P : Casts) (v : JsVal) (ret : Color3B) :
    Outcome Color3B :=
  if v.isObject then
    match JS_ToNumber C (JS_GetProperty v "r"), JS_ToNumber C (JS_GetProperty v "g"),
      JS_ToNumber C (JS_GetProperty v "b") with
    | some r, some g, some b =>
      .ret true { r := castGLubyte P r, g := castGLubyte P g, b := castGLubyte P b }
    | _, _, _ => .ret false ret
  else .ret false ret

/-- The `for` loop of `jsval_to_matrix` over the indices `i .. len-1`: an element
that `JS_GetElement` does not deliver is passed over, a number is written to
`ret->m[i]`, anything else ends the call with false. -/
def jsval_to_matrix_loop (C : Capabilities) :
    List (Option JsVal) → Nat → Mat4 → Faulting Mat4
  | [], _, ret => .ret true ret
  | none :: rest, i, ret => jsval_to_matrix_loop C rest (i + 1) ret
  | some (.number n) :: rest, i, ret =>
    match JS_ToNumber C (.number n) with
    | some number =>
      if i < 16 then jsval_to_matrix_loop C rest (i + 1) ⟨ret.m.set i (C.toFloat number)⟩
      else .outOfBounds i
    | none => jsval_to_matrix_loop C rest (i + 1) ret
  | some _ :: _, _, ret => .ret false ret

/-- The function `jsval_to_matrix` (lines 1405-1443): a length other than 16 is
reported to the engine and the loop runs all the same. -/
def jsval_to_matrix (C : Capabilities) (vp : JsVal) (ret : Mat4) : Faulting Mat4 :=
  if vp.isObject then
    if vp.isArray then jsval_to_matrix_loop C vp.elems 0 ret
    else .ret false ret
  else .ret false ret

/-- The function `jsval_to_ccaffinetransform` (lines 1725-1753). There is no
`isObject()` test: `JS_ValueToObject` delivers the null object for null and
undefined, through which `JS_GetProperty` then reads, and for a boolean, a
number or a string the wrapper object `toObject v` the engine creates (none
when it fails). -/
def jsval_to_ccaffinetransform (C : Capabilities) (toObject : JsVal → Option JsVal)
    (v : JsVal) (ret : AffineTransform) : Faulting AffineTransform :=
  let tmp : Option (Option JsVal) :=
    match v with
    | .undefined => some none
    | .null => some none
    | .object _ _ _ => some (some v)
    | .array _ _ _ _ => some (some v)
    | _ => (toObject v).map some
  match tmp with
  | none => .ret false ret
  | some none => .nullDereference
  | some (some tmp) =>
    match JS_ToNumber C (JS_GetProperty tmp "a"), JS_ToNumber C (JS_GetProperty tmp "b"),
      JS_ToNumber C (JS_GetProperty tmp "c"), JS_ToNumber C (JS_GetProperty tmp "d"),
      JS_ToNumber C (JS_GetProperty tmp "tx"), JS_ToNumber C (JS_GetProperty tmp "ty") with
    | some a, some b, some c, some d, some tx, some ty =>
      .ret true { a := C.toFloat a, b := C.toFloat b, c := C.toFloat c, d := C.toFloat d,
                  tx := C.toFloat tx, ty := C.toFloat ty }
    | _, _, _, _, _, _ => .ret false ret

/-- The function `ccpoint_to_jsval` (lines 1827-1837). -/
def ccpoint_to_jsval (C : Capabilities) (v : Point) : JsVal :=
  if !C.newObjectOk then .null
  else
    let ok := C.definePropertyOk "x" && C.definePropertyOk "y"
    if ok then
      .object false
        (JS_DefineProperty (JS_DefineProperty [] "x" (.number v.x)) "y" (.number v.y)) false
    else .null

/-- The function `cccolor4b_to_jsval` (lines 1881-1893): each byte is defined as
the integer `(int32_t)v.r`. -/
def cccolor4b_to_jsval (C : Capabilities) (v : Color4B) : JsVal :=
  if !C.newObjectOk then .null
  else
    let ok := C.definePropertyOk "r" && C.definePropertyOk "g" && C.definePropertyOk "b" &&
      C.definePropertyOk "a"
    if ok then
      .object false
        (JS_DefineProperty (JS_DefineProperty (JS_DefineProperty (JS_DefineProperty []
          "r" (.number (.ofInt v.r))) "g" (.number (.ofInt v.g))) "b" (.number (.ofInt v.b)))
          "a" (.number (.ofInt v.a))) false
    else .null

/-- The function `cccolor4f_to_jsval` (lines 1895-1907): each component is defined
as the integer `(int32_t)(v.r * 255)`, the product being a product of floats. -/
def cccolor4f_to_jsval (C : Capabilities) (P : Casts) (v : Color4F) : JsVal :=
  if !C.newObjectOk then .null
  else
    let ok := C.definePropertyOk "r" && C.definePropertyOk "g" && C.definePropertyOk "b" &&
      C.definePropertyOk "a"
    if ok then
      .object false
        (JS_DefineProperty (JS_DefineProperty (JS_DefineProperty (JS_DefineProperty []
          "r" (.number (.ofInt (castInt32 P (C.toFloat v.r.mul255)))))
          "g" (.number (.ofInt (castInt32 P (C.toFloat v.g.mul255)))))
          "b" (.number (.ofInt (castInt32 P (C.toFloat v.b.mul255)))))
          "a" (.number (.ofInt (castInt32 P (C.toFloat v.a.mul255))))) false
    else .null

/-! ## The string holder `JSStringWrapper` -/

/-- A routine that releases a buffer: `JS_free` of the engine, or the operator
`delete[]`. -/
inductive Deallocator
  | JS_free
  | delete_array
  deriving DecidableEq, Repr

/-- The class `JSStringWrapper`, by its data member: the buffer `_buffer` with the
text it holds, none for the null pointer. -/
structure JSStringWrapper where
  _buffer : Option String
  deriving DecidableEq, Repr

/-- Modelled from the spec: the macro `CC_SAFE_DELETE_ARRAY(p)`, defined outside
this file: a buffer that is not null is released with `delete[]` and the
pointer is set to null. The result is the pointer and the releases made. -/
def CC_SAFE_DELETE_ARRAY (p : Option String) : Option String × List Deallocator :=
  match p with
  | some _ => (none, [.delete_array])
  | none => (none, [])

/-- The constructor `JSStringWrapper::JSStringWrapper()`. -/
def JSStringWrapper.new : JSStringWrapper := ⟨none⟩

/-- The method `JSStringWrapper::set(JSString*, JSContext*)` (lines 85-95) on a
string of text `str`: the wrapper afterwards and the releases made.
`JS_EncodeStringToUTF8` delivers the null pointer when `encodeOk` is false. -/
def JSStringWrapper.setString (encodeOk : Bool) (self : JSStringWrapper) (str : String) :
    JSStringWrapper × List Deallocator :=
  let released := (CC_SAFE_DELETE_ARRAY self._buffer).2
  (⟨if encodeOk then some str else none⟩, released)

/-- The method `JSStringWrapper::set(jsval, JSContext*)` (lines 73-83). -/
def JSStringWrapper.set (encodeOk : Bool) (self : JSStringWrapper) (val : JsVal) :
    JSStringWrapper × List Deallocator :=
  match val with
  | .string s => self.setString encodeOk s
  | _ => (⟨(CC_SAFE_DELETE_ARRAY self._buffer).1⟩, (CC_SAFE_DELETE_ARRAY self._buffer).2)

/-- The constructor `JSStringWrapper::JSStringWrapper(jsval, JSContext*)`. -/
def JSStringWrapper.ofJsval (encodeOk : Bool) (val : JsVal) : JSStringWrapper :=
  (JSStringWrapper.new.set encodeOk val).1

/-- The method `JSStringWrapper::get` (lines 97-100). -/
def JSStringWrapper.get (self : JSStringWrapper) : String :=
  match self._buffer with
  | some text => text
  | none => ""

/-- The destructor `JSStringWrapper::~JSStringWrapper` (lines 68-71): the releases
made. `JS_free` of the null pointer releases nothing. -/
def JSStringWrapper.destroy (self : JSStringWrapper) : List Deallocator :=
  match self._buffer with
  | some _ => [.JS_free]
  | none => []


/-- A float of the unit interval: finite, at least 0 and at most 1. -/
def JsNumber.inUnit : JsNumber → Bool
  | .finite q => decide (0 ≤ q) && decide (q ≤ 1)
  | _ => false

/-- Rounding to float keeps the interval from 0 to 255 (both ends are floats, and
rounding is monotone). -/
def Capabilities.roundsWithin255 (C : Capabilities) : Prop :=
  ∀ q : ℚ, 0 ≤ q → q ≤ 255 → ∃ q' : ℚ, C.toFloat (.finite q) = .finite q' ∧ 0 ≤ q' ∧ q' ≤ 255

/-- The component `y` is what encoding and decoding make of the component `x`:
the product `x * 255` (a float) has an integer part `k`, and `y` is the
quotient of the floats `k` and 255. -/
def Capabilities.quantised (C : Capabilities) (x y : JsNumber) : Bool :=
  match (C.toFloat x.mul255).trunc with
  | some k => y == C.toFloat (C.toFloat (.ofInt k)).div255
  | none => false

mutual
/-- A value of the closed set of variants, at every depth: a boolean, an integer,
a double, a string, or a list, a string-keyed map or an integer-keyed map of
such values; not the empty variant and not the `FLOAT` variant. -/
def Value.closed : Value → Bool
  | .none => false
  | .float _ => false
  | .integer _ => true
  | .double _ => true
  | .boolean _ => true
  | .string _ => true
  | .vector v => Value.closedList v
  | .map m => Value.closedMap m
  | .intKeyMap m => Value.closedIntKeyMap m
/-- Every element of the list is `closed`. -/
def Value.closedList : List Value → Bool
  | [] => true
  | x :: rest => x.closed && Value.closedList rest
/-- Every value of the string-keyed map is `closed`. -/
def Value.closedMap : List (String × Value) → Bool
  | [] => true
  | (_, x) :: rest => x.closed && Value.closedMap rest
/-- Every value of the integer-keyed map is `closed`. -/
def Value.closedIntKeyMap : List (Int × Value) → Bool
  | [] => true
  | (_, x) :: rest => x.closed && Value.closedIntKeyMap rest
end

/-! ## Vectors, integers, resources and opaque handles -/

/-- Modelled from the spec: the vector `cocos2d::Vec2`, declared outside this
file: the floats `x` and `y`. -/
structure Vec2 where
  x : JsNumber
  y : JsNumber
  deriving DecidableEq, Repr

/-- Modelled from the spec: the vector `cocos2d::Vec3`, declared outside this
file: the floats `x`, `y` and `z`. -/
structure Vec3 where
  x : JsNumber
  y : JsNumber
  z : JsNumber
  deriving DecidableEq, Repr

/-- Modelled from the spec: the quaternion `cocos2d::Quaternion`, declared outside
this file: the floats `x`, `y`, `z` and `w`, as `set(xx, yy, zz, ww)` stores
them. -/
structure cocos2d.Quaternion where
  x : JsNumber
  y : JsNumber
  z : JsNumber
  w : JsNumber
  deriving DecidableEq, Repr

/-- Modelled from the spec: the texture coordinates `cocos2d::Tex2F`, declared
outside this file: the floats `u` and `v`. -/
structure Tex2F where
  u : JsNumber
  v : JsNumber
  deriving DecidableEq, Repr

/-- The function `jsval_to_vector2` (lines 1445-1463). -/
def jsval_to_vector2 (C : Capabilities) (vp : JsVal) (ret : Vec2) : Outcome Vec2 :=
  if vp.isObject then
    match JS_ToNumber C (JS_GetProperty vp "x"), JS_ToNumber C (JS_GetProperty vp "y") with
    | some x, some y =>
      if !x.isnan && !y.isnan then .ret true { x := C.toFloat x, y := C.toFloat y }
      else .ret false ret
    | _, _ => .ret false ret
  else .ret false ret

/-- The function `jsval_to_vector3` (lines 1465-1489). -/
def jsval_to_vector3 (C : Capabilities) (vp : JsVal) (ret : Vec3) : Outcome Vec3 :=
  if vp.isObject then
    match JS_ToNumber C (JS_GetProperty vp "x"), JS_ToNumber C (JS_GetProperty vp "y"),
      JS_ToNumber C (JS_GetProperty vp "z") with
    | some x, some y, some z =>
      if !x.isnan && !y.isnan && !z.isnan then
        .ret true { x := C.toFloat x, y := C.toFloat y, z := C.toFloat z }
      else .ret false ret
    | _, _, _ => .ret false ret
  else .ret false ret

/-- The function `jsval_to_quaternion` (lines 683-710). -/
def jsval_to_quaternion (C : Capabilities) (v : JsVal) (ret : cocos2d.Quaternion) :
    Outcome cocos2d.Quaternion :=
  if v.isObject then
    match JS_ToNumber C (JS_GetProperty v "x"), JS_ToNumber C (JS_GetProperty v "y"),
      JS_ToNumber C (JS_GetProperty v "z"), JS_ToNumber C (JS_GetProperty v "w") with
    | some xx, some yy, some zz, some ww =>
      if !xx.isnan && !yy.isnan && !zz.isnan && !ww.isnan then
        .ret true { x := C.toFloat xx, y := C.toFloat yy, z := C.toFloat zz, w := C.toFloat ww }
      else .ret false ret
    | _, _, _, _ => .ret false ret
  else .ret false ret

/-- The function `jsval_to_cctex2f` (lines 1564-1583). -/
def jsval_to_cctex2f (C : Capabilities) (vp : JsVal) (ret : Tex2F) : Outcome Tex2F :=
  if vp.isObject then
    match JS_ToNumber C (JS_GetProperty vp "x"), JS_ToNumber C (JS_GetProperty vp "y") with
    | some x, some y =>
      if !x.isnan && !y.isnan then .ret true { u := C.toFloat x, v := C.toFloat y }
      else .ret false ret
    | _, _ => .ret false ret
  else .ret false ret

/-- The function `jsval_to_int32` (lines 513-525). -/
def jsval_to_int32 (C : Capabilities) (P : Casts) (vp : JsVal) (outval : Int) : Outcome Int :=
  match JS_ToNumber C vp with
  | none => .ret false outval
  | some dp => if dp.isnan then .ret false outval else .ret true (castInt32 P dp)

/-- Modelled from the spec: the record `ResourceData`, declared outside this
file: the integer `type` (an `int`) and the texts `file` and `plist`. -/
structure ResourceData where
  type : Int
  file : String
  plist : String
  deriving DecidableEq, Repr

/-- The function `jsval_to_resourcedata` (lines 2605-2628): the file name is read
from the property `name`. -/
def jsval_to_resourcedata (C : Capabilities) (P : Casts) (v : JsVal) (ret : ResourceData) :
    Outcome ResourceData :=
  if v.isObject then
    match JS_ToNumber C (JS_GetProperty v "type") with
    | none => .ret false ret
    | some t =>
      match jsval_to_std_string C (JS_GetProperty v "name") "" with
      | .ret true file =>
        match jsval_to_std_string C (JS_GetProperty v "plist") "" with
        | .ret true plist => .ret true { type := castInt32 P t, file := file, plist := plist }
        | _ => .ret false ret
      | _ => .ret false ret
  else .ret false ret

/-- The function `resourcedata_to_jsval` (lines 2630-2641): the file name is
defined under the property `file`. -/
def resourcedata_to_jsval (C : Capabilities) (E : Engine) (v : ResourceData) : JsVal :=
  if !C.newObjectOk then .null
  else
    let ok := C.definePropertyOk "type" && C.definePropertyOk "file" &&
      C.definePropertyOk "plist"
    if ok then
      .object false
        (JS_DefineProperty (JS_DefineProperty (JS_DefineProperty []
          "type" (.number (.ofInt v.type))) "file" (std_string_to_jsval E v.file))
          "plist" (std_string_to_jsval E v.plist)) false
    else .null

/-- A scripting value as the opaque-handle converters see it: a typed array, by
the contents of its buffer read as `uint32_t` words followed by `tail` (fewer
than four) further bytes, or any other value, for which `toObjectOk` says
whether `JS_ValueToObject` succeeds. -/
inductive OpaqueValue
  | typedArray (words : List Nat) (tail : Fin 4)
  | other (toObjectOk : Bool)
  deriving DecidableEq, Repr

/-- The call `JS_GetTypedArrayByteLength`. -/
def OpaqueValue.byteLength : OpaqueValue → Nat
  | .typedArray words tail => 4 * words.length + tail.val
  | .other _ => 0

/-- The read `arg_array[i]` through `(uint32_t*)JS_GetArrayBufferViewData`. -/
def OpaqueValue.word (i : Nat) : OpaqueValue → Nat
  | .typedArray words _ => words.getD i 0 % 2 ^ 32
  | .other _ => 0

/-- The function `jsval_to_opaque` (lines 239-263) where `__LP64__` is defined:
the pointer is a number below `2^64`. -/
def jsval_to_opaque (vp : OpaqueValue) (r : Nat) : Outcome Nat :=
  match vp with
  | .other _ => .ret false r
  | .typedArray words tail =>
    if (OpaqueValue.typedArray words tail).byteLength = 8 then
      let ret : Nat := (OpaqueValue.typedArray words tail).word 0
      let ret : Nat := (ret <<< 32) % 2 ^ 64
      let ret : Nat := ret ||| (OpaqueValue.typedArray words tail).word 1
      .ret true ret
    else .ret false r

/-- The function `opaque_to_jsval` (lines 280-294) where `__LP64__` is defined.
The result of `JS_NewUint32Array` is not tested: when the engine delivers the
null pointer (`newArrayOk` false) the buffer is read through it (none). -/
def opaque_to_jsval (newArrayOk : Bool) (handle : Nat) : Option OpaqueValue :=
  let number : Nat := handle % 2 ^ 64
  if newArrayOk then
    some (.typedArray [(number >>> 32) % 2 ^ 32, (number &&& 0xffffffff) % 2 ^ 32] 0)
  else none

/-- The call `dict.insert(ValueMapIntKey::value_type(key, x))`: an entry whose key
is already present is left as it is. -/
def ValueMapIntKey.insert (dict : ValueMapIntKey) (key : Int) (x : Value) : ValueMapIntKey :=
  if dict.any (fun e => e.1 == key) then dict else dict ++ [(key, x)]

/-- The `while (true)` loop of `jsval_to_ccvaluemapintkey` over the property
iterator. A key that is not a string is passed over; for a string key the
integer key is `key.toInt32()`, which the engine does not define for a string:
`toInt32 key` stands for what it delivers. A string value is
`valueWapper.get()`, taken as a C string. -/
def jsval_to_ccvaluemapintkey_loop (toInt32 : String → Int) (props : List (JsId × JsVal))
    (enumFails : Bool) (dict : ValueMapIntKey) : Outcome ValueMapIntKey :=
  match props with
  | [] => if enumFails then .ret false dict else .ret true dict
  | (.int _, _) :: rest => jsval_to_ccvaluemapintkey_loop toInt32 rest enumFails dict
  | (.str key, value) :: rest =>
    let keyVal := toInt32 key
    match value with
    | .object proxy ps ef =>
      if proxy then .abort else
      match jsval_to_ccvaluemap (.object proxy ps ef) [] with
      | .abort => .abort
      | .ret true dictVal =>
        jsval_to_ccvaluemapintkey_loop toInt32 rest enumFails
          (ValueMapIntKey.insert dict keyVal (.map dictVal))
      | .ret false _ => jsval_to_ccvaluemapintkey_loop toInt32 rest enumFails dict
    | .array proxy es ps ef =>
      if proxy then .abort else
      match jsval_to_ccvaluevector (.array proxy es ps ef) [] with
      | .abort => .abort
      | .ret true arrVal =>
        jsval_to_ccvaluemapintkey_loop toInt32 rest enumFails
          (ValueMapIntKey.insert dict keyVal (.vector arrVal))
      | .ret false _ => jsval_to_ccvaluemapintkey_loop toInt32 rest enumFails dict
    | .string s =>
      jsval_to_ccvaluemapintkey_loop toInt32 rest enumFails
        (ValueMapIntKey.insert dict keyVal (.string (c_str s)))
    | .number n =>
      jsval_to_ccvaluemapintkey_loop toInt32 rest enumFails
        (ValueMapIntKey.insert dict keyVal (.double n))
    | .boolean b =>
      jsval_to_ccvaluemapintkey_loop toInt32 rest enumFails
        (ValueMapIntKey.insert dict keyVal (.boolean b))
    | .undefined => .abort
    | .null => .abort

/-- The function `jsval_to_ccvaluemapintkey` (lines 1139-1224). -/
def jsval_to_ccvaluemapintkey (toInt32 : String → Int) (v : JsVal) (ret : ValueMapIntKey) :
    Outcome ValueMapIntKey :=
  match v with
  | .undefined => .ret true ret
  | .null => .ret true ret
  | .boolean _ => .ret false ret
  | .number _ => .ret false ret
  | .string _ => .ret false ret
  | .object _ props enumFails => jsval_to_ccvaluemapintkey_loop toInt32 props enumFails ret
  | .array _ _ props enumFails => jsval_to_ccvaluemapintkey_loop toInt32 props enumFails ret

/-- A deallocation routine that matches the allocation of
`JS_EncodeStringToUTF8`, whose buffer comes from the allocator of the engine:
`JS_free`, and not `delete[]`. -/
def Deallocator.matchesEncoding : Deallocator → Bool
  | .JS_free => true
  | .delete_array => false

/-- The required component `name` of `vp` is absent, or does not coerce to a
number: the coercion fails or gives not-a-number. -/
def componentMissing (C : Capabilities) (vp : JsVal) (name : String) : Bool :=
  (vp.props.lookup (.str name)).isNone ||
    (match JS_ToNumber C (JS_GetProperty vp name) with
     | some n => n.isnan
     | none => true)

/-- The required component `name` of `vp` coerces to the number `n`, which is not
not-a-number. -/
def componentIs (C : Capabilities) (vp : JsVal) (name : String) (n : JsNumber) : Bool :=
  JS_ToNumber C (JS_GetProperty vp name) == some n && !n.isnan

/-- Whether every property key is an integer index. -/
def integerKeys : List (JsId × JsVal) → Bool
  | [] => true
  | (.int _, _) :: rest => integerKeys rest
  | (.str _, _) :: _ => false

/-! ## Long integers as decimal text -/

/-- The function `long_to_jsval` (lines 340-353) where `__LP64__` is defined, on an
engine on which `JS_NewStringCopyZ` delivers the string. -/
def long_to_jsval (number : Int) : JsVal := .string (printLong number)

/-- The C string `JS_EncodeString` delivers for a text: every character is
narrowed to its low byte, and the string ends before the first zero byte. -/
def JS_EncodeString (text : String) : List Char :=
  (text.data.map (fun c => Char.ofNat (c.toNat % 256))).takeWhile (fun c => c.toNat != 0)

/-- The test `isspace` in the C locale: the blank and the controls 9 to 13. -/
def isspace (c : Char) : Bool := c.toNat == 32 || (9 ≤ c.toNat && c.toNat ≤ 13)

/-- The call `strtol(str, &endptr, 10)` for a `long` of 64 bits: white space is
passed over, then an optional sign, then the longest run of decimal digits is
read (0 when there is none); a value outside the range of `long` is clamped
to its nearest end. -/
def strtol (str : List Char) : Int :=
  let s := str.dropWhile isspace
  let negative : Bool := s.head? == some '-'
  let s := if s.head? == some '-' || s.head? == some '+' then s.tail else s
  let magnitude : Nat :=
    (s.takeWhile Char.isDigit).foldl (fun acc c => 10 * acc + (c.toNat - 48)) 0
  if negative then
    if magnitude > 2 ^ 63 then -2 ^ 63 else -(magnitude : Int)
  else
    if magnitude ≥ 2 ^ 63 then 2 ^ 63 - 1 else (magnitude : Int)

/-- The call `JS::ToString(cx, v)` on any value: the engine's text of `undefined`
and of `null`, and for an object or an array what `objectToString` delivers. -/
def JS_ToString_any (C : Capabilities) (objectToString : JsVal → Option String) (v : JsVal) :
    Option String :=
  match v with
  | .undefined => if C.toStringOk v then some "undefined" else none
  | .null => if C.toStringOk v then some "null" else none
  | .object _ _ _ => if C.toStringOk v then objectToString v else none
  | .array _ _ _ _ => if C.toStringOk v then objectToString v else none
  | other => JS_ToString C other

/-- The function `jsval_to_long` (lines 556-581) where `__LP64__` is defined;
`JS_EncodeString` delivers the null pointer when `encodeOk` is false. -/
def jsval_to_long (C : Capabilities) (objectToString : JsVal → Option String)
    (encodeOk : Bool) (vp : JsVal) (r : Int) : Outcome Int :=
  match JS_ToString_any C objectToString vp with
  | none => .ret false r
  | some jsstr =>
    if encodeOk then .ret true (strtol (JS_EncodeString jsstr))
    else .ret false r

/-! ## The loops on supported values -/

mutual
theorem jsval_to_ccvaluemap_loop_supported : ∀ (ps : List (JsId × JsVal)) (dict : ValueMap),
    supportedProps ps = true →
    jsval_to_ccvaluemap_loop ps false dict = .ret true (convProps ps dict)
  | [], dict, _ => by simp [jsval_to_ccvaluemap_loop, convProps]
  | (.int _, _) :: rest, dict, h => by
    simp only [supportedProps] at h
    simp only [jsval_to_ccvaluemap_loop, convProps]
    exact jsval_to_ccvaluemap_loop_supported rest dict h
  | (.str k, .object proxy ps ef) :: rest, dict, h => by
    simp only [supportedProps, supported, Bool.and_eq_true, Bool.not_eq_true'] at h
    obtain ⟨⟨⟨hp, hef⟩, hps⟩, hrest⟩ := h
    subst hp; subst hef
    have h1 := jsval_to_ccvaluemap_loop_supported ps [] hps
    simp only [jsval_to_ccvaluemap_loop, jsval_to_ccvaluemap, h1, convProps, convValue]
    exact jsval_to_ccvaluemap_loop_supported rest _ hrest
  | (.str k, .array proxy es ps ef) :: rest, dict, h => by
    simp only [supportedProps, supported, Bool.and_eq_true, Bool.not_eq_true'] at h
    obtain ⟨⟨hp, hes⟩, hrest⟩ := h
    subst hp
    have h1 := jsval_to_ccvaluevector_loop_supported es [] hes
    simp only [jsval_to_ccvaluemap_loop, jsval_to_ccvaluevector, h1, convProps, convValue]
    simpa using jsval_to_ccvaluemap_loop_supported rest _ hrest
  | (.str k, .string s) :: rest, dict, h => by
    simp only [supportedProps, supported, Bool.true_and] at h
    simp only [jsval_to_ccvaluemap_loop, convProps, convValue]
    exact jsval_to_ccvaluemap_loop_supported rest _ h
  | (.str k, .number s) :: rest, dict, h => by
    simp only [supportedProps, supported, Bool.true_and] at h
    simp only [jsval_to_ccvaluemap_loop, convProps, convValue]
    exact jsval_to_ccvaluemap_loop_supported rest _ h
  | (.str k, .boolean s) :: rest, dict, h => by
    simp only [supportedProps, supported, Bool.true_and] at h
    simp only [jsval_to_ccvaluemap_loop, convProps, convValue]
    exact jsval_to_ccvaluemap_loop_supported rest _ h
  | (.str k, .undefined) :: rest, dict, h => by
    simp [supportedProps, supported] at h
  | (.str k, .null) :: rest, dict, h => by
    simp [supportedProps, supported] at h
theorem jsval_to_ccvaluevector_loop_supported : ∀ (es : List (Option JsVal)) (ret : ValueVector),
    supportedElems es = true →
    jsval_to_ccvaluevector_loop es ret = .ret true (ret ++ convElems es)
  | [], ret, _ => by simp [jsval_to_ccvaluevector_loop, convElems]
  | none :: rest, ret, h => by simp [supportedElems] at h
  | some (.object proxy ps ef) :: rest, ret, h => by
    simp only [supportedElems, supported, Bool.and_eq_true, Bool.not_eq_true'] at h
    obtain ⟨⟨⟨hp, hef⟩, hps⟩, hrest⟩ := h
    subst hp; subst hef
    have h1 := jsval_to_ccvaluemap_loop_supported ps [] hps
    simp only [jsval_to_ccvaluevector_loop, jsval_to_ccvaluemap, h1, convElems, convValue]
    rw [jsval_to_ccvaluevector_loop_supported rest _ hrest, List.append_assoc]; rfl
  | some (.array proxy es ps ef) :: rest, ret, h => by
    simp only [supportedElems, supported, Bool.and_eq_true, Bool.not_eq_true'] at h
    obtain ⟨⟨hp, hes⟩, hrest⟩ := h
    subst hp
    have h1 := jsval_to_ccvaluevector_loop_supported es [] hes
    simp only [jsval_to_ccvaluevector_loop, jsval_to_ccvaluevector, h1, convElems, convValue]
    rw [jsval_to_ccvaluevector_loop_supported rest _ hrest, List.append_assoc]; simp
  | some (.string s) :: rest, ret, h => by
    simp only [supportedElems, supported, Bool.true_and] at h
    simp only [jsval_to_ccvaluevector_loop, convElems, convValue]
    rw [jsval_to_ccvaluevector_loop_supported rest _ h, List.append_assoc]; rfl
  | some (.number s) :: rest, ret, h => by
    simp only [supportedElems, supported, Bool.true_and] at h
    simp only [jsval_to_ccvaluevector_loop, convElems, convValue]
    rw [jsval_to_ccvaluevector_loop_supported rest _ h, List.append_assoc]; rfl
  | some (.boolean s) :: rest, ret, h => by
    simp only [supportedElems, supported, Bool.true_and] at h
    simp only [jsval_to_ccvaluevector_loop, convElems, convValue]
    rw [jsval_to_ccvaluevector_loop_supported rest _ h, List.append_assoc]; rfl
  | some .undefined :: rest, ret, h => by
    simp [supportedElems, supported] at h
  | some .null :: rest, ret, h => by
    simp [supportedElems, supported] at h
end

/-- On a supported value `jsval_to_ccvalue` succeeds with `convValue`. -/
theorem jsval_to_ccvalue_supported (v : JsVal) (r : Value) (h : supported v = true) :
    jsval_to_ccvalue v r = .ret true (convValue v) := by
  cases v with
  | undefined => simp [supported] at h
  | null => simp [supported] at h
  | boolean b => rfl
  | number n => rfl
  | string s => rfl
  | object proxy ps ef =>
    simp only [supported, Bool.and_eq_true, Bool.not_eq_true'] at h
    obtain ⟨⟨hp, hef⟩, hps⟩ := h
    subst hp; subst hef
    simp [jsval_to_ccvalue, jsval_to_ccvaluemap, jsval_to_ccvaluemap_loop_supported ps [] hps,
      convValue]
  | array proxy es ps ef =>
    simp only [supported, Bool.and_eq_true, Bool.not_eq_true'] at h
    obtain ⟨hp, hes⟩ := h
    subst hp
    simp [jsval_to_ccvalue, jsval_to_ccvaluevector, jsval_to_ccvaluevector_loop_supported es [] hes,
      convValue]

/-! ## Shape of the converted lists -/

theorem c_str_of_noNul (s : String) (h : noNul s = true) : c_str s = s := by
  have : s.data.takeWhile (fun c => c.toNat != 0) = s.data :=
    List.takeWhile_eq_self_iff.mpr (by simpa [noNul, List.all_eq_true] using h)
  simp [c_str, this]

theorem convElems_length (es : List (Option JsVal)) (h : supportedElems es = true) :
    (convElems es).length = es.length := by
  induction es with
  | nil => rfl
  | cons e rest ih =>
    cases e with
    | none => simp [supportedElems] at h
    | some v =>
      simp only [supportedElems, Bool.and_eq_true] at h
      simp [convElems, ih h.2]

theorem convElems_getElem? (es : List (Option JsVal)) (h : supportedElems es = true)
    (i : Nat) (v : JsVal) (hi : es[i]? = some (some v)) :
    (convElems es)[i]? = some (convValue v) ∧ supported v = true := by
  induction es generalizing i with
  | nil => simp at hi
  | cons e rest ih =>
    cases e with
    | none => simp [supportedElems] at h
    | some w =>
      simp only [supportedElems, Bool.and_eq_true] at h
      cases i with
      | zero =>
        simp only [List.getElem?_cons_zero, Option.some.injEq] at hi
        subst hi
        exact ⟨by simp [convElems], h.1⟩
      | succ j =>
        simp only [List.getElem?_cons_succ] at hi
        have := ih h.2 j hi
        exact ⟨by simpa [convElems] using this.1, this.2⟩

theorem ValueMap.insert_fresh (dict : ValueMap) (k : String) (x : Value)
    (h : k ∉ dict.map Prod.fst) : ValueMap.insert dict k x = dict ++ [(k, x)] := by
  unfold ValueMap.insert
  have : dict.any (fun e => e.1 == k) = false := by
    rw [List.any_eq_false]
    intro e he hek
    apply h
    simp only [beq_iff_eq] at hek
    exact List.mem_map.mpr ⟨e, he, hek⟩
  simp [this]

theorem convProps_fresh (ps : List (JsId × JsVal)) (dict : ValueMap)
    (hk : (entryKeys ps).Nodup) (hd : ∀ k ∈ entryKeys ps, k ∉ dict.map Prod.fst) :
    convProps ps dict = dict ++ convEntries ps := by
  induction ps generalizing dict with
  | nil => simp [convProps, convEntries]
  | cons e rest ih =>
    obtain ⟨id, v⟩ := e
    cases id with
    | int i =>
      simp only [entryKeys, stringKeys] at hk hd ih
      simpa [convProps, convEntries] using ih dict hk hd
    | str k =>
      simp only [entryKeys, stringKeys, List.map_cons, List.nodup_cons, List.mem_cons,
        forall_eq_or_imp] at hk hd ih
      simp only [convProps, convEntries]
      rw [ValueMap.insert_fresh dict (c_str k) _ hd.1, ih _ hk.2]
      · simp
      · intro k2 hk2
        simp only [List.map_append, List.map_cons, List.map_nil, List.mem_append,
          List.mem_singleton, not_or]
        exact ⟨hd.2 k2 hk2, fun h => hk.1 (h ▸ hk2)⟩

theorem convEntries_keys (ps : List (JsId × JsVal)) :
    (convEntries ps).map Prod.fst = entryKeys ps := by
  induction ps with
  | nil => rfl
  | cons e rest ih =>
    obtain ⟨id, v⟩ := e
    simp only [entryKeys] at ih
    cases id <;> simp [convEntries, entryKeys, stringKeys, ih]

theorem convEntries_mem (ps : List (JsId × JsVal)) (h : supportedProps ps = true)
    (k : String) (v : JsVal) (hm : (JsId.str k, v) ∈ ps) :
    (c_str k, convValue v) ∈ convEntries ps ∧ supported v = true := by
  induction ps with
  | nil => simp at hm
  | cons e rest ih =>
    obtain ⟨id, w⟩ := e
    cases id with
    | int i =>
      simp only [supportedProps] at h
      simp only [List.mem_cons, Prod.mk.injEq, false_and, false_or, reduceCtorEq] at hm
      simpa [convEntries] using ih h hm
    | str k2 =>
      simp only [supportedProps, Bool.and_eq_true] at h
      simp only [List.mem_cons, Prod.mk.injEq, JsId.str.injEq] at hm
      rcases hm with ⟨hk, hv⟩ | hm
      · subst hk; subst hv
        exact ⟨by simp [convEntries], h.1⟩
      · have := ih h.2 hm
        exact ⟨by simp [convEntries, this.1], this.2⟩

/-! ## The claims on the script-to-native direction -/

/-- C2. For every array whose elements can all be read and are of supported kinds
(string, number, boolean, plain object, array; nested values likewise),
`jsval_to_ccvaluevector` returns true and appends to its output exactly one
tagged value per element, in index order: the value at position `i` is what
`jsval_to_ccvalue` delivers for element `i` of the array. -/
theorem jsval_to_ccvaluevector_supported (proxy : Bool) (es : List (Option JsVal))
    (ps : List (JsId × JsVal)) (ef : Bool) (ret : ValueVector)
    (h : supportedElems es = true) :
    ∃ vals : List Value,
      jsval_to_ccvaluevector (.array proxy es ps ef) ret = .ret true (ret ++ vals) ∧
      vals.length = es.length ∧
      ∀ (i : Nat) (v : JsVal), es[i]? = some (some v) →
        ∃ x, vals[i]? = some x ∧ ∀ r0 : Value, jsval_to_ccvalue v r0 = .ret true x := by
  refine ⟨convElems es, ?_, convElems_length es h, ?_⟩
  · simp [jsval_to_ccvaluevector, jsval_to_ccvaluevector_loop_supported es ret h]
  · intro i v hi
    have := convElems_getElem? es h i v hi
    exact ⟨convValue v, this.1, fun r0 => jsval_to_ccvalue_supported v r0 this.2⟩

/-- The scenario of C2: the array `["a", 3, {"k":"v"}]` yields the list
`[string "a", number 3, map {"k": string "v"}]`. -/
theorem jsval_to_ccvaluevector_supported_witness :
    supportedElems [some (.string "a"), some (.number (.ofInt 3)),
        some (.object false [(.str "k", .string "v")] false)] = true ∧
    (∃ vals : List Value,
      jsval_to_ccvaluevector (.array false [some (.string "a"), some (.number (.ofInt 3)),
        some (.object false [(.str "k", .string "v")] false)] [] false) [] = .ret true ([] ++ vals) ∧
      vals.length = [some (JsVal.string "a"), some (JsVal.number (.ofInt 3)),
        some (JsVal.object false [(.str "k", .string "v")] false)].length ∧
      ∀ (i : Nat) (v : JsVal), [some (JsVal.string "a"), some (JsVal.number (.ofInt 3)),
        some (JsVal.object false [(.str "k", .string "v")] false)][i]? = some (some v) →
        ∃ x, vals[i]? = some x ∧ ∀ r0 : Value, jsval_to_ccvalue v r0 = .ret true x) ∧
    jsval_to_ccvaluevector (.array false [some (.string "a"), some (.number (.ofInt 3)),
        some (.object false [(.str "k", .string "v")] false)] [] false) [] =
      .ret true [.string "a", .double (.ofInt 3), .map [("k", .string "v")]] :=
  ⟨by rfl, jsval_to_ccvaluevector_supported false _ [] false [] (by rfl), by rfl⟩

/-- C3, the failing instance. The object `{"a\u0000x": true, "a\u0000y": false}`
has two distinct string keys and supported values, yet the output has one
entry: both keys are the C string `a`, and the second insert finds it taken. -/
theorem jsval_to_ccvaluemap_merges_keys :
    supportedProps [(.str "a\x00x", .boolean true), (.str "a\x00y", .boolean false)] = true ∧
    (stringKeys [(.str "a\x00x", .boolean true), (.str "a\x00y", .boolean false)]).Nodup ∧
    jsval_to_ccvaluemap (.object false [(.str "a\x00x", .boolean true),
        (.str "a\x00y", .boolean false)] false) [] = .ret true [("a", .boolean true)] :=
  ⟨by rfl, by decide, by rfl⟩

/-- C3, amended. For every object that is not an array, whose iteration ends
without an error, whose string keys are pairwise distinct as C strings (cut at
their first U+0000) and whose string-keyed property values are of supported
kinds, `jsval_to_ccvaluemap` called with an empty output map returns true, and
the output has exactly one entry per string-keyed property, in iteration
order, under the key as a C string and bound to what `jsval_to_ccvalue`
delivers for the value of that property; properties under an integer key are
skipped, whatever their value. When no key holds U+0000 the keys of the
output are the string keys of the object. -/
theorem jsval_to_ccvaluemap_c_string_keys (proxy : Bool) (ps : List (JsId × JsVal))
    (h : supportedProps ps = true) (hk : ((stringKeys ps).map c_str).Nodup) :
    ∃ out : ValueMap,
      jsval_to_ccvaluemap (.object proxy ps false) [] = .ret true out ∧
      out.map Prod.fst = (stringKeys ps).map c_str ∧
      ((∀ k ∈ stringKeys ps, noNul k = true) → out.map Prod.fst = stringKeys ps) ∧
      ∀ (k : String) (v : JsVal), (JsId.str k, v) ∈ ps →
        ∃ x, (c_str k, x) ∈ out ∧ ∀ r0 : Value, jsval_to_ccvalue v r0 = .ret true x := by
  refine ⟨convEntries ps, ?_, convEntries_keys ps, ?_, ?_⟩
  · have := convProps_fresh ps [] hk (by simp)
    simp [jsval_to_ccvaluemap, jsval_to_ccvaluemap_loop_supported ps [] h, this]
  · intro hn
    rw [convEntries_keys ps, entryKeys]
    calc (stringKeys ps).map c_str = (stringKeys ps).map id :=
          List.map_congr_left (fun k hk => c_str_of_noNul k (hn k hk))
      _ = stringKeys ps := List.map_id _
  · intro k v hm
    have := convEntries_mem ps h k v hm
    exact ⟨convValue v, this.1, fun r0 => jsval_to_ccvalue_supported v r0 this.2⟩

/-- The object `{"k": "v", 0: null, "n": [true]}`: the entry under the index `0`
is skipped although its value is `null`. -/
theorem jsval_to_ccvaluemap_c_string_keys_witness :
    supportedProps [(.str "k", .string "v"), (.int 0, .null),
        (.str "n", .array false [some (.boolean true)] [] false)] = true ∧
    ((stringKeys [(.str "k", .string "v"), (.int 0, .null),
        (.str "n", .array false [some (.boolean true)] [] false)]).map c_str).Nodup ∧
    (∃ out : ValueMap,
      jsval_to_ccvaluemap (.object false [(.str "k", .string "v"), (.int 0, .null),
        (.str "n", .array false [some (.boolean true)] [] false)] false) [] = .ret true out ∧
      out.map Prod.fst = (stringKeys [(.str "k", .string "v"), (.int 0, .null),
        (.str "n", .array false [some (.boolean true)] [] false)]).map c_str ∧
      ((∀ k ∈ stringKeys [(.str "k", .string "v"), (.int 0, .null),
        (.str "n", .array false [some (.boolean true)] [] false)], noNul k = true) →
        out.map Prod.fst = stringKeys [(.str "k", .string "v"), (.int 0, .null),
          (.str "n", .array false [some (.boolean true)] [] false)]) ∧
      ∀ (k : String) (v : JsVal), (JsId.str k, v) ∈ [(JsId.str "k", JsVal.string "v"),
        (.int 0, .null), (.str "n", .array false [some (.boolean true)] [] false)] →
        ∃ x, (c_str k, x) ∈ out ∧ ∀ r0 : Value, jsval_to_ccvalue v r0 = .ret true x) ∧
    jsval_to_ccvaluemap (.object false [(.str "k", .string "v"), (.int 0, .null),
        (.str "n", .array false [some (.boolean true)] [] false)] false) [] =
      .ret true [("k", .string "v"), ("n", .vector [.boolean true])] :=
  ⟨by rfl, by decide, jsval_to_ccvaluemap_c_string_keys false _ (by rfl) (by decide), by rfl⟩

/-- C4, the failing instance. The string of the three characters `a`, U+0000, `b`
is converted to the STRING variant with the text `a`: the text that follows
the first U+0000 is not carried. -/
theorem jsval_to_ccvalue_cuts_string :
    jsval_to_ccvalue (.string "a\x00b") .none = .ret true (.string "a") ∧
    ("a\x00b" : String) ≠ "a" :=
  ⟨by rfl, by decide⟩

/-- C4, amended. For a string, a number or a boolean, `jsval_to_ccvalue` returns
true and sets its output to the matching variant: `string` with the text up
to its first character U+0000, which is the whole text when it holds none,
`double` with the number, `boolean` with the truth value. -/
theorem jsval_to_ccvalue_scalar_c_string (ret : Value) (s : String) (n : JsNumber) (b : Bool) :
    jsval_to_ccvalue (.string s) ret = .ret true (.string (c_str s)) ∧
    (c_str s).data = s.data.takeWhile (fun c => c.toNat != 0) ∧
    (noNul s = true → jsval_to_ccvalue (.string s) ret = .ret true (.string s)) ∧
    jsval_to_ccvalue (.number n) ret = .ret true (.double n) ∧
    jsval_to_ccvalue (.boolean b) ret = .ret true (.boolean b) :=
  ⟨rfl, rfl, fun h => by rw [← c_str_of_noNul s h]; simp [jsval_to_ccvalue, c_str_of_noNul s h],
    rfl, rfl⟩

/-- The string `héllo`, the number 3 and `true`. -/
theorem jsval_to_ccvalue_scalar_c_string_witness :
    noNul "héllo" = true ∧
    jsval_to_ccvalue (.string "héllo") .none = .ret true (.string "héllo") ∧
    jsval_to_ccvalue (.number (.ofInt 3)) .none = .ret true (.double (.ofInt 3)) ∧
    jsval_to_ccvalue (.boolean true) .none = .ret true (.boolean true) :=
  ⟨by rfl, (jsval_to_ccvalue_scalar_c_string .none "héllo" (.ofInt 3) true).2.2.1 (by rfl),
    (jsval_to_ccvalue_scalar_c_string .none "héllo" (.ofInt 3) true).2.2.2.1,
    (jsval_to_ccvalue_scalar_c_string .none "héllo" (.ofInt 3) true).2.2.2.2⟩

/-- C5. A nested failure is swallowed. Let `o` be an object whose property
iteration reports an error: `jsval_to_ccvaluemap` returns false on it, yet
`jsval_to_ccvaluevector` on `[o]`, `jsval_to_ccvaluemap` on `{"a": o}` and
`jsval_to_ccvalue` on `o` return true, with the element left out, the entry left
out and the output untouched. -/
theorem nested_failure_reported_as_success :
    jsval_to_ccvaluemap (.object false [] true) [] = .ret false [] ∧
    jsval_to_ccvaluevector (.array false [some (.object false [] true)] [] false) [] =
      .ret true [] ∧
    jsval_to_ccvaluemap (.object false [(.str "a", .object false [] true)] false) [] =
      .ret true [] ∧
    jsval_to_ccvalue (.object false [] true) .none = .ret true .none ∧
    jsval_to_ccvalue (.array false [some (.object false [] true)] [] false) .none =
      .ret true (.vector []) :=
  ⟨rfl, rfl, rfl, rfl, rfl⟩

/-! ## Unsupported values -/

mutual
theorem jsval_to_ccvaluemap_loop_asserts : ∀ (ps : List (JsId × JsVal)) (ef : Bool)
    (dict : ValueMap), assertsProps ps = true → jsval_to_ccvaluemap_loop ps ef dict = .abort
  | [], _, _, h => by simp [assertsProps] at h
  | (.int _, _) :: rest, ef, dict, h => by
    simp only [assertsProps] at h
    simp only [jsval_to_ccvaluemap_loop]
    exact jsval_to_ccvaluemap_loop_asserts rest ef dict h
  | (.str k, .undefined) :: rest, ef, dict, _ => by simp [jsval_to_ccvaluemap_loop]
  | (.str k, .null) :: rest, ef, dict, _ => by simp [jsval_to_ccvaluemap_loop]
  | (.str k, .boolean b) :: rest, ef, dict, h => by
    simp only [assertsProps, asserts, Bool.false_or] at h
    simp only [jsval_to_ccvaluemap_loop]
    exact jsval_to_ccvaluemap_loop_asserts rest ef _ h
  | (.str k, .number n) :: rest, ef, dict, h => by
    simp only [assertsProps, asserts, Bool.false_or] at h
    simp only [jsval_to_ccvaluemap_loop]
    exact jsval_to_ccvaluemap_loop_asserts rest ef _ h
  | (.str k, .string s) :: rest, ef, dict, h => by
    simp only [assertsProps, asserts, Bool.false_or] at h
    simp only [jsval_to_ccvaluemap_loop]
    exact jsval_to_ccvaluemap_loop_asserts rest ef _ h
  | (.str k, .object proxy ps2 ef2) :: rest, ef, dict, h => by
    simp only [assertsProps, asserts, Bool.or_eq_true] at h
    simp only [jsval_to_ccvaluemap_loop, jsval_to_ccvaluemap]
    cases proxy with
    | true => simp
    | false =>
      simp only [Bool.false_eq_true, false_or, if_false] at h ⊢
      rcases h with h | h
      · rw [jsval_to_ccvaluemap_loop_asserts ps2 ef2 [] h]
      · split
        · rfl
        · exact jsval_to_ccvaluemap_loop_asserts rest ef _ h
        · exact jsval_to_ccvaluemap_loop_asserts rest ef _ h
  | (.str k, .array proxy es2 ps2 ef2) :: rest, ef, dict, h => by
    simp only [assertsProps, asserts, Bool.or_eq_true] at h
    simp only [jsval_to_ccvaluemap_loop, jsval_to_ccvaluevector]
    cases proxy with
    | true => simp
    | false =>
      simp only [Bool.false_eq_true, false_or, if_false] at h ⊢
      rcases h with h | h
      · rw [jsval_to_ccvaluevector_loop_asserts es2 [] h]
      · split
        · rfl
        · exact jsval_to_ccvaluemap_loop_asserts rest ef _ h
        · exact jsval_to_ccvaluemap_loop_asserts rest ef _ h
theorem jsval_to_ccvaluevector_loop_asserts : ∀ (es : List (Option JsVal))
    (ret : ValueVector), assertsElems es = true → jsval_to_ccvaluevector_loop es ret = .abort
  | [], _, h => by simp [assertsElems] at h
  | none :: rest, ret, h => by
    simp only [assertsElems] at h
    simp only [jsval_to_ccvaluevector_loop]
    exact jsval_to_ccvaluevector_loop_asserts rest ret h
  | some .undefined :: rest, ret, _ => by simp [jsval_to_ccvaluevector_loop]
  | some .null :: rest, ret, _ => by simp [jsval_to_ccvaluevector_loop]
  | some (.boolean b) :: rest, ret, h => by
    simp only [assertsElems, asserts, Bool.false_or] at h
    simp only [jsval_to_ccvaluevector_loop]
    exact jsval_to_ccvaluevector_loop_asserts rest _ h
  | some (.number n) :: rest, ret, h => by
    simp only [assertsElems, asserts, Bool.false_or] at h
    simp only [jsval_to_ccvaluevector_loop]
    exact jsval_to_ccvaluevector_loop_asserts rest _ h
  | some (.string s) :: rest, ret, h => by
    simp only [assertsElems, asserts, Bool.false_or] at h
    simp only [jsval_to_ccvaluevector_loop]
    exact jsval_to_ccvaluevector_loop_asserts rest _ h
  | some (.object proxy ps2 ef2) :: rest, ret, h => by
    simp only [assertsElems, asserts, Bool.or_eq_true] at h
    simp only [jsval_to_ccvaluevector_loop, jsval_to_ccvaluemap]
    cases proxy with
    | true => simp
    | false =>
      simp only [Bool.false_eq_true, false_or, if_false] at h ⊢
      rcases h with h | h
      · rw [jsval_to_ccvaluemap_loop_asserts ps2 ef2 [] h]
      · split
        · rfl
        · exact jsval_to_ccvaluevector_loop_asserts rest _ h
        · exact jsval_to_ccvaluevector_loop_asserts rest _ h
  | some (.array proxy es2 ps2 ef2) :: rest, ret, h => by
    simp only [assertsElems, asserts, Bool.or_eq_true] at h
    simp only [jsval_to_ccvaluevector_loop, jsval_to_ccvaluevector]
    cases proxy with
    | true => simp
    | false =>
      simp only [Bool.false_eq_true, false_or, if_false] at h ⊢
      rcases h with h | h
      · rw [jsval_to_ccvaluevector_loop_asserts es2 [] h]
      · split
        · rfl
        · exact jsval_to_ccvaluevector_loop_asserts rest _ h
        · exact jsval_to_ccvaluevector_loop_asserts rest _ h
end

/-- C6, as stated, fails: the object `{0: null}` holds `null` as a property
value, and `jsval_to_ccvaluemap` returns true on it (the integer key is skipped
before the value is looked at). -/
theorem integer_keyed_null_not_asserted :
    jsval_to_ccvaluemap (.object false [(.int 0, .null)] false) [] = .ret true [] ∧
    jsval_to_ccvaluemap (.object false [(.int 0, .null)] false) [] ≠ .abort :=
  ⟨rfl, by simp [jsval_to_ccvaluemap, jsval_to_ccvaluemap_loop]⟩

/-- C6, amended. An array that holds, in an element that can be read, a value that
is `null`, `undefined` or bound to a native instance, and an object that holds
such a value under a string key, make `jsval_to_ccvaluevector`, respectively
`jsval_to_ccvaluemap`, end in the failed assertion; so does such a value nested
deeper, through readable elements and string-keyed properties of unbound
arrays and objects (`assertsElems`, `assertsProps`). -/
theorem unsupported_value_asserts :
    (∀ (proxy : Bool) (es : List (Option JsVal)) (ps : List (JsId × JsVal)) (ef : Bool)
        (ret : ValueVector), assertsElems es = true →
        jsval_to_ccvaluevector (.array proxy es ps ef) ret = .abort) ∧
    (∀ (proxy : Bool) (ps : List (JsId × JsVal)) (ef : Bool) (ret : ValueMap),
        assertsProps ps = true →
        jsval_to_ccvaluemap (.object proxy ps ef) ret = .abort) := by
  constructor
  · intro proxy es ps ef ret h
    simp only [jsval_to_ccvaluevector]
    exact jsval_to_ccvaluevector_loop_asserts es ret h
  · intro proxy ps ef ret h
    simp only [jsval_to_ccvaluemap]
    exact jsval_to_ccvaluemap_loop_asserts ps ef ret h

/-- The array `[1, [null]]` and the object `{"a": true, "b": <bound object>}`. -/
theorem unsupported_value_asserts_witness :
    (assertsElems [some (.number (.ofInt 1)), some (.array false [some .null] [] false)] = true ∧
      jsval_to_ccvaluevector (.array false [some (.number (.ofInt 1)),
        some (.array false [some .null] [] false)] [] false) [] = .abort) ∧
    (assertsProps [(.str "a", .boolean true), (.str "b", .object true [] false)] = true ∧
      jsval_to_ccvaluemap (.object false [(.str "a", .boolean true),
        (.str "b", .object true [] false)] false) [] = .abort) :=
  ⟨⟨by rfl, unsupported_value_asserts.1 false _ [] false [] (by rfl)⟩,
   ⟨by rfl, unsupported_value_asserts.2 false _ false [] (by rfl)⟩⟩

/-- C7, as stated, fails: on `null` the function `jsval_to_ccvalue` ends in the
failed assertion; it does not return an empty map. -/
theorem jsval_to_ccvalue_null_not_empty_map :
    jsval_to_ccvalue .null .none = .abort ∧
    jsval_to_ccvalue .null .none ≠ .ret true (.map []) :=
  ⟨rfl, by simp [jsval_to_ccvalue]⟩

/-- C7, amended. Applied to `null` or `undefined`, `jsval_to_ccvalue` reaches the
assertion "not supported type" and returns no result, whatever its output
parameter holds. -/
theorem jsval_to_ccvalue_null_asserts (ret : Value) :
    jsval_to_ccvalue .null ret = .abort ∧ jsval_to_ccvalue .undefined ret = .abort :=
  ⟨rfl, rfl⟩

/-- C8, as stated, fails: called on `null` with an output map that holds an
entry, `jsval_to_ccvaluemap` returns true and the map still holds that entry. -/
theorem jsval_to_ccvaluemap_null_keeps_entries :
    jsval_to_ccvaluemap .null [("a", .boolean true)] = .ret true [("a", .boolean true)] ∧
    [("a", Value.boolean true)] ≠ ([] : ValueMap) :=
  ⟨rfl, by simp⟩

/-- C8, amended. For `null` and for `undefined`, `jsval_to_ccvaluemap` returns true
and leaves its output map as the caller passed it: empty when the caller
passed an empty map. -/
theorem jsval_to_ccvaluemap_null (ret : ValueMap) :
    jsval_to_ccvaluemap .null ret = .ret true ret ∧
    jsval_to_ccvaluemap .undefined ret = .ret true ret ∧
    jsval_to_ccvaluemap .null [] = .ret true [] ∧
    jsval_to_ccvaluemap .undefined [] = .ret true [] :=
  ⟨rfl, rfl, rfl, rfl⟩

/-! ## The native-to-script direction -/

theorem c_string_to_jsval_eq (E : Engine) (s : String)
    (hT : E.transcodeOk s = true) (hN : E.newStringOk s = true) :
    c_string_to_jsval E s = .string s := by
  unfold c_string_to_jsval
  split
  · rename_i h; rw [h]
  · simp [hT, hN]

theorem noNul_of_asciiKey (k : String) (h : asciiKey k = true) : noNul k = true := by
  simp only [asciiKey, noNul, List.all_eq_true, Bool.and_eq_true] at h ⊢
  exact fun c hc => (h c hc).1

theorem propertyName_ascii (k : String) (h : asciiKey k = true) : propertyName k = k := by
  have hb : ∀ cs : List Char, cs.all (fun c => c.toNat != 0 && c.toNat < 0x80) = true →
      (cs.flatMap utf8Bytes).map Char.ofNat = cs := by
    intro cs
    induction cs with
    | nil => intro _; rfl
    | cons c rest ih =>
      intro hc
      simp only [List.all_cons, Bool.and_eq_true, decide_eq_true_eq] at hc
      have h1 : utf8Bytes c = [c.toNat] := by simp [utf8Bytes, hc.1.2]
      simp [List.flatMap_cons, h1, ih hc.2, Char.ofNat_toNat]
  have := hb k.data h
  simp [propertyName, c_str_of_noNul k (noNul_of_asciiKey k h), this]

theorem assignedValue_tagged (E : Engine) (x : Value) (h : x.isTagged = true) :
    assignedValue E x = ccvalue_to_jsval E x := by
  cases x <;> simp_all [assignedValue, Value.isTagged]

theorem JS_SetElement_length (elems : List (Option JsVal)) (v : JsVal) :
    JS_SetElement elems elems.length v = elems ++ [some v] := by
  simp [JS_SetElement]

theorem JS_SetProperty_fresh (props : List (JsId × JsVal)) (name : String) (v : JsVal)
    (h : JsId.str name ∉ props.map Prod.fst) :
    JS_SetProperty props name v = props ++ [(.str name, v)] := by
  induction props with
  | nil => rfl
  | cons e rest ih =>
    obtain ⟨id, old⟩ := e
    simp only [List.map_cons, List.mem_cons, not_or] at h
    have hne : ¬ id = JsId.str name := fun hid => h.1 hid.symm
    simp [JS_SetProperty, hne, ih h.2]

/-- The vector loop, whatever the values: every value is stored at its index, an
empty one as `undefined`. -/
theorem ccvaluevector_to_jsval_loop_assigned (E : Engine)
    (hE : ∀ i x, E.setElementOk i x = true) (v : ValueVector) (acc : List (Option JsVal)) :
    ccvaluevector_to_jsval_loop E v acc.length acc =
      acc ++ v.map (fun x => some (assignedValue E x)) := by
  induction v generalizing acc with
  | nil => simp [ccvaluevector_to_jsval_loop]
  | cons obj rest ih =>
    have := ih (acc ++ [some (assignedValue E obj)])
    simp only [List.length_append, List.length_singleton] at this
    cases obj <;>
      simp only [ccvaluevector_to_jsval_loop, hE, if_true, JS_SetElement_length] <;>
      simpa [assignedValue, ccvalue_to_jsval] using this

theorem ccvaluevector_to_jsval_loop_eq (E : Engine) (hE : ∀ i x, E.setElementOk i x = true)
    (v : ValueVector) (acc : List (Option JsVal)) (hv : v.all Value.isTagged = true) :
    ccvaluevector_to_jsval_loop E v acc.length acc =
      acc ++ v.map (fun x => some (ccvalue_to_jsval E x)) := by
  rw [ccvaluevector_to_jsval_loop_assigned E hE v acc]
  congr 1
  apply List.map_congr_left
  intro x hx
  rw [assignedValue_tagged E x (List.all_eq_true.mp hv x hx)]

theorem JS_SetProperty_array_plain (E : Engine)
    (arr : List (Option JsVal) × List (JsId × JsVal)) (name : String) (v : JsVal)
    (h : specialName name = false) :
    JS_SetProperty_array E arr name v = (arr.1, JS_SetProperty arr.2 name v) := by
  simp only [specialName, Bool.or_eq_false_iff, beq_eq_false_iff_ne, ne_eq] at h
  obtain ⟨⟨hi, hl⟩, hp⟩ := h
  have hnone : arrayIndex name = none := by
    cases ha : arrayIndex name with
    | none => rfl
    | some i => simp [ha] at hi
  simp [JS_SetProperty_array, hl, hp, hnone]

/-- The map loop, whatever the entries: the entries with a non-empty key are
assigned in order, each under the name of its key. -/
theorem ccvaluemap_to_jsval_loop_fold (E : Engine) (m : ValueMap)
    (acc : List (Option JsVal) × List (JsId × JsVal)) :
    ccvaluemap_to_jsval_loop E m acc =
      (m.filter (fun e => e.1 ≠ "")).foldl
        (fun arr e => JS_SetProperty_array E arr (propertyName e.1) (assignedValue E e.2))
        acc := by
  induction m generalizing acc with
  | nil => simp [ccvaluemap_to_jsval_loop]
  | cons e rest ih =>
    obtain ⟨key, obj⟩ := e
    by_cases hkey : key = ""
    · subst hkey
      have := ih acc
      cases obj <;> simpa [ccvaluemap_to_jsval_loop] using this
    · have := ih (JS_SetProperty_array E acc (propertyName key) (assignedValue E obj))
      cases obj <;>
        simpa [ccvaluemap_to_jsval_loop, assignedValue, ccvalue_to_jsval, hkey] using this

theorem printLong_ne_empty (k : Int) : printLong k ≠ "" := by
  intro h
  have hd : (printLong k).data = [] := by rw [h]
  unfold printLong decimalDigits at hd
  simp only at hd
  split at hd
  · simp at hd
  · split at hd
    · simp at hd
    · rename_i _ hn
      simp only [List.map_eq_nil_iff, List.reverse_eq_nil_iff] at hd
      exact hn (by simpa using (Nat.digits_eq_nil_iff_eq_zero.mp hd))

/-- The loop of the integer-keyed map, whatever the entries: every entry is
assigned, in order, under the name of its key printed in decimal. -/
theorem ccvaluemapintkey_to_jsval_loop_fold (E : Engine) (m : ValueMapIntKey)
    (acc : List (Option JsVal) × List (JsId × JsVal)) :
    ccvaluemapintkey_to_jsval_loop E m acc =
      m.foldl
        (fun arr e =>
          JS_SetProperty_array E arr (propertyName (printLong e.1)) (assignedValue E e.2))
        acc := by
  induction m generalizing acc with
  | nil => simp [ccvaluemapintkey_to_jsval_loop]
  | cons e rest ih =>
    obtain ⟨key, obj⟩ := e
    have hkey := printLong_ne_empty key
    have := ih (JS_SetProperty_array E acc (propertyName (printLong key)) (assignedValue E obj))
    cases obj <;>
      simpa [ccvaluemapintkey_to_jsval_loop, assignedValue, ccvalue_to_jsval, hkey] using this

theorem ccvaluemap_to_jsval_loop_eq (E : Engine) (m : ValueMap)
    (acc : List (Option JsVal) × List (JsId × JsVal))
    (hk : (m.map (fun e => propertyName e.1)).Nodup)
    (hacc : ∀ e ∈ m, JsId.str (propertyName e.1) ∉ acc.2.map Prod.fst)
    (hidx : ∀ e ∈ m, specialName (propertyName e.1) = false) :
    ccvaluemap_to_jsval_loop E m acc =
      (acc.1, acc.2 ++
        (m.filter (fun e => e.1 ≠ "")).map
          (fun e => (JsId.str (propertyName e.1), assignedValue E e.2))) := by
  rw [ccvaluemap_to_jsval_loop_fold]
  induction m generalizing acc with
  | nil => simp
  | cons e rest ih =>
    obtain ⟨key, obj⟩ := e
    simp only [List.map_cons, List.nodup_cons, List.mem_cons, forall_eq_or_imp] at hk hacc hidx
    by_cases hkey : key = ""
    · subst hkey
      simpa using ih acc hk.2 hacc.2 hidx.2
    · have hset := JS_SetProperty_fresh acc.2 (propertyName key) (assignedValue E obj) hacc.1
      have hplain := JS_SetProperty_array_plain E acc (propertyName key) (assignedValue E obj)
        hidx.1
      have := ih (acc.1, acc.2 ++ [(.str (propertyName key), assignedValue E obj)]) hk.2 (by
        intro e he
        simp only [List.map_append, List.map_cons, List.map_nil, List.mem_append,
          List.mem_singleton, JsId.str.injEq, not_or]
        exact ⟨hacc.2 e he, fun h => hk.1 (h ▸ List.mem_map.mpr ⟨e, he, rfl⟩)⟩) hidx.2
      simpa [hkey, hset, hplain] using this

theorem digitChar_ascii (d : Nat) (h : d < 10) :
    ((digitChar d).toNat != 0 && decide ((digitChar d).toNat < 0x80)) = true ∧
    (digitChar d).isDigit = true ∧ digitChar d ≠ '-' := by
  interval_cases d <;> decide

theorem asciiKey_printLong (k : Int) : asciiKey (printLong k) = true := by
  have hd : ∀ n : Nat, (decimalDigits n).all
      (fun c => c.toNat != 0 && decide (c.toNat < 0x80)) = true := by
    intro n
    unfold decimalDigits
    split
    · decide
    · rw [List.all_eq_true]
      intro c hc
      simp only [List.mem_map, List.mem_reverse] at hc
      obtain ⟨d, hdm, rfl⟩ := hc
      exact (digitChar_ascii d (Nat.digits_lt_base (by norm_num) hdm)).1
  unfold asciiKey printLong
  split
  · simp only [List.all_cons, Bool.and_eq_true]
    exact ⟨by decide, hd _⟩
  · exact hd _

theorem propertyName_printLong (k : Int) : propertyName (printLong k) = printLong k :=
  propertyName_ascii _ (asciiKey_printLong k)

theorem specialName_printLong_negative (k : Int) (h : k < 0) :
    specialName (printLong k) = false := by
  have hd : (printLong k).data = '-' :: decimalDigits k.natAbs := by
    simp [printLong, h]
  have h1 : arrayIndex (printLong k) = none := by
    simp [arrayIndex, hd]
  have h2 : printLong k ≠ "length" := by
    intro he
    have := congrArg String.data he
    rw [hd] at this
    simp at this
  have h3 : printLong k ≠ "__proto__" := by
    intro he
    have := congrArg String.data he
    rw [hd] at this
    simp at this
  simp [specialName, h1, h2, h3]

theorem utf8Bytes_head (c : Char) (h : 0x80 ≤ c.toNat) :
    ∃ b rest, utf8Bytes c = b :: rest ∧ 0x80 ≤ b ∧ b < 0x100 := by
  have hv : c.toNat < 0x110000 := by
    have := c.valid
    simp only [UInt32.isValidChar, Nat.isValidChar] at this
    have e : c.toNat = c.val.toNat := rfl
    omega
  unfold utf8Bytes
  split
  · omega
  · split
    · exact ⟨_, _, rfl, by omega, by omega⟩
    · split
      · exact ⟨_, _, rfl, by omega, by omega⟩
      · exact ⟨_, _, rfl, by omega, by omega⟩

theorem toNat_ofNat_byte (b : Nat) (h : b < 0x100) : (Char.ofNat b).toNat = b := by
  have hv : b.isValidChar := Or.inl (by omega)
  simp [Char.ofNat, hv, Char.toNat, Char.ofNatAux, UInt32.toNat]

theorem specialName_of_high (t : String) (d : Char) (hd : d ∈ t.data) (h : 0x80 ≤ d.toNat) :
    specialName t = false := by
  have h1 : arrayIndex t = none := by
    have : t.data.all Char.isDigit = false := by
      rw [List.all_eq_false]
      refine ⟨d, hd, ?_⟩
      have e : d.toNat = d.val.toNat := rfl
      simp only [Char.isDigit, Bool.and_eq_true, decide_eq_true_eq, not_and, not_le,
        UInt32.le_def, UInt32.lt_def, ge_iff_le]
      intro _ h57
      have h1 : d.val.toBitVec.toNat ≤ (UInt32.toBitVec 57).toNat := BitVec.le_def.mp h57
      have e2 : (UInt32.toBitVec 57).toNat = 57 := rfl
      have e3 : d.val.toBitVec.toNat = d.val.toNat := rfl
      omega
    simp [arrayIndex, this]
  have hlow : ∀ u : String, u.data.all (fun c => decide (c.toNat < 0x80)) = true → t ≠ u := by
    intro u hu he
    subst he
    have := List.all_eq_true.mp hu d hd
    simp only [decide_eq_true_eq] at this
    omega
  have h2 : t ≠ "length" := hlow _ (by decide)
  have h3 : t ≠ "__proto__" := hlow _ (by decide)
  simp [specialName, h1, h2, h3]

theorem flatMap_utf8Bytes_high (cs : List Char) (c : Char) (hc : c ∈ cs)
    (h : 0x80 ≤ c.toNat) :
    ∃ d ∈ (cs.flatMap utf8Bytes).map Char.ofNat, 0x80 ≤ d.toNat := by
  obtain ⟨b, rest, hb, hlo, hhi⟩ := utf8Bytes_head c h
  refine ⟨Char.ofNat b, ?_, by rw [toNat_ofNat_byte b hhi]; exact hlo⟩
  apply List.mem_map.mpr
  refine ⟨b, ?_, rfl⟩
  apply List.mem_flatMap.mpr
  exact ⟨c, hc, by rw [hb]; exact List.mem_cons_self _ _⟩

/-- A key without U+0000 names a property an array treats specially exactly when
the key itself is such a name. -/
theorem specialName_propertyName (k : String) (h : noNul k = true) :
    specialName (propertyName k) = specialName k := by
  by_cases ha : asciiKey k = true
  · rw [propertyName_ascii k ha]
  · have hex : ∃ c ∈ k.data, 0x80 ≤ c.toNat := by
      by_contra hne
      apply ha
      simp only [asciiKey, List.all_eq_true, Bool.and_eq_true, decide_eq_true_eq]
      intro c hc
      have h0 := List.all_eq_true.mp h c hc
      refine ⟨h0, ?_⟩
      by_contra hlt
      exact hne ⟨c, hc, by omega⟩
    obtain ⟨c, hc, hhigh⟩ := hex
    rw [specialName_of_high k c hc hhigh]
    obtain ⟨d, hd, hdh⟩ := flatMap_utf8Bytes_high k.data c hc hhigh
    have hp : (propertyName k).data = (k.data.flatMap utf8Bytes).map Char.ofNat := by
      simp [propertyName, c_str_of_noNul k h]
    exact specialName_of_high (propertyName k) d (by rw [hp]; exact hd) hdh

/-- C9, the failing instance. A native string that `UTF8ToUTF16` rejects, or that
the engine cannot create, is converted to `null`, not to a string: on an
engine on which every element assignment succeeds, the list of the one STRING
value `a` becomes the array `[null]`. -/
theorem ccvaluevector_to_jsval_string_as_null :
    (∀ i x, noTranscodingEngine.setElementOk i x = true) ∧
    (∀ i x, noStringEngine.setElementOk i x = true) ∧
    [Value.string "a"].all Value.isTagged = true ∧
    ccvaluevector_to_jsval noTranscodingEngine [.string "a"] =
      .array false [some .null] [] false ∧
    ccvaluevector_to_jsval noStringEngine [.string "a"] =
      .array false [some .null] [] false ∧
    ccvalue_to_jsval noTranscodingEngine (.string "a") = .null ∧
    ccvalue_to_jsval noStringEngine (.string "a") = .null := by
  refine ⟨fun _ _ => rfl, fun _ _ => rfl, by decide, ?_, ?_, ?_, ?_⟩ <;>
    simp [ccvaluevector_to_jsval, ccvaluevector_to_jsval_loop, ccvalue_to_jsval,
      std_string_to_jsval, c_string_to_jsval, noTranscodingEngine, noStringEngine,
      JS_SetElement]

/-- C9, amended. When every element assignment of the engine succeeds, for every
list `v`, `ccvaluevector_to_jsval v` is an array of length `|v|` whose element
at index `i` is the value assigned for `v[i]`: `ccvalue_to_jsval (v[i])` for a
value of one of the seven tagged variants (and `undefined` for an empty
value). `ccvalue_to_jsval` converts variant by variant: a boolean to a
boolean, an integer to that integer, a float or double to that number, a
string to the string of its text when the text is empty or is transcoded and
created by the engine and to `null` otherwise, a list to the array of the
values assigned for its elements, a string-keyed map to the array object on
which the entries with a non-empty key have been assigned in order under the
name of their key, an integer-keyed map to the array object on which every
entry has been assigned in order under its key printed in decimal. -/
theorem ccvaluevector_to_jsval_variants (E : Engine) (v : ValueVector)
    (hE : ∀ i x, E.setElementOk i x = true) :
    ccvaluevector_to_jsval E v =
      .array false (v.map (fun x => some (assignedValue E x))) [] false ∧
    (v.all Value.isTagged = true →
      ccvaluevector_to_jsval E v =
        .array false (v.map (fun x => some (ccvalue_to_jsval E x))) [] false) ∧
    (∀ x, x.isTagged = true → assignedValue E x = ccvalue_to_jsval E x) ∧
    assignedValue E .none = .undefined ∧
    (∀ b, ccvalue_to_jsval E (.boolean b) = .boolean b) ∧
    (∀ i, ccvalue_to_jsval E (.integer i) = .number (.ofInt i)) ∧
    (∀ f, ccvalue_to_jsval E (.float f) = .number f) ∧
    (∀ d, ccvalue_to_jsval E (.double d) = .number d) ∧
    (∀ s, ccvalue_to_jsval E (.string s) =
      if s = "" ∨ (E.transcodeOk s = true ∧ E.newStringOk s = true) then .string s
      else .null) ∧
    (∀ w, ccvalue_to_jsval E (.vector w) =
      .array false (w.map (fun x => some (assignedValue E x))) [] false) ∧
    (∀ m, ccvalue_to_jsval E (.map m) =
      .array false
        ((m.filter (fun e => e.1 ≠ "")).foldl (fun arr e =>
          JS_SetProperty_array E arr (propertyName e.1) (assignedValue E e.2)) ([], [])).1
        ((m.filter (fun e => e.1 ≠ "")).foldl (fun arr e =>
          JS_SetProperty_array E arr (propertyName e.1) (assignedValue E e.2)) ([], [])).2
        false) ∧
    (∀ m, ccvalue_to_jsval E (.intKeyMap m) =
      .array false
        (m.foldl (fun arr e =>
          JS_SetProperty_array E arr (printLong e.1) (assignedValue E e.2)) ([], [])).1
        (m.foldl (fun arr e =>
          JS_SetProperty_array E arr (printLong e.1) (assignedValue E e.2)) ([], [])).2
        false) := by
  have hvec : ∀ w, ccvaluevector_to_jsval E w =
      .array false (w.map (fun x => some (assignedValue E x))) [] false := by
    intro w
    have := ccvaluevector_to_jsval_loop_assigned E hE w []
    simp only [List.length_nil, List.nil_append] at this
    rw [ccvaluevector_to_jsval, this]
  refine ⟨hvec v, ?_, assignedValue_tagged E, rfl, ?_, ?_, ?_, ?_, ?_, ?_, ?_, ?_⟩
  · intro hv
    have := ccvaluevector_to_jsval_loop_eq E hE v [] hv
    simp only [List.length_nil, List.nil_append] at this
    rw [ccvaluevector_to_jsval, this]
  · intro b; simp [ccvalue_to_jsval]
  · intro i; simp [ccvalue_to_jsval]
  · intro f; simp [ccvalue_to_jsval]
  · intro d; simp [ccvalue_to_jsval]
  · intro s
    simp only [ccvalue_to_jsval, std_string_to_jsval, c_string_to_jsval]
    by_cases hs : s = ""
    · simp [hs]
    · by_cases hT : E.transcodeOk s = true <;> by_cases hN : E.newStringOk s = true <;>
        simp [hs, hT, hN]
  · intro w; rw [ccvalue_to_jsval, hvec w]
  · intro m
    rw [ccvalue_to_jsval, ccvaluemap_to_jsval, ccvaluemap_to_jsval_loop_fold E m ([], [])]
  · intro m
    rw [ccvalue_to_jsval, ccvaluemapintkey_to_jsval,
      ccvaluemapintkey_to_jsval_loop_fold E m ([], [])]
    simp only [propertyName_printLong]

/-- The list `[true, 3, "a", {"k": 1.0}, {-1: true, 1: "s"}]` on an engine whose
calls succeed: the integer-keyed map becomes the array `[undefined, "s"]` with
the property `-1`. -/
theorem ccvaluevector_to_jsval_variants_witness :
    (∀ i x, okEngine.setElementOk i x = true) ∧
    ccvaluevector_to_jsval okEngine
        [.boolean true, .integer 3, .string "a", .map [("k", .double (.ofInt 1))],
          .intKeyMap [(-1, .boolean true), (1, .string "s")]] =
      .array false [some (.boolean true), some (.number (.ofInt 3)), some (.string "a"),
        some (.array false [] [(.str "k", .number (.ofInt 1))] false),
        some (.array false [some .undefined, some (.string "s")]
          [(.str "-1", .boolean true)] false)] [] false := by
  refine ⟨fun _ _ => rfl, ?_⟩
  rw [(ccvaluevector_to_jsval_variants okEngine _ (fun _ _ => rfl)).1]
  have hk : propertyName "k" = "k" := by decide
  have hk2 : specialName "k" = false := by decide
  have p1 : printLong (-1) = "-1" := by simp [printLong, decimalDigits, digitChar]
  have p2 : printLong 1 = "1" := by simp [printLong, decimalDigits, digitChar]
  have n1 : propertyName "-1" = "-1" := by decide
  have n2 : propertyName "1" = "1" := by decide
  have s1 : specialName "-1" = false := by decide
  have i1 : arrayIndex "1" = some 1 := by decide
  have l1 : ("1" : String) ≠ "length" := by decide
  have l2 : ("1" : String) ≠ "__proto__" := by decide
  have a1 : arrayIndex "-1" = none := by decide
  have a2 : arrayIndex "k" = none := by decide
  simp [assignedValue, ccvalue_to_jsval, ccvaluemap_to_jsval, ccvaluemap_to_jsval_loop,
    ccvaluemapintkey_to_jsval, ccvaluemapintkey_to_jsval_loop, JS_SetProperty,
    JS_SetProperty_array_plain, hk, hk2, p1, p2, n1, n2, s1, std_string_to_jsval,
    c_string_to_jsval, okEngine, JS_SetProperty_array, i1, l1, l2, a1, a2, JS_SetElement]

/-- C10, the failing instance. The entry `("a", Value())` holds an empty value:
the loop assigns `undefined` under `a`, while `ccvalue_to_jsval` of the empty
value is `null`. The entry under the key of the three characters `a`, U+0000,
`b` is assigned under the name `a`, the C string of the key. -/
theorem ccvaluemap_to_jsval_assigns_undefined :
    ccvaluemap_to_jsval okEngine [("a", .none)] =
      .array false [] [(.str "a", .undefined)] false ∧
    ccvalue_to_jsval okEngine .none = .null ∧
    ccvaluemap_to_jsval okEngine [("a\x00b", .boolean true)] =
      .array false [] [(.str "a", .boolean true)] false := by
  have n1 : propertyName "a" = "a" := by decide
  have n2 : propertyName "a\x00b" = "a" := by decide
  have s1 : specialName "a" = false := by decide
  have k2 : ("a\x00b" : String) ≠ "" := by decide
  refine ⟨?_, ?_, ?_⟩ <;>
    simp [ccvaluemap_to_jsval, ccvaluemap_to_jsval_loop, ccvalue_to_jsval, n1, n2, k2,
      JS_SetProperty_array_plain, s1, JS_SetProperty]

/-- C10, amended. For every string-keyed map `m`, `ccvaluemap_to_jsval m` is an
array object, created empty, on which exactly the entries of `m` with a
non-empty key have been assigned, in order, each under the name of its key
(the key as a C string, that is up to its first U+0000, read byte by byte; a
key of ASCII characters without U+0000 names itself) the value assigned for
the entry: `ccvalue_to_jsval` of it for a value of a tagged variant, and
`undefined` for an empty value. An entry with the empty key is assigned
nowhere. When the names are pairwise distinct and none is a name an array
treats specially (an array index, `length`, `__proto__`), the array has no
elements and its properties are exactly these entries. -/
theorem ccvaluemap_to_jsval_assigns (E : Engine) (m : ValueMap) :
    ccvaluemap_to_jsval E m =
      .array false
        ((m.filter (fun e => e.1 ≠ "")).foldl (fun arr e =>
          JS_SetProperty_array E arr (propertyName e.1) (assignedValue E e.2)) ([], [])).1
        ((m.filter (fun e => e.1 ≠ "")).foldl (fun arr e =>
          JS_SetProperty_array E arr (propertyName e.1) (assignedValue E e.2)) ([], [])).2
        false ∧
    (∀ x, x.isTagged = true → assignedValue E x = ccvalue_to_jsval E x) ∧
    assignedValue E .none = .undefined ∧
    (∀ k, (propertyName k).data = ((c_str k).data.flatMap utf8Bytes).map Char.ofNat) ∧
    (∀ k, asciiKey k = true → propertyName k = k) ∧
    ((m.map (fun e => propertyName e.1)).Nodup →
      (∀ e ∈ m, specialName (propertyName e.1) = false) →
      ccvaluemap_to_jsval E m =
        .array false []
          ((m.filter (fun e => e.1 ≠ "")).map
            (fun e => (JsId.str (propertyName e.1), assignedValue E e.2)))
          false) := by
  refine ⟨?_, assignedValue_tagged E, rfl, fun _ => rfl, propertyName_ascii, ?_⟩
  · rw [ccvaluemap_to_jsval, ccvaluemap_to_jsval_loop_fold E m ([], [])]
  · intro hk hidx
    have := ccvaluemap_to_jsval_loop_eq E m ([], []) hk (by simp) hidx
    rw [ccvaluemap_to_jsval, this]
    simp

/-- The map `{"a": true, "": 1, "b": ["s"], "c": Value()}`: the entry under `""`
is left out, and the empty value is assigned as `undefined`. -/
theorem ccvaluemap_to_jsval_assigns_witness :
    ([("a", Value.boolean true), ("", .integer 1), ("b", .vector [.string "s"]),
      ("c", .none)].map (fun e => propertyName e.1)).Nodup ∧
    (∀ e ∈ [("a", Value.boolean true), ("", .integer 1), ("b", .vector [.string "s"]),
      ("c", .none)], specialName (propertyName e.1) = false) ∧
    ccvaluemap_to_jsval okEngine
        [("a", .boolean true), ("", .integer 1), ("b", .vector [.string "s"]), ("c", .none)] =
      .array false [] [(.str "a", .boolean true),
        (.str "b", .array false [some (.string "s")] [] false),
        (.str "c", .undefined)] false := by
  have n1 : propertyName "a" = "a" := by decide
  have n2 : propertyName "b" = "b" := by decide
  have n3 : propertyName "c" = "c" := by decide
  have n0 : propertyName "" = "" := by decide
  have hk : ([("a", Value.boolean true), ("", .integer 1), ("b", .vector [.string "s"]),
      ("c", .none)].map (fun e => propertyName e.1)).Nodup := by
    simp only [List.map_cons, List.map_nil, n1, n2, n3, n0]
    decide
  have hs : ∀ e ∈ [("a", Value.boolean true), ("", .integer 1), ("b", .vector [.string "s"]),
      ("c", .none)], specialName (propertyName e.1) = false := by
    simp only [List.mem_cons, List.mem_singleton, List.not_mem_nil, or_false,
      forall_eq_or_imp, forall_eq, n1, n2, n3, n0]
    decide
  refine ⟨hk, hs, ?_⟩
  rw [(ccvaluemap_to_jsval_assigns okEngine _).2.2.2.2.2 hk hs]
  simp [assignedValue, ccvalue_to_jsval, ccvaluevector_to_jsval, ccvaluevector_to_jsval_loop,
    okEngine, JS_SetElement, std_string_to_jsval, c_string_to_jsval, n1, n2, n3]

/-! ## The round trip script to native to script -/

mutual
theorem plainData_supported (b : Bool) : ∀ v : JsVal, plainData b v = true → supported v = true
  | .undefined, h => by simp [plainData] at h
  | .null, h => by simp [plainData] at h
  | .boolean _, _ => rfl
  | .number _, _ => rfl
  | .string _, _ => rfl
  | .object proxy ps ef, h => by
    simp only [plainData, Bool.and_eq_true, Bool.not_eq_true'] at h
    simp only [supported, Bool.and_eq_true, Bool.not_eq_true']
    exact ⟨⟨h.1.1.1, h.1.1.2⟩, plainProps_supported b ps h.1.2⟩
  | .array proxy es ps ef, h => by
    simp only [plainData, Bool.and_eq_true, Bool.not_eq_true'] at h
    simp only [supported, Bool.and_eq_true, Bool.not_eq_true']
    exact ⟨h.1.1, plainElems_supported b es h.1.2⟩
theorem plainProps_supported (b : Bool) :
    ∀ ps : List (JsId × JsVal), plainProps b ps = true → supportedProps ps = true
  | [], _ => rfl
  | (.int _, _) :: _, h => by simp [plainProps] at h
  | (.str k, v) :: rest, h => by
    simp only [plainProps, Bool.and_eq_true] at h
    simp only [supportedProps, Bool.and_eq_true]
    exact ⟨plainData_supported b v h.1.2, plainProps_supported b rest h.2⟩
theorem plainElems_supported (b : Bool) :
    ∀ es : List (Option JsVal), plainElems b es = true → supportedElems es = true
  | [], _ => rfl
  | none :: _, h => by simp [plainElems] at h
  | some v :: rest, h => by
    simp only [plainElems, Bool.and_eq_true] at h
    simp only [supportedElems, Bool.and_eq_true]
    exact ⟨plainData_supported b v h.1, plainElems_supported b rest h.2⟩
end

theorem convValue_isTagged (b : Bool) (v : JsVal) (h : plainData b v = true) :
    (convValue v).isTagged = true := by
  cases v <;> simp_all [plainData, convValue, Value.isTagged]

theorem plainProps_keys (b : Bool) (ps : List (JsId × JsVal)) (h : plainProps b ps = true) :
    ps.map Prod.fst = (stringKeys ps).map JsId.str := by
  induction ps with
  | nil => rfl
  | cons e rest ih =>
    obtain ⟨id, v⟩ := e
    cases id with
    | int i => simp [plainProps] at h
    | str k =>
      simp only [plainProps, Bool.and_eq_true] at h
      simp [stringKeys, ih h.2]

theorem convEntries_isTagged (b : Bool) (ps : List (JsId × JsVal))
    (h : plainProps b ps = true) :
    (convEntries ps).all (fun e => e.2.isTagged) = true := by
  induction ps with
  | nil => rfl
  | cons e rest ih =>
    obtain ⟨id, v⟩ := e
    cases id with
    | int i => simp [plainProps] at h
    | str k =>
      simp only [plainProps, Bool.and_eq_true] at h
      simp only [convEntries, List.all_cons, Bool.and_eq_true]
      exact ⟨convValue_isTagged b v h.1.2, ih h.2⟩

theorem convEntries_assigned (E : Engine) (ps : List (JsId × JsVal))
    (h : plainProps false ps = true) :
    ((convEntries ps).filter (fun e => e.1 ≠ "")).map
        (fun e => (JsId.str (propertyName e.1), assignedValue E e.2)) =
      ps.map (fun e => (e.1, ccvalue_to_jsval E (convValue e.2))) := by
  induction ps with
  | nil => rfl
  | cons e rest ih =>
    obtain ⟨id, v⟩ := e
    cases id with
    | int i => simp [plainProps] at h
    | str k =>
      simp only [plainProps, Bool.and_eq_true, Bool.false_or, bne_iff_ne, ne_eq,
        Bool.not_eq_true'] at h
      have := ih h.2
      have hc : c_str k = k := c_str_of_noNul k (noNul_of_asciiKey k h.1.1.2.2)
      have hp : propertyName k = k := propertyName_ascii k h.1.1.2.2
      have ha := assignedValue_tagged E (convValue v) (convValue_isTagged false v h.1.2)
      simpa [convEntries, h.1.1.1, hc, hp, ha] using this

theorem convEntries_names (b : Bool) (ps : List (JsId × JsVal)) (h : plainProps b ps = true) :
    (convEntries ps).map (fun e => propertyName e.1) = stringKeys ps ∧
    entryKeys ps = stringKeys ps := by
  induction ps with
  | nil => exact ⟨rfl, rfl⟩
  | cons e rest ih =>
    obtain ⟨id, v⟩ := e
    cases id with
    | int i => simp [plainProps] at h
    | str k =>
      simp only [plainProps, Bool.and_eq_true, Bool.not_eq_true'] at h
      have hc : c_str k = k := c_str_of_noNul k (noNul_of_asciiKey k h.1.1.2.2)
      have hp : propertyName k = k := propertyName_ascii k h.1.1.2.2
      have := ih h.2
      simp only [entryKeys] at this
      simp [convEntries, entryKeys, stringKeys, hc, hp, this.1, this.2]

theorem convElems_isTagged (b : Bool) (es : List (Option JsVal))
    (h : plainElems b es = true) : (convElems es).all Value.isTagged = true := by
  induction es with
  | nil => rfl
  | cons e rest ih =>
    cases e with
    | none => simp [plainElems] at h
    | some v =>
      simp only [plainElems, Bool.and_eq_true] at h
      simp only [convElems, List.all_cons, Bool.and_eq_true]
      exact ⟨convValue_isTagged b v h.1, ih h.2⟩

theorem convElems_assigned (E : Engine) (b : Bool) (es : List (Option JsVal))
    (h : plainElems b es = true) :
    (convElems es).map (fun x => some (ccvalue_to_jsval E x)) =
      es.map (Option.map (fun v => ccvalue_to_jsval E (convValue v))) := by
  induction es with
  | nil => rfl
  | cons e rest ih =>
    cases e with
    | none => simp [plainElems] at h
    | some v =>
      simp only [plainElems, Bool.and_eq_true] at h
      simp [convElems, ih h.2]

theorem plainProps_not_special (b : Bool) (ps : List (JsId × JsVal))
    (h : plainProps b ps = true) : ∀ k ∈ stringKeys ps, specialName k = false := by
  induction ps with
  | nil => simp [stringKeys]
  | cons e rest ih =>
    obtain ⟨id, v⟩ := e
    cases id with
    | int i => simp [plainProps] at h
    | str k =>
      simp only [plainProps, Bool.and_eq_true, Bool.not_eq_true'] at h
      intro k2 hk2
      simp only [stringKeys, List.mem_cons] at hk2
      rcases hk2 with rfl | hk2
      · exact h.1.1.2.1
      · exact ih h.2 k2 hk2

/-- The round trip of an object: an array object with the same keys. -/
theorem roundtrip_object (E : Engine) (proxy : Bool) (ps : List (JsId × JsVal)) (ef : Bool)
    (h : plainProps false ps = true) (hk : (stringKeys ps).Nodup) :
    ccvalue_to_jsval E (convValue (.object proxy ps ef)) =
      .array false [] (ps.map (fun e => (e.1, ccvalue_to_jsval E (convValue e.2)))) false := by
  have hn := convEntries_names false ps h
  have h1 := convProps_fresh ps [] (by rw [hn.2]; exact hk) (by simp)
  simp only [List.nil_append] at h1
  have h2 := ccvaluemap_to_jsval_loop_eq E (convEntries ps) ([], [])
    (by rw [hn.1]; exact hk) (by simp)
    (by
      intro e he
      have hm : propertyName e.1 ∈ (convEntries ps).map (fun e => propertyName e.1) :=
        List.mem_map.mpr ⟨e, he, rfl⟩
      rw [hn.1] at hm
      exact plainProps_not_special false ps h _ hm)
  simp only [List.nil_append] at h2
  rw [convValue, h1, ccvalue_to_jsval, ccvaluemap_to_jsval, h2, convEntries_assigned E ps h]

/-- The round trip of an array: an array of the round trips of the elements. -/
theorem roundtrip_array (E : Engine) (hE : ∀ i x, E.setElementOk i x = true) (b : Bool)
    (proxy : Bool) (es : List (Option JsVal)) (ps : List (JsId × JsVal)) (ef : Bool)
    (h : plainElems b es = true) :
    ccvalue_to_jsval E (convValue (.array proxy es ps ef)) =
      .array false (es.map (Option.map (fun v => ccvalue_to_jsval E (convValue v)))) [] false := by
  have h2 := ccvaluevector_to_jsval_loop_eq E hE (convElems es) [] (convElems_isTagged b es h)
  simp only [List.length_nil, List.nil_append] at h2
  rw [convValue, ccvalue_to_jsval, ccvaluevector_to_jsval, h2, convElems_assigned E b es h]

theorem lookup_map_of_mem (f : JsVal → JsVal) (ps : List (JsId × JsVal))
    (hk : (ps.map Prod.fst).Nodup) (e : JsId × JsVal) (he : e ∈ ps) :
    (ps.map (fun p => (p.1, f p.2))).lookup e.1 = some (f e.2) := by
  induction ps with
  | nil => simp at he
  | cons p rest ih =>
    simp only [List.map_cons, List.nodup_cons] at hk
    simp only [List.mem_cons] at he
    rcases he with he | he
    · subst he
      simp [List.lookup]
    · have hne : ¬ e.1 = p.1 := by
        intro heq
        apply hk.1
        rw [← heq]
        exact List.mem_map.mpr ⟨e, he, rfl⟩
      have hbeq : (e.1 == p.1) = false := by simpa using hne
      simp only [List.map_cons, List.lookup, hbeq]
      exact ih hk.2 he

theorem jsEquivProps_map (f : JsVal → JsVal) (ps : List (JsId × JsVal))
    (hk : (ps.map Prod.fst).Nodup) (hf : ∀ e ∈ ps, jsEquiv e.2 (f e.2) = true)
    (sub : List (JsId × JsVal)) (hsub : ∀ e ∈ sub, e ∈ ps) :
    jsEquivProps sub (ps.map (fun p => (p.1, f p.2))) = true := by
  induction sub with
  | nil => rfl
  | cons e rest ih =>
    obtain ⟨k, a⟩ := e
    have he : (k, a) ∈ ps := hsub _ (List.mem_cons_self _ _)
    have hl := lookup_map_of_mem f ps hk (k, a) he
    simp only at hl
    simp only [jsEquivProps, hl, Bool.and_eq_true]
    exact ⟨hf _ he, ih (fun e h => hsub e (List.mem_cons_of_mem _ h))⟩

theorem keys_map_all (f : JsVal → JsVal) (ps : List (JsId × JsVal)) :
    (ps.map (fun p => (p.1, f p.2))).all (fun q => ps.any (fun p => p.1 == q.1)) = true := by
  simp only [List.all_eq_true, List.mem_map, List.any_eq_true, beq_iff_eq]
  rintro q ⟨p, hp, rfl⟩
  exact ⟨p, hp, rfl⟩

mutual
theorem roundtrip_equiv (E : Engine) (hE : ∀ i x, E.setElementOk i x = true)
    (hS : ∀ s, E.transcodeOk s = true ∧ E.newStringOk s = true) :
    ∀ v : JsVal, plainData false v = true →
      jsEquiv v (ccvalue_to_jsval E (convValue v)) = true
  | .undefined, h => by simp [plainData] at h
  | .null, h => by simp [plainData] at h
  | .boolean b, _ => by simp [convValue, ccvalue_to_jsval, jsEquiv]
  | .number n, _ => by simp [convValue, ccvalue_to_jsval, jsEquiv]
  | .string s, h => by
    simp only [plainData] at h
    simp [convValue, ccvalue_to_jsval, std_string_to_jsval, c_str_of_noNul s h,
      c_string_to_jsval_eq E s (hS s).1 (hS s).2, jsEquiv]
  | .object proxy ps ef, h => by
    simp only [plainData, Bool.and_eq_true, Bool.not_eq_true', decide_eq_true_eq] at h
    obtain ⟨⟨⟨_, _⟩, hps⟩, hk⟩ := h
    rw [roundtrip_object E proxy ps ef hps hk]
    have hk2 : (ps.map Prod.fst).Nodup := by
      rw [plainProps_keys false ps hps]
      exact hk.map (fun a b hab => by simpa using hab)
    have hall := roundtrip_equiv_props E hE hS ps hps
    simp only [jsEquiv, JsVal.isObject, JsVal.elems, JsVal.props, List.isEmpty_nil,
      Bool.true_and, Bool.and_eq_true]
    exact ⟨jsEquivProps_map (fun v => ccvalue_to_jsval E (convValue v)) ps hk2 hall ps
      (fun e he => he), keys_map_all (fun v => ccvalue_to_jsval E (convValue v)) ps⟩
  | .array proxy es ps ef, h => by
    simp only [plainData, Bool.and_eq_true, Bool.not_eq_true', List.isEmpty_iff] at h
    obtain ⟨⟨_, hes⟩, hps⟩ := h
    subst hps
    rw [roundtrip_array E hE false proxy es [] ef hes]
    simp only [jsEquiv, JsVal.isObject, JsVal.elems, JsVal.props, jsEquivProps, List.all_nil,
      Bool.true_and, Bool.and_true]
    exact roundtrip_equiv_elems E hE hS es hes
theorem roundtrip_equiv_props (E : Engine) (hE : ∀ i x, E.setElementOk i x = true)
    (hS : ∀ s, E.transcodeOk s = true ∧ E.newStringOk s = true) :
    ∀ ps : List (JsId × JsVal), plainProps false ps = true →
      ∀ e ∈ ps, jsEquiv e.2 (ccvalue_to_jsval E (convValue e.2)) = true
  | [], _ => by simp
  | (.int _, _) :: _, h => by simp [plainProps] at h
  | (.str k, v) :: rest, h => by
    simp only [plainProps, Bool.and_eq_true] at h
    intro e he
    simp only [List.mem_cons] at he
    rcases he with he | he
    · subst he
      exact roundtrip_equiv E hE hS v h.1.2
    · exact roundtrip_equiv_props E hE hS rest h.2 e he
theorem roundtrip_equiv_elems (E : Engine) (hE : ∀ i x, E.setElementOk i x = true)
    (hS : ∀ s, E.transcodeOk s = true ∧ E.newStringOk s = true) :
    ∀ es : List (Option JsVal), plainElems false es = true →
      jsEquivElems es (es.map (Option.map (fun v => ccvalue_to_jsval E (convValue v)))) = true
  | [], _ => rfl
  | none :: _, h => by simp [plainElems] at h
  | some v :: rest, h => by
    simp only [plainElems, Bool.and_eq_true] at h
    simp only [List.map_cons, Option.map_some', jsEquivElems, Bool.and_eq_true]
    exact ⟨roundtrip_equiv E hE hS v h.1, roundtrip_equiv_elems E hE hS rest h.2⟩
end

/-- A key that is not ASCII comes back under another name: the key `é` is handed
to the engine as the C string of its two UTF-8 bytes, which the engine reads
as the two characters `Ã©`. -/
theorem roundtrip_renames_key :
    jsval_to_ccvalue (.object false [(.str "é", .boolean true)] false) .none =
      .ret true (.map [("é", .boolean true)]) ∧
    ccvalue_to_jsval okEngine (.map [("é", .boolean true)]) =
      .array false [] [(.str "Ã©", .boolean true)] false ∧
    jsEquiv (.object false [(.str "é", .boolean true)] false)
      (.array false [] [(.str "Ã©", .boolean true)] false) = false := by
  have n1 : propertyName "é" = "Ã©" := by decide
  have s1 : specialName "Ã©" = false := by decide
  have k1 : ("é" : String) ≠ "" := by decide
  refine ⟨rfl, ?_, by decide⟩
  simp [ccvalue_to_jsval, ccvaluemap_to_jsval, ccvaluemap_to_jsval_loop, n1, k1,
    JS_SetProperty_array_plain, s1, JS_SetProperty]

theorem lookup_mem {α β : Type} [BEq α] [LawfulBEq α] (l : List (α × β)) (k : α) (v : β)
    (h : l.lookup k = some v) : (k, v) ∈ l := by
  induction l with
  | nil => simp at h
  | cons e rest ih =>
    obtain ⟨a, b⟩ := e
    by_cases hk : k = a
    · subst hk
      simp only [List.lookup, beq_self_eq_true, Option.some.injEq] at h
      subst h
      exact List.mem_cons_self _ _
    · have hb : (k == a) = false := by simpa using hk
      simp only [List.lookup, hb] at h
      exact List.mem_cons_of_mem _ (ih h)

/-- The empty table is consistent and mentions no object. -/
theorem ProxyTable.empty_consistent :
    ProxyTable.empty.consistent ∧ ProxyTable.empty.created := by
  refine ⟨?_, ?_, ?_⟩
  · intro handle jsobj h
    simp [ProxyTable.empty, jsb_get_jsobject_for_proxy] at h
  · intro e he
    simp [ProxyTable.empty] at he
  · intro e he
    simp [ProxyTable.empty] at he

/-- Wrapping keeps the table consistent. -/
theorem c_class_to_jsval_consistent (b : Bool) (t t1 : ProxyTable) (p : Nat) (v : JsRef)
    (hc : t.consistent) (hf : t.created) (h : c_class_to_jsval b t p = some (v, t1)) :
    t1.consistent ∧ t1.created := by
  unfold c_class_to_jsval at h
  cases hl : jsb_get_jsobject_for_proxy t p with
  | some o =>
    simp only [hl, Option.some.injEq, Prod.mk.injEq] at h
    rw [← h.2]
    exact ⟨hc, hf⟩
  | none =>
    cases b with
    | false => simp [hl, JS_NewObject] at h
    | true =>
      simp only [hl, JS_NewObject, if_true, Option.some.injEq, Prod.mk.injEq,
        jsb_set_jsobject_for_proxy, jsb_set_c_proxy_for_jsobject] at h
      obtain ⟨_, rfl⟩ := h
      refine ⟨?_, ?_, ?_⟩
      · intro handle jsobj hj
        simp only [jsb_get_jsobject_for_proxy, jsb_get_c_proxy_for_jsobject, List.lookup] at hj ⊢
        by_cases hh : handle = p
        · subst hh
          simp only [beq_self_eq_true, Option.some.injEq] at hj
          subst hj
          exact ⟨⟨handle, .JSB_C_FLAG_DO_NOT_CALL_FREE, t.objects⟩, by simp, rfl⟩
        · have hb : (handle == p) = false := by simpa using hh
          simp only [hb] at hj
          have hmem := lookup_mem _ _ _ hj
          have hlt := hf.1 _ hmem
          have hne : (jsobj == t.objects) = false := by
            simp only [beq_eq_false_iff_ne, ne_eq]
            exact Nat.ne_of_lt hlt
          obtain ⟨proxy, hp1, hp2⟩ := hc handle jsobj hj
          refine ⟨proxy, ?_, hp2⟩
          simpa [hne, jsb_get_c_proxy_for_jsobject] using hp1
      · intro e he
        simp only [List.mem_cons] at he
        rcases he with he | he
        · subst he; simp
        · exact Nat.lt_succ_of_lt (hf.1 e he)
      · intro e he
        simp only [List.mem_cons] at he
        rcases he with he | he
        · subst he; simp
        · exact Nat.lt_succ_of_lt (hf.2 e he)

/-- C11. Idempotent wrapping: whatever the table and the handle `p`, a call of
`c_class_to_jsval` whose object creation succeeds returns an object and a
table on which a second call with `p` returns the same object and leaves the
table as it is (no object is created, nothing is registered), whether or not
the engine could create an object then; and a handle that is present in the
table is answered with its object, the table unchanged. -/
theorem c_class_to_jsval_idempotent (t : ProxyTable) (p : Nat) (b : Bool) :
    (∃ o t1, c_class_to_jsval true t p = some (.object o, t1) ∧
      c_class_to_jsval b t1 p = some (.object o, t1)) ∧
    (∀ o, jsb_get_jsobject_for_proxy t p = some o →
      c_class_to_jsval b t p = some (.object o, t)) := by
  have hpresent : ∀ (b2 : Bool) (t2 : ProxyTable) (o : Nat),
      jsb_get_jsobject_for_proxy t2 p = some o →
      c_class_to_jsval b2 t2 p = some (.object o, t2) := by
    intro b2 t2 o h
    simp [c_class_to_jsval, h, OBJECT_TO_JSVAL]
  refine ⟨?_, hpresent b t⟩
  cases hl : jsb_get_jsobject_for_proxy t p with
  | some o => exact ⟨o, t, hpresent true t o hl, hpresent b t o hl⟩
  | none =>
    refine ⟨t.objects, ⟨(p, t.objects) :: t.jsobject_for_proxy,
      (t.objects, ⟨p, .JSB_C_FLAG_DO_NOT_CALL_FREE, t.objects⟩) :: t.c_proxy_for_jsobject,
      t.objects + 1⟩, ?_, ?_⟩
    · simp [c_class_to_jsval, hl, JS_NewObject, OBJECT_TO_JSVAL, jsb_set_jsobject_for_proxy,
        jsb_set_c_proxy_for_jsobject]
    · apply hpresent
      simp [jsb_get_jsobject_for_proxy, List.lookup]

/-- The handle 5 on the empty table, and on the table the first call leaves. -/
theorem c_class_to_jsval_idempotent_witness :
    (∃ o t1, c_class_to_jsval true ProxyTable.empty 5 = some (.object o, t1) ∧
      c_class_to_jsval false t1 5 = some (.object o, t1)) ∧
    jsb_get_jsobject_for_proxy ⟨[(5, 0)], [(0, ⟨5, .JSB_C_FLAG_DO_NOT_CALL_FREE, 0⟩)], 1⟩ 5 =
      some 0 ∧
    c_class_to_jsval false ⟨[(5, 0)], [(0, ⟨5, .JSB_C_FLAG_DO_NOT_CALL_FREE, 0⟩)], 1⟩ 5 =
      some (.object 0, ⟨[(5, 0)], [(0, ⟨5, .JSB_C_FLAG_DO_NOT_CALL_FREE, 0⟩)], 1⟩) :=
  ⟨(c_class_to_jsval_idempotent ProxyTable.empty 5 false).1, by decide,
    (c_class_to_jsval_idempotent ⟨[(5, 0)], [(0, ⟨5, .JSB_C_FLAG_DO_NOT_CALL_FREE, 0⟩)], 1⟩ 5
      false).2 0 (by decide)⟩

/-- C12. Wrap then unwrap: on a table whose two directions agree (as on every
table that `c_class_to_jsval` has built), for every handle `p` a call of
`c_class_to_jsval` whose object creation succeeds returns an object on which
`jsval_to_c_class` returns true with `out_native = p` and, when the caller
asks for it, a proxy record whose handle is `p`. -/
theorem wrap_unwrap_roundtrip (toObject : JsRef → Option (Option Nat)) (t : ProxyTable)
    (p : Nat) (n0 : Nat) (hc : t.consistent) :
    ∃ o t1 proxy, c_class_to_jsval true t p = some (.object o, t1) ∧
      (∀ out, jsval_to_c_class toObject t1 (.object o) n0 (some out) =
        .ret true p (some (some proxy))) ∧
      jsval_to_c_class toObject t1 (.object o) n0 none = .ret true p none ∧
      proxy.handle = p := by
  cases hl : jsb_get_jsobject_for_proxy t p with
  | some o =>
    obtain ⟨proxy, hp1, hp2⟩ := hc p o hl
    refine ⟨o, t, proxy, ?_, ?_, ?_, hp2⟩
    · simp [c_class_to_jsval, hl, OBJECT_TO_JSVAL]
    · intro out
      simp [jsval_to_c_class, JS_ValueToObject, hp1, hp2]
    · simp [jsval_to_c_class, JS_ValueToObject, hp1, hp2]
  | none =>
    refine ⟨t.objects, ⟨(p, t.objects) :: t.jsobject_for_proxy,
      (t.objects, ⟨p, .JSB_C_FLAG_DO_NOT_CALL_FREE, t.objects⟩) :: t.c_proxy_for_jsobject,
      t.objects + 1⟩, ⟨p, .JSB_C_FLAG_DO_NOT_CALL_FREE, t.objects⟩, ?_, ?_, ?_, rfl⟩
    · simp [c_class_to_jsval, hl, JS_NewObject, OBJECT_TO_JSVAL, jsb_set_jsobject_for_proxy,
        jsb_set_c_proxy_for_jsobject]
    · intro out
      simp [jsval_to_c_class, JS_ValueToObject, jsb_get_c_proxy_for_jsobject, List.lookup]
    · simp [jsval_to_c_class, JS_ValueToObject, jsb_get_c_proxy_for_jsobject, List.lookup]

/-- The handle 5 on the empty table. -/
theorem wrap_unwrap_roundtrip_witness :
    ProxyTable.empty.consistent ∧
    ∃ o t1 proxy, c_class_to_jsval true ProxyTable.empty 5 = some (.object o, t1) ∧
      (∀ out, jsval_to_c_class (fun _ => none) t1 (.object o) 0 (some out) =
        .ret true 5 (some (some proxy))) ∧
      jsval_to_c_class (fun _ => none) t1 (.object o) 0 none = .ret true 5 none ∧
      proxy.handle = 5 :=
  ⟨ProxyTable.empty_consistent.1,
    wrap_unwrap_roundtrip (fun _ => none) ProxyTable.empty 5 0 ProxyTable.empty_consistent.1⟩

/-- C13. An object without a registered proxy is not refused: `jsval_to_c_class`
reads `proxy->handle` through the null pointer. The same happens for `null`
(for which `JS_ValueToObject` succeeds with the null object) and for a number
that the engine wraps in an object; the function returns false only where
`JS_ValueToObject` does. -/
theorem jsval_to_c_class_missing_proxy :
    (∀ (toObject : JsRef → Option (Option Nat)) (n0 : Nat)
        (out : Option (Option jsb_c_proxy_s)),
      jsval_to_c_class toObject ProxyTable.empty (.object 0) n0 out = .nullDereference) ∧
    jsval_to_c_class (fun _ => some none) ProxyTable.empty .null 0 none = .nullDereference ∧
    jsval_to_c_class (fun _ => some (some 1)) ⟨[], [], 2⟩ (.number (.ofInt 5)) 0 none =
      .nullDereference ∧
    jsval_to_c_class (fun _ => none) ProxyTable.empty (.number (.ofInt 5)) 0 none =
      .ret false 0 none :=
  ⟨fun _ _ _ => rfl, rfl, rfl, rfl⟩

/-! ## The callback holder -/

theorem not_mem_js_remove_object_reference (g : RefGraph) (owner target : JsRef) :
    (owner, target) ∉ js_remove_object_reference g owner target := by
  simp [js_remove_object_reference, List.mem_filter]

theorem not_mem_js_remove_object_reference_of_not_mem (g : RefGraph) (owner target : JsRef)
    (e : JsRef × JsRef) (h : e ∉ g) : e ∉ js_remove_object_reference g owner target := by
  intro he
  exact h (List.mem_of_mem_filter he)

theorem setOwner_attaches_aux (proxies : List (Nat × Nat)) (self : JSFunctionWrapper)
    (owner : JsRef) (g : RefGraph) (ho : owner.isNullOrUndefined = false)
    (hc : self._cppOwner = 0) :
    JSFunctionWrapper.setOwner proxies self owner g =
      ({ _jsthis := self._jsthis, _fval := self._fval, _owner := owner,
         _cppOwner := (jsb_get_js_proxy proxies owner.toObjectOrNull).getD 0 },
       self.targets.foldl (fun acc t => js_add_object_reference acc owner t) g) := by
  obtain ⟨jsthis, fval, owner0, cpp⟩ := self
  simp only at hc
  subst hc
  simp only [JSFunctionWrapper.setOwner, ho, Bool.not_false, if_true,
    JSFunctionWrapper.targets]
  cases h1 : jsb_get_js_proxy proxies owner.toObjectOrNull <;>
    cases h2 : (OBJECT_TO_JSVAL jsthis).isNullOrUndefined <;>
    cases h3 : fval.isNullOrUndefined <;> simp

/-- C14. Attach: on a holder whose cache is null (as the constructors leave it), for
every owner that is neither null nor undefined, `setOwner` records the owner,
caches the native pointer of the owner's proxy when the owner has one and
leaves the cache null otherwise, and adds the edge from the owner to the
receiver (when the receiver is not null) and then the edge from the owner to
the function value (when it is neither null nor undefined); for a null or
undefined owner the holder and the graph stay as they are. -/
theorem setOwner_attaches (proxies : List (Nat × Nat)) (self : JSFunctionWrapper)
    (owner : JsRef) (g : RefGraph) :
    (owner.isNullOrUndefined = false → self._cppOwner = 0 →
      JSFunctionWrapper.setOwner proxies self owner g =
        ({ _jsthis := self._jsthis, _fval := self._fval, _owner := owner,
           _cppOwner := (jsb_get_js_proxy proxies owner.toObjectOrNull).getD 0 },
         self.targets.foldl (fun acc t => js_add_object_reference acc owner t) g)) ∧
    (owner.isNullOrUndefined = true →
      JSFunctionWrapper.setOwner proxies self owner g = (self, g)) :=
  ⟨fun ho hc => setOwner_attaches_aux proxies self owner g ho hc,
    fun ho => by simp [JSFunctionWrapper.setOwner, ho]⟩

/-- A holder from the constructor without owner, attached to the object 1 whose
proxy holds the native pointer 77; and the null owner. -/
theorem setOwner_attaches_witness :
    JsRef.isNullOrUndefined (.object 1) = false ∧
    (JSFunctionWrapper.create (some 2) (.object 3))._cppOwner = 0 ∧
    JSFunctionWrapper.setOwner [(1, 77)] (JSFunctionWrapper.create (some 2) (.object 3))
        (.object 1) [] =
      ({ _jsthis := some 2, _fval := .object 3, _owner := .object 1, _cppOwner := 77 },
        [(.object 1, .object 2), (.object 1, .object 3)]) ∧
    JsRef.isNullOrUndefined .null = true ∧
    JSFunctionWrapper.setOwner [(1, 77)] (JSFunctionWrapper.create (some 2) (.object 3))
        .null [] = (JSFunctionWrapper.create (some 2) (.object 3), []) :=
  ⟨rfl, rfl,
    ((setOwner_attaches [(1, 77)] (JSFunctionWrapper.create (some 2) (.object 3))
      (.object 1) []).1 rfl rfl).trans (by decide),
    rfl,
    (setOwner_attaches [(1, 77)] (JSFunctionWrapper.create (some 2) (.object 3))
      .null []).2 rfl⟩

theorem destroy_revalidates_aux (proxies : List (Nat × Nat)) (self : JSFunctionWrapper)
    (g : RefGraph) (ho : self._owner.isNullOrUndefined = false)
    (hp : self._cppOwner = 0 ∨
      jsb_get_js_proxy proxies self._owner.toObjectOrNull = some self._cppOwner) :
    JSFunctionWrapper.destroy false proxies self g =
      self.targets.foldl (fun acc t => js_remove_object_reference acc self._owner t) g := by
  obtain ⟨jsthis, fval, owner, cpp⟩ := self
  simp only at ho hp
  have hrel : (if cpp ≠ 0 then
      match jsb_get_js_proxy proxies owner.toObjectOrNull with
      | none => true
      | some ptr => decide (cpp ≠ ptr)
    else false) = false := by
    rcases hp with hp | hp
    · simp [hp]
    · simp [hp]
  simp only [JSFunctionWrapper.destroy, ho, Bool.or_self, Bool.false_eq_true, if_false, hrel,
    JSFunctionWrapper.targets]
  cases h2 : (OBJECT_TO_JSVAL jsthis).isNullOrUndefined <;>
    cases h3 : fval.isNullOrUndefined <;> simp

/-- C15. Release re-validation: when the engine is not finalizing and the owner is
neither null nor undefined, the destructor of a holder with a cached native
address leaves the graph as it is if the owner has no proxy now or its proxy
holds another native pointer; if the proxy holds the cached address, or no
address is cached, it removes the edges from the owner to the receiver and to
the function value (each when not null, as at attach). -/
theorem destroy_revalidates (proxies : List (Nat × Nat)) (self : JSFunctionWrapper)
    (g : RefGraph) (ho : self._owner.isNullOrUndefined = false) :
    (self._cppOwner ≠ 0 →
      (jsb_get_js_proxy proxies self._owner.toObjectOrNull = none ∨
        ∃ ptr, jsb_get_js_proxy proxies self._owner.toObjectOrNull = some ptr ∧
          ptr ≠ self._cppOwner) →
      JSFunctionWrapper.destroy false proxies self g = g) ∧
    ((self._cppOwner = 0 ∨
        jsb_get_js_proxy proxies self._owner.toObjectOrNull = some self._cppOwner) →
      JSFunctionWrapper.destroy false proxies self g =
        self.targets.foldl (fun acc t => js_remove_object_reference acc self._owner t) g) := by
  refine ⟨?_, fun hp => destroy_revalidates_aux proxies self g ho hp⟩
  obtain ⟨jsthis, fval, owner, cpp⟩ := self
  simp only at ho
  intro hc hp
  simp only at hc hp
  rcases hp with hp | ⟨ptr, hp, hne⟩
  · simp [JSFunctionWrapper.destroy, ho, hc, hp]
  · have : ¬ cpp = ptr := fun h => hne h.symm
    simp [JSFunctionWrapper.destroy, ho, hc, hp, this]

/-- A holder with the cached address 77: the owner has lost its proxy, the proxy
holds another pointer, the proxy still holds 77. -/
theorem destroy_revalidates_witness :
    JSFunctionWrapper.destroy false [] ⟨some 2, .object 3, .object 1, 77⟩
        [(.object 1, .object 2), (.object 1, .object 3)] =
      [(.object 1, .object 2), (.object 1, .object 3)] ∧
    JSFunctionWrapper.destroy false [(1, 78)] ⟨some 2, .object 3, .object 1, 77⟩
        [(.object 1, .object 2), (.object 1, .object 3)] =
      [(.object 1, .object 2), (.object 1, .object 3)] ∧
    JSFunctionWrapper.destroy false [(1, 77)] ⟨some 2, .object 3, .object 1, 77⟩
        [(.object 1, .object 2), (.object 1, .object 3)] = [] :=
  ⟨(destroy_revalidates [] ⟨some 2, .object 3, .object 1, 77⟩ _ rfl).1 (by decide)
      (Or.inl rfl),
    (destroy_revalidates [(1, 78)] ⟨some 2, .object 3, .object 1, 77⟩ _ rfl).1 (by decide)
      (Or.inr ⟨78, rfl, by decide⟩),
    ((destroy_revalidates [(1, 77)] ⟨some 2, .object 3, .object 1, 77⟩ _ rfl).2
      (Or.inr rfl)).trans (by decide)⟩

/-- C16. Release is a no-op when the holder was never attached (its owner is null
or undefined) or the engine is finalizing: the destructor leaves the graph as
it is (and it only reads the table of proxies). -/
theorem destroy_noop (finalizing : Bool) (proxies : List (Nat × Nat))
    (self : JSFunctionWrapper) (g : RefGraph)
    (h : finalizing = true ∨ self._owner.isNullOrUndefined = true) :
    JSFunctionWrapper.destroy finalizing proxies self g = g := by
  rcases h with h | h <;> simp [JSFunctionWrapper.destroy, h]

/-- A holder from the constructor without owner, and an attached holder while the
engine is finalizing. -/
theorem destroy_noop_witness :
    JSFunctionWrapper.destroy false [(1, 77)] (JSFunctionWrapper.create (some 2) (.object 3))
        [(.null, .object 2)] = [(.null, .object 2)] ∧
    JSFunctionWrapper.destroy true [(1, 77)] ⟨some 2, .object 3, .object 1, 77⟩
        [(.object 1, .object 2), (.object 1, .object 3)] =
      [(.object 1, .object 2), (.object 1, .object 3)] :=
  ⟨destroy_noop false _ (JSFunctionWrapper.create (some 2) (.object 3)) _ (Or.inr rfl),
    destroy_noop true _ _ _ (Or.inl rfl)⟩

/-- C17. Symmetric attach and release: let a holder whose cache is null be attached
by `setOwner` to an owner that is neither null nor undefined, and let the
owner's proxy at release be the one found at attach, the engine not
finalizing. Then the destructor removes exactly the edges that `setOwner`
added (the same owner, the same targets, in the same order), and after it none
of these edges is in the graph. -/
theorem attach_release_symmetric (proxies1 proxies2 : List (Nat × Nat))
    (self : JSFunctionWrapper) (owner : JsRef) (g1 g2 : RefGraph)
    (ho : owner.isNullOrUndefined = false) (hc : self._cppOwner = 0)
    (hp : jsb_get_js_proxy proxies2 owner.toObjectOrNull =
      jsb_get_js_proxy proxies1 owner.toObjectOrNull) :
    (JSFunctionWrapper.setOwner proxies1 self owner g1).2 =
      self.targets.foldl (fun acc t => js_add_object_reference acc owner t) g1 ∧
    JSFunctionWrapper.destroy false proxies2
        (JSFunctionWrapper.setOwner proxies1 self owner g1).1 g2 =
      self.targets.foldl (fun acc t => js_remove_object_reference acc owner t) g2 ∧
    ∀ t ∈ self.targets, (owner, t) ∉ JSFunctionWrapper.destroy false proxies2
        (JSFunctionWrapper.setOwner proxies1 self owner g1).1 g2 := by
  have hset := (setOwner_attaches_aux proxies1 self owner g1 ho hc)
  have hdes : JSFunctionWrapper.destroy false proxies2
      (JSFunctionWrapper.setOwner proxies1 self owner g1).1 g2 =
      self.targets.foldl (fun acc t => js_remove_object_reference acc owner t) g2 := by
    rw [hset]
    have := (destroy_revalidates_aux proxies2
      { _jsthis := self._jsthis, _fval := self._fval, _owner := owner,
        _cppOwner := (jsb_get_js_proxy proxies1 owner.toObjectOrNull).getD 0 } g2 ho)
      (by
        simp only
        rw [hp]
        cases jsb_get_js_proxy proxies1 owner.toObjectOrNull with
        | none => left; rfl
        | some ptr => right; rfl)
    simpa [JSFunctionWrapper.targets] using this
  refine ⟨by rw [hset], hdes, ?_⟩
  rw [hdes]
  obtain ⟨jsthis, fval, owner0, cpp⟩ := self
  simp only [JSFunctionWrapper.targets]
  intro t ht
  cases h2 : (OBJECT_TO_JSVAL jsthis).isNullOrUndefined <;>
    cases h3 : fval.isNullOrUndefined <;>
    simp only [h2, h3, Bool.false_eq_true, if_false, if_true, List.nil_append, List.append_nil,
      List.mem_cons, List.mem_singleton, List.not_mem_nil, or_false, List.singleton_append,
      List.foldl_cons, List.foldl_nil] at ht ⊢
  · rcases ht with rfl | rfl
    · exact not_mem_js_remove_object_reference_of_not_mem _ _ _ _
        (not_mem_js_remove_object_reference _ _ _)
    · exact not_mem_js_remove_object_reference _ _ _
  · subst ht
    exact not_mem_js_remove_object_reference _ _ _
  · subst ht
    exact not_mem_js_remove_object_reference _ _ _

/-- A holder built without owner, attached to the object 1 (proxy 77) and released
while the proxy is the same: both edges are added, both are removed. -/
theorem attach_release_symmetric_witness :
    JsRef.isNullOrUndefined (.object 1) = false ∧
    (JSFunctionWrapper.create (some 2) (.object 3))._cppOwner = 0 ∧
    (JSFunctionWrapper.setOwner [(1, 77)] (JSFunctionWrapper.create (some 2) (.object 3))
        (.object 1) []).2 = [(.object 1, .object 2), (.object 1, .object 3)] ∧
    JSFunctionWrapper.destroy false [(1, 77), (4, 5)]
        (JSFunctionWrapper.setOwner [(1, 77)] (JSFunctionWrapper.create (some 2) (.object 3))
          (.object 1) []).1
        [(.object 1, .object 2), (.object 9, .object 9), (.object 1, .object 3)] =
      [(.object 9, .object 9)] ∧
    ∀ t ∈ (JSFunctionWrapper.create (some 2) (.object 3)).targets,
      (JsRef.object 1, t) ∉ JSFunctionWrapper.destroy false [(1, 77), (4, 5)]
        (JSFunctionWrapper.setOwner [(1, 77)] (JSFunctionWrapper.create (some 2) (.object 3))
          (.object 1) []).1
        [(.object 1, .object 2), (.object 9, .object 9), (.object 1, .object 3)] :=
  ⟨rfl, rfl,
    ((attach_release_symmetric [(1, 77)] [(1, 77), (4, 5)]
      (JSFunctionWrapper.create (some 2) (.object 3)) (.object 1) []
      [(.object 1, .object 2), (.object 9, .object 9), (.object 1, .object 3)]
      rfl rfl rfl).1).trans (by decide),
    ((attach_release_symmetric [(1, 77)] [(1, 77), (4, 5)]
      (JSFunctionWrapper.create (some 2) (.object 3)) (.object 1) []
      [(.object 1, .object 2), (.object 9, .object 9), (.object 1, .object 3)]
      rfl rfl rfl).2.1).trans (by decide),
    (attach_release_symmetric [(1, 77)] [(1, 77), (4, 5)]
      (JSFunctionWrapper.create (some 2) (.object 3)) (.object 1) []
      [(.object 1, .object 2), (.object 9, .object 9), (.object 1, .object 3)]
      rfl rfl rfl).2.2⟩

/-! ## Scalar and record conversions -/

/-- C18, the failing instance. For the string of the three characters `a`,
U+0000, `b` the engine's string conversion is the string itself, and
`jsval_to_std_string` returns true with the text `a`. -/
theorem jsval_to_std_string_cuts_text :
    JS_ToString exactCapabilities (.string "a\x00b") = some "a\x00b" ∧
    jsval_to_std_string exactCapabilities (.string "a\x00b") "old" = .ret true "a" ∧
    ("a\x00b" : String) ≠ "a" :=
  ⟨by rfl, by rfl, by decide⟩

/-- C18, amended. `jsval_to_std_string` returns true with the empty string for
`null` and for `undefined`, and, where the engine's `ToString` delivers a
string, true with that string up to its first U+0000 for a string (the string
itself when it holds no U+0000), a number (its text: 42 gives "42") and a
boolean ("true" or "false"). -/
theorem jsval_to_std_string_c_string (C : Capabilities) (ret : String) :
    jsval_to_std_string C .null ret = .ret true "" ∧
    jsval_to_std_string C .undefined ret = .ret true "" ∧
    (∀ s, C.toStringOk (.string s) = true →
      jsval_to_std_string C (.string s) ret = .ret true (c_str s)) ∧
    (∀ s, C.toStringOk (.string s) = true → noNul s = true →
      jsval_to_std_string C (.string s) ret = .ret true s) ∧
    (∀ n, C.toStringOk (.number n) = true →
      jsval_to_std_string C (.number n) ret = .ret true (c_str (numberToString C n))) ∧
    (∀ b, C.toStringOk (.boolean b) = true →
      jsval_to_std_string C (.boolean b) ret = .ret true (if b then "true" else "false")) ∧
    (C.toStringOk (.number (.ofInt 42)) = true →
      jsval_to_std_string C (.number (.ofInt 42)) ret = .ret true "42") := by
  refine ⟨rfl, rfl, ?_, ?_, ?_, ?_, ?_⟩
  · intro s h
    simp [jsval_to_std_string, JS_ToString, h]
  · intro s h hs
    simp [jsval_to_std_string, JS_ToString, h, c_str_of_noNul s hs]
  · intro n h
    simp [jsval_to_std_string, JS_ToString, h]
  · intro b h
    cases b
    · simp only [jsval_to_std_string, JS_ToString, h, if_true]; rfl
    · simp only [jsval_to_std_string, JS_ToString, h, if_true]; rfl
  · intro h
    simp only [jsval_to_std_string, JS_ToString, h, if_true]; rfl

/-- The values `"abc"`, 42 and `true`. -/
theorem jsval_to_std_string_c_string_witness :
    exactCapabilities.toStringOk (.string "abc") = true ∧ noNul "abc" = true ∧
    jsval_to_std_string exactCapabilities (.string "abc") "old" = .ret true "abc" ∧
    jsval_to_std_string exactCapabilities (.number (.ofInt 42)) "old" = .ret true "42" ∧
    jsval_to_std_string exactCapabilities (.boolean true) "old" = .ret true "true" :=
  ⟨rfl, by rfl,
    (jsval_to_std_string_c_string exactCapabilities "old").2.2.2.1 "abc" rfl (by rfl),
    (jsval_to_std_string_c_string exactCapabilities "old").2.2.2.2.2.2 rfl,
    (jsval_to_std_string_c_string exactCapabilities "old").2.2.2.2.2.1 true rfl⟩

/-- C19. For every value that is neither a string, a number, a boolean, `null` nor
`undefined`, that is for every object and every array, `jsval_to_std_string`
returns false and leaves the output string as it is. -/
theorem jsval_to_std_string_rejects (C : Capabilities) (v : JsVal) (ret : String)
    (h : v.isObject = true) : jsval_to_std_string C v ret = .ret false ret := by
  cases v <;> simp_all [JsVal.isObject, jsval_to_std_string]

/-- The object `{"a": 1}` and the array `["x"]`. -/
theorem jsval_to_std_string_rejects_witness :
    JsVal.isObject (.object false [(.str "a", .number (.ofInt 1))] false) = true ∧
    jsval_to_std_string exactCapabilities
      (.object false [(.str "a", .number (.ofInt 1))] false) "old" = .ret false "old" ∧
    jsval_to_std_string exactCapabilities
      (.array false [some (.string "x")] [] false) "old" = .ret false "old" :=
  ⟨rfl, jsval_to_std_string_rejects exactCapabilities _ "old" rfl,
    jsval_to_std_string_rejects exactCapabilities _ "old" rfl⟩

/-- C20. The round trip loses `w`: `vector4_to_jsval` defines the property `w` from
`v.z`, so the vector `(1, 2, 3, 4)` becomes the object `{x:1, y:2, z:3, w:3}`,
on which `jsval_to_vector4` returns true with `(1, 2, 3, 3)`; two vectors that
differ in `w` only give the same object. -/
theorem vector4_roundtrip_loses_w :
    vector4_to_jsval exactCapabilities ⟨.ofInt 1, .ofInt 2, .ofInt 3, .ofInt 4⟩ =
      .object false [(.str "x", .number (.ofInt 1)), (.str "y", .number (.ofInt 2)),
        (.str "z", .number (.ofInt 3)), (.str "w", .number (.ofInt 3))] false ∧
    jsval_to_vector4 exactCapabilities
        (vector4_to_jsval exactCapabilities ⟨.ofInt 1, .ofInt 2, .ofInt 3, .ofInt 4⟩)
        ⟨.ofInt 0, .ofInt 0, .ofInt 0, .ofInt 0⟩ =
      .ret true ⟨.ofInt 1, .ofInt 2, .ofInt 3, .ofInt 3⟩ ∧
    (⟨.ofInt 1, .ofInt 2, .ofInt 3, .ofInt 3⟩ : Vec4) ≠ ⟨.ofInt 1, .ofInt 2, .ofInt 3, .ofInt 4⟩ ∧
    ∀ (C : Capabilities) (x y z w1 w2 : JsNumber),
      vector4_to_jsval C ⟨x, y, z, w1⟩ = vector4_to_jsval C ⟨x, y, z, w2⟩ :=
  ⟨rfl, rfl, by decide, fun _ _ _ _ _ _ => rfl⟩

/-! ## Geometry and colour records -/

theorem castGLubyte_ofNat (P : Casts) (n : Nat) (h : n < 256) :
    castGLubyte P (.ofInt n) = n := by
  have h1 : ((n : ℤ) : ℚ) = ((n : ℕ) : ℚ) := by push_cast; rfl
  simp only [castGLubyte, JsNumber.trunc, JsNumber.ofInt]
  simp [h1]
  omega

theorem JS_GetProperty_rgba (proxy enumFails : Bool) (vr vg vb va : JsVal) :
    JS_GetProperty (.object proxy
        [(.str "r", vr), (.str "g", vg), (.str "b", vb), (.str "a", va)] enumFails) "r" = vr ∧
    JS_GetProperty (.object proxy
        [(.str "r", vr), (.str "g", vg), (.str "b", vb), (.str "a", va)] enumFails) "g" = vg ∧
    JS_GetProperty (.object proxy
        [(.str "r", vr), (.str "g", vg), (.str "b", vb), (.str "a", va)] enumFails) "b" = vb ∧
    JS_GetProperty (.object proxy
        [(.str "r", vr), (.str "g", vg), (.str "b", vb), (.str "a", va)] enumFails) "a" = va :=
  ⟨rfl, rfl, rfl, rfl⟩

theorem cccolor4b_to_jsval_ok (C : Capabilities) (c : Color4B)
    (hnew : C.newObjectOk = true) (hdef : ∀ name, C.definePropertyOk name = true) :
    cccolor4b_to_jsval C c =
      .object false [(.str "r", .number (.ofInt c.r)), (.str "g", .number (.ofInt c.g)),
        (.str "b", .number (.ofInt c.b)), (.str "a", .number (.ofInt c.a))] false := by
  simp [cccolor4b_to_jsval, hnew, hdef, JS_DefineProperty, JS_SetProperty]

/-- C22. Colour of bytes, there and back: when the engine creates the object and
defines its properties, `jsval_to_cccolor4b` applied to `cccolor4b_to_jsval c`
returns true with `c`, for every colour whose four components are bytes
(below 256), whatever the output held before. -/
theorem cccolor4b_roundtrip (C : Capabilities) (P : Casts) (c ret : Color4B)
    (hnew : C.newObjectOk = true) (hdef : ∀ name, C.definePropertyOk name = true)
    (hr : c.r < 256) (hg : c.g < 256) (hb : c.b < 256) (ha : c.a < 256) :
    jsval_to_cccolor4b C P (cccolor4b_to_jsval C c) ret = .ret true c := by
  rw [cccolor4b_to_jsval_ok C c hnew hdef]
  simp [jsval_to_cccolor4b, JsVal.isObject, JS_GetProperty_rgba, JS_ToNumber,
    castGLubyte_ofNat, hr, hg, hb, ha]

theorem cccolor4b_roundtrip_witness :
    (exactCapabilities.newObjectOk = true ∧
      (∀ name, exactCapabilities.definePropertyOk name = true) ∧
      (255 < 256 ∧ 0 < 256 ∧ 128 < 256 ∧ 7 < 256)) ∧
    jsval_to_cccolor4b exactCapabilities ⟨fun _ => 0, fun _ => 0⟩
      (cccolor4b_to_jsval exactCapabilities ⟨255, 0, 128, 7⟩) ⟨0, 0, 0, 0⟩ =
        .ret true ⟨255, 0, 128, 7⟩ :=
  ⟨⟨rfl, fun _ => rfl, by decide⟩,
    cccolor4b_roundtrip exactCapabilities ⟨fun _ => 0, fun _ => 0⟩ ⟨255, 0, 128, 7⟩ ⟨0, 0, 0, 0⟩
      rfl (fun _ => rfl) (by decide) (by decide) (by decide) (by decide)⟩

/-- C23. The point converters. When the engine creates the object and defines its
properties, `ccpoint_to_jsval p` is an object whose properties are exactly `x`
and `y`, holding `p.x` and `p.y`; `jsval_to_ccpoint` on an object whose
properties `x` and `y` hold the numbers `a` and `b` returns true with the point
of `a` and `b` (narrowed to float, as the fields of a point are). In
particular, where 1 and 2 are floats, `{x:1, y:2}` gives `(1, 2)` and `(1, 2)`
gives the object with exactly `x:1, y:2`. -/
theorem point_converters (C : Capabilities)
    (hnew : C.newObjectOk = true) (hdef : ∀ name, C.definePropertyOk name = true)
    (h1 : C.toFloat (.ofInt 1) = .ofInt 1) (h2 : C.toFloat (.ofInt 2) = .ofInt 2) :
    (∀ p : Point, ccpoint_to_jsval C p =
      .object false [(.str "x", .number p.x), (.str "y", .number p.y)] false) ∧
    (∀ (v : JsVal) (a b : JsNumber) (ret : Point), v.isObject = true →
      JS_GetProperty v "x" = .number a → JS_GetProperty v "y" = .number b →
      jsval_to_ccpoint C v ret = .ret true ⟨C.toFloat a, C.toFloat b⟩) ∧
    (∀ ret : Point, jsval_to_ccpoint C
      (.object false [(.str "x", .number (.ofInt 1)), (.str "y", .number (.ofInt 2))] false) ret =
        .ret true ⟨.ofInt 1, .ofInt 2⟩) ∧
    ccpoint_to_jsval C ⟨.ofInt 1, .ofInt 2⟩ =
      .object false [(.str "x", .number (.ofInt 1)), (.str "y", .number (.ofInt 2))] false := by
  have hread : ∀ (v : JsVal) (a b : JsNumber) (ret : Point), v.isObject = true →
      JS_GetProperty v "x" = .number a → JS_GetProperty v "y" = .number b →
      jsval_to_ccpoint C v ret = .ret true ⟨C.toFloat a, C.toFloat b⟩ := by
    intro v a b ret hv hx hy
    simp [jsval_to_ccpoint, hv, hx, hy, JS_ToNumber]
  refine ⟨fun p => ?_, hread, fun ret => ?_, ?_⟩
  · simp [ccpoint_to_jsval, hnew, hdef, JS_DefineProperty, JS_SetProperty]
  · rw [hread (.object false [(.str "x", .number (.ofInt 1)), (.str "y", .number (.ofInt 2))]
      false) (.ofInt 1) (.ofInt 2) ret rfl rfl rfl, h1, h2]
  · simp [ccpoint_to_jsval, hnew, hdef, JS_DefineProperty, JS_SetProperty]

theorem point_converters_witness :
    (exactCapabilities.newObjectOk = true ∧
      (∀ name, exactCapabilities.definePropertyOk name = true) ∧
      exactCapabilities.toFloat (.ofInt 1) = .ofInt 1 ∧
      exactCapabilities.toFloat (.ofInt 2) = .ofInt 2) ∧
    jsval_to_ccpoint exactCapabilities
      (.object false [(.str "x", .number (.ofInt 1)), (.str "y", .number (.ofInt 2))] false)
      ⟨.ofInt 0, .ofInt 0⟩ = .ret true ⟨.ofInt 1, .ofInt 2⟩ ∧
    ccpoint_to_jsval exactCapabilities ⟨.ofInt 1, .ofInt 2⟩ =
      .object false [(.str "x", .number (.ofInt 1)), (.str "y", .number (.ofInt 2))] false :=
  ⟨⟨rfl, fun _ => rfl, rfl, rfl⟩,
    (point_converters exactCapabilities rfl (fun _ => rfl) rfl rfl).2.2.1 ⟨.ofInt 0, .ofInt 0⟩,
    (point_converters exactCapabilities rfl (fun _ => rfl) rfl rfl).2.2.2⟩

/-- C24. An array of a length other than 16 is not refused: `jsval_to_matrix`
returns true on the empty array, leaving the matrix as it was, and on every
array of three numbers, of which it writes the first three elements of the
matrix; it returns false only when it meets an element that is not a number. -/
theorem jsval_to_matrix_accepts_short_array :
    (∀ (C : Capabilities) (ret : Mat4),
      jsval_to_matrix C (.array false [] [] false) ret = .ret true ret) ∧
    (∀ (C : Capabilities) (a b c : JsNumber) (ret : Mat4),
      jsval_to_matrix C
        (.array false [some (.number a), some (.number b), some (.number c)] [] false) ret =
      .ret true ⟨((ret.m.set 0 (C.toFloat a)).set 1 (C.toFloat b)).set 2 (C.toFloat c)⟩) ∧
    jsval_to_matrix exactCapabilities
        (.array false [some (.number (.ofInt 1)), some (.number (.ofInt 2)),
          some (.number (.ofInt 3))] [] false) ⟨List.replicate 16 (.ofInt 0)⟩ =
      .ret true ⟨[.ofInt 1, .ofInt 2, .ofInt 3] ++ List.replicate 13 (.ofInt 0)⟩ ∧
    (∀ (C : Capabilities) (ret : Mat4),
      jsval_to_matrix C (.array false [some (.string "a")] [] false) ret = .ret false ret) :=
  ⟨fun _ _ => rfl, fun _ _ _ _ _ => rfl, rfl, fun _ _ => rfl⟩

/-- C25. What is not an array is refused untouched: for every value that is not
an array object (every value that is no object, and every object that is no
array) `jsval_to_matrix` returns false and the matrix is as it was. -/
theorem jsval_to_matrix_rejects_non_array (C : Capabilities) (vp : JsVal) (ret : Mat4)
    (h : vp.isArray = false) : jsval_to_matrix C vp ret = .ret false ret := by
  cases vp <;> simp_all [jsval_to_matrix, JsVal.isArray, JsVal.isObject]

theorem jsval_to_matrix_rejects_non_array_witness :
    (JsVal.object false [(.str "length", .number (.ofInt 16))] false).isArray = false ∧
    jsval_to_matrix exactCapabilities
      (.object false [(.str "length", .number (.ofInt 16))] false)
      ⟨List.replicate 16 (.ofInt 0)⟩ = .ret false ⟨List.replicate 16 (.ofInt 0)⟩ :=
  ⟨rfl, jsval_to_matrix_rejects_non_array exactCapabilities _ _ rfl⟩

/-- C26. A missing or non-numeric property is not refused by the point, size and
rect converters: on the object without properties each of them returns true
and stores not-a-number (narrowed to float) in every field, and so does the
point converter for `{x: "abc", y: 1}`, whose `x` the engine coerces to
not-a-number. The vector converter, which tests `std::isnan`, returns false on
the same object. -/
theorem record_converters_accept_nan :
    (∀ (C : Capabilities) (ret : Point),
      jsval_to_ccpoint C (.object false [] false) ret =
        .ret true ⟨C.toFloat .nan, C.toFloat .nan⟩) ∧
    (∀ (C : Capabilities) (ret : Size),
      jsval_to_ccsize C (.object false [] false) ret =
        .ret true ⟨C.toFloat .nan, C.toFloat .nan⟩) ∧
    (∀ (C : Capabilities) (ret : Rect),
      jsval_to_ccrect C (.object false [] false) ret =
        .ret true ⟨⟨C.toFloat .nan, C.toFloat .nan⟩, ⟨C.toFloat .nan, C.toFloat .nan⟩⟩) ∧
    jsval_to_ccpoint exactCapabilities
        (.object false [(.str "x", .string "abc"), (.str "y", .number (.ofInt 1))] false)
        ⟨.ofInt 0, .ofInt 0⟩ = .ret true ⟨.nan, .ofInt 1⟩ ∧
    (∀ (C : Capabilities) (ret : Vec4),
      jsval_to_vector4 C (.object false [] false) ret = .ret false ret) :=
  ⟨fun _ _ => rfl, fun _ _ => rfl, fun _ _ => rfl, rfl, fun _ _ => rfl⟩

/-- C27. A value that is no object is refused untouched by the record converters:
`jsval_to_ccpoint`, `jsval_to_ccsize`, `jsval_to_ccrect`, `jsval_to_cccolor3b`,
`jsval_to_cccolor4b` and `jsval_to_cccolor4f` return false and leave the output
record as it was. -/
theorem record_converters_reject_non_object (C : Capabilities) (P : Casts) (v : JsVal)
    (h : v.isObject = false) :
    (∀ ret, jsval_to_ccpoint C v ret = .ret false ret) ∧
    (∀ ret, jsval_to_ccsize C v ret = .ret false ret) ∧
    (∀ ret, jsval_to_ccrect C v ret = .ret false ret) ∧
    (∀ ret, jsval_to_cccolor3b C P v ret = .ret false ret) ∧
    (∀ ret, jsval_to_cccolor4b C P v ret = .ret false ret) ∧
    (∀ ret, jsval_to_cccolor4f C v ret = .ret false ret) := by
  simp [jsval_to_ccpoint, jsval_to_ccsize, jsval_to_ccrect, jsval_to_cccolor3b,
    jsval_to_cccolor4b, jsval_to_cccolor4f, h]

theorem record_converters_reject_non_object_witness :
    (JsVal.string "point").isObject = false ∧
    jsval_to_ccpoint exactCapabilities (.string "point") ⟨.ofInt 3, .ofInt 4⟩ =
      .ret false ⟨.ofInt 3, .ofInt 4⟩ ∧
    jsval_to_cccolor4b exactCapabilities ⟨fun _ => 0, fun _ => 0⟩ (.string "point")
      ⟨1, 2, 3, 4⟩ = .ret false ⟨1, 2, 3, 4⟩ :=
  ⟨rfl,
    (record_converters_reject_non_object exactCapabilities ⟨fun _ => 0, fun _ => 0⟩
      (.string "point") rfl).1 _,
    (record_converters_reject_non_object exactCapabilities ⟨fun _ => 0, fun _ => 0⟩
      (.string "point") rfl).2.2.2.2.1 _⟩

/-- C28. A number, a string or a boolean is not refused by
`jsval_to_ccaffinetransform`: the engine wraps it in an object, which has none
of the properties `a`, `b`, `c`, `d`, `tx`, `ty`, each of them reads as
undefined and coerces to not-a-number, and the function returns true with a
transform of six not-a-numbers. It returns false for such a value only when
the engine fails to wrap it. The point converter, which tests `isObject()`,
returns false on the same values. -/
theorem jsval_to_ccaffinetransform_accepts_primitive :
    (∀ (C : Capabilities) (n : JsNumber) (ret : AffineTransform),
      jsval_to_ccaffinetransform C (fun _ => some (.object false [] false)) (.number n) ret =
        .ret true ⟨C.toFloat .nan, C.toFloat .nan, C.toFloat .nan, C.toFloat .nan,
          C.toFloat .nan, C.toFloat .nan⟩) ∧
    (∀ (C : Capabilities) (s : String) (ret : AffineTransform),
      jsval_to_ccaffinetransform C (fun _ => some (.object false [] false)) (.string s) ret =
        .ret true ⟨C.toFloat .nan, C.toFloat .nan, C.toFloat .nan, C.toFloat .nan,
          C.toFloat .nan, C.toFloat .nan⟩) ∧
    (∀ (C : Capabilities) (b : Bool) (ret : AffineTransform),
      jsval_to_ccaffinetransform C (fun _ => some (.object false [] false)) (.boolean b) ret =
        .ret true ⟨C.toFloat .nan, C.toFloat .nan, C.toFloat .nan, C.toFloat .nan,
          C.toFloat .nan, C.toFloat .nan⟩) ∧
    jsval_to_ccaffinetransform exactCapabilities (fun _ => some (.object false [] false))
        (.number (.ofInt 5)) ⟨.ofInt 1, .ofInt 0, .ofInt 0, .ofInt 1, .ofInt 0, .ofInt 0⟩ =
      .ret true ⟨.nan, .nan, .nan, .nan, .nan, .nan⟩ ∧
    (∀ (C : Capabilities) (ret : AffineTransform),
      jsval_to_ccaffinetransform C (fun _ => none) (.number (.ofInt 5)) ret = .ret false ret) ∧
    (∀ (C : Capabilities) (ret : Point),
      jsval_to_ccpoint C (.number (.ofInt 5)) ret = .ret false ret) :=
  ⟨fun _ _ _ => rfl, fun _ _ _ => rfl, fun _ _ _ => rfl, rfl, fun _ _ => rfl, fun _ _ => rfl⟩

/-- C30. Only a string is encoded. After `set(v)` on a string `v` of text `s`,
`get()` returns `s` when the engine encodes it (and the empty string when the
encoding fails); after `set(v)` on a number or a boolean the buffer is null
and `get()` returns the empty string, whatever the wrapper held before. The
same holds for a wrapper constructed from `v`. -/
theorem JSStringWrapper_set_get :
    (∀ (self : JSStringWrapper) (s : String), (self.set true (.string s)).1.get = s) ∧
    (∀ (self : JSStringWrapper) (s : String), (self.set false (.string s)).1.get = "") ∧
    (∀ (encodeOk : Bool) (self : JSStringWrapper) (n : JsNumber),
      (self.set encodeOk (.number n)).1.get = "") ∧
    (∀ (encodeOk : Bool) (self : JSStringWrapper) (b : Bool),
      (self.set encodeOk (.boolean b)).1.get = "") ∧
    (∀ s : String, (JSStringWrapper.ofJsval true (.string s)).get = s) ∧
    (∀ (encodeOk : Bool) (n : JsNumber),
      (JSStringWrapper.ofJsval encodeOk (.number n)).get = "") ∧
    (∀ (encodeOk : Bool) (b : Bool),
      (JSStringWrapper.ofJsval encodeOk (.boolean b)).get = "") := by
  refine ⟨fun _ _ => rfl, fun _ _ => rfl, fun _ self _ => ?_, fun _ self _ => ?_,
    fun _ => rfl, fun _ _ => rfl, fun _ _ => rfl⟩ <;>
  · cases self with
    | mk buf => cases buf <;> rfl

/-- C30, counterexample. For the number 42 the engine's string form is `42`, and a
wrapper set from it, or constructed from it, holds the empty string. -/
theorem JSStringWrapper_number_is_empty :
    JS_ToString exactCapabilities (.number (.ofInt 42)) = some "42" ∧
    ((JSStringWrapper.new.set true (.number (.ofInt 42))).1.get = "" ∧
      (JSStringWrapper.ofJsval true (.number (.ofInt 42))).get = "" ∧
      ((⟨some "old"⟩ : JSStringWrapper).set true (.number (.ofInt 42))).1.get = "") ∧
    ("" : String) ≠ "42" :=
  ⟨by decide, ⟨rfl, rfl, rfl⟩, by decide⟩

theorem cccolor4f_to_jsval_ok (C : Capabilities) (P : Casts) (c : Color4F)
    (hnew : C.newObjectOk = true) (hdef : ∀ name, C.definePropertyOk name = true) :
    cccolor4f_to_jsval C P c =
      .object false [(.str "r", .number (.ofInt (castInt32 P (C.toFloat c.r.mul255)))),
        (.str "g", .number (.ofInt (castInt32 P (C.toFloat c.g.mul255)))),
        (.str "b", .number (.ofInt (castInt32 P (C.toFloat c.b.mul255)))),
        (.str "a", .number (.ofInt (castInt32 P (C.toFloat c.a.mul255))))] false := by
  simp [cccolor4f_to_jsval, hnew, hdef, JS_DefineProperty, JS_SetProperty]

theorem castInt32_of_inUnit (C : Capabilities) (P : Casts) (x : JsNumber)
    (hC : C.roundsWithin255) (hx : x.inUnit = true) :
    ∃ k : Int, (C.toFloat x.mul255).trunc = some k ∧ castInt32 P (C.toFloat x.mul255) = k := by
  cases x with
  | nan => simp [JsNumber.inUnit] at hx
  | infinite n => simp [JsNumber.inUnit] at hx
  | finite q =>
    simp only [JsNumber.inUnit, Bool.and_eq_true, decide_eq_true_eq] at hx
    obtain ⟨q', hq', h0, h255⟩ := hC (q * 255) (by nlinarith [hx.1]) (by nlinarith [hx.2])
    refine ⟨⌊q'⌋, ?_, ?_⟩
    · simp [JsNumber.mul255, hq', JsNumber.trunc, h0]
    · have hf0 : (0 : ℤ) ≤ ⌊q'⌋ := Int.floor_nonneg.mpr h0
      have hf1 : ⌊q'⌋ ≤ 255 := by
        have : ⌊q'⌋ ≤ ⌊(255 : ℚ)⌋ := Int.floor_mono h255
        simpa using this
      simp only [JsNumber.mul255, hq', castInt32, JsNumber.trunc, h0, if_true]
      rw [if_pos]
      constructor <;> omega

/-- C21. Colour of floats, there and back. When the engine creates the object and
defines its properties, `jsval_to_cccolor4f` applied to `cccolor4f_to_jsval c`
returns true for every colour `c` with components in the unit interval, and
each component it yields is what the encoding leaves of the component of
`c`: the integer part of the product with 255, divided by 255. Where the
floats 0, 1 and 255 are exact, that is the component itself when it is 0
or 1. -/
theorem cccolor4f_roundtrip_quantised (C : Capabilities) (P : Casts) (c ret : Color4F)
    (hnew : C.newObjectOk = true) (hdef : ∀ name, C.definePropertyOk name = true)
    (hC : C.roundsWithin255)
    (hr : c.r.inUnit = true) (hg : c.g.inUnit = true) (hb : c.b.inUnit = true)
    (ha : c.a.inUnit = true) :
    (∃ out : Color4F, jsval_to_cccolor4f C (cccolor4f_to_jsval C P c) ret = .ret true out ∧
      C.quantised c.r out.r = true ∧ C.quantised c.g out.g = true ∧
      C.quantised c.b out.b = true ∧ C.quantised c.a out.a = true) ∧
    (C.toFloat (.ofInt 0) = .ofInt 0 → C.toFloat (.ofInt 1) = .ofInt 1 →
      C.toFloat (.ofInt 255) = .ofInt 255 →
      C.quantised (.ofInt 0) (.ofInt 0) = true ∧ C.quantised (.ofInt 1) (.ofInt 1) = true) := by
  constructor
  · obtain ⟨kr, hr1, hr2⟩ := castInt32_of_inUnit C P c.r hC hr
    obtain ⟨kg, hg1, hg2⟩ := castInt32_of_inUnit C P c.g hC hg
    obtain ⟨kb, hb1, hb2⟩ := castInt32_of_inUnit C P c.b hC hb
    obtain ⟨ka, ha1, ha2⟩ := castInt32_of_inUnit C P c.a hC ha
    rw [cccolor4f_to_jsval_ok C P c hnew hdef, hr2, hg2, hb2, ha2]
    refine ⟨⟨C.toFloat (C.toFloat (.ofInt kr)).div255, C.toFloat (C.toFloat (.ofInt kg)).div255,
      C.toFloat (C.toFloat (.ofInt kb)).div255, C.toFloat (C.toFloat (.ofInt ka)).div255⟩,
      ?_, ?_⟩
    · simp only [jsval_to_cccolor4f, JsVal.isObject, JS_GetProperty_rgba, JS_ToNumber, if_true]
    · simp [Capabilities.quantised, hr1, hg1, hb1, ha1]
  · intro h0 h1 h255
    have e0 : (JsNumber.ofInt 0).mul255 = .ofInt 0 := by
      simp [JsNumber.mul255, JsNumber.ofInt]
    have e1 : (JsNumber.ofInt 1).mul255 = .ofInt 255 := by
      simp [JsNumber.mul255, JsNumber.ofInt]
    have d0 : (JsNumber.ofInt 0).div255 = .ofInt 0 := by
      simp [JsNumber.div255, JsNumber.ofInt]
    have d1 : (JsNumber.ofInt 255).div255 = .ofInt 1 := by
      simp [JsNumber.div255, JsNumber.ofInt]
    have t0 : (JsNumber.ofInt 0).trunc = some 0 := by
      simp [JsNumber.trunc, JsNumber.ofInt]
    have t1 : (JsNumber.ofInt 255).trunc = some 255 := by
      simp [JsNumber.trunc, JsNumber.ofInt]
    simp [Capabilities.quantised, e0, e1, h0, h1, h255, t0, t1, d0, d1]

theorem cccolor4f_roundtrip_quantised_witness :
    (exactCapabilities.newObjectOk = true ∧
      (∀ name, exactCapabilities.definePropertyOk name = true) ∧
      exactCapabilities.roundsWithin255 ∧ (JsNumber.ofInt 1).inUnit = true ∧
      (JsNumber.ofInt 0).inUnit = true) ∧
    ∃ out : Color4F,
      jsval_to_cccolor4f exactCapabilities
        (cccolor4f_to_jsval exactCapabilities ⟨fun _ => 0, fun _ => 0⟩
          ⟨.ofInt 1, .ofInt 0, .ofInt 0, .ofInt 1⟩) ⟨.nan, .nan, .nan, .nan⟩ = .ret true out ∧
      exactCapabilities.quantised (.ofInt 1) out.r = true ∧
      exactCapabilities.quantised (.ofInt 0) out.g = true ∧
      exactCapabilities.quantised (.ofInt 0) out.b = true ∧
      exactCapabilities.quantised (.ofInt 1) out.a = true :=
  ⟨⟨rfl, fun _ => rfl, fun q h0 h1 => ⟨q, rfl, h0, h1⟩, rfl, rfl⟩,
    (cccolor4f_roundtrip_quantised exactCapabilities ⟨fun _ => 0, fun _ => 0⟩
      ⟨.ofInt 1, .ofInt 0, .ofInt 0, .ofInt 1⟩ ⟨.nan, .nan, .nan, .nan⟩ rfl (fun _ => rfl)
      (fun q h0 h1 => ⟨q, rfl, h0, h1⟩) rfl rfl rfl rfl).1⟩

/-- C21, counterexample. The colour whose four components are 1/256 lies in the
unit interval; each product with 255 is 255/256, whose integer part is 0, so
the object holds four zeros and the colour that comes back is black and
transparent, not the colour that went in. All the numbers involved are floats,
so no rounding takes part. -/
theorem cccolor4f_roundtrip_loses_fraction :
    (JsNumber.finite (1 / 256)).inUnit = true ∧
    cccolor4f_to_jsval exactCapabilities ⟨fun _ => 0, fun _ => 0⟩
        ⟨.finite (1 / 256), .finite (1 / 256), .finite (1 / 256), .finite (1 / 256)⟩ =
      .object false [(.str "r", .number (.ofInt 0)), (.str "g", .number (.ofInt 0)),
        (.str "b", .number (.ofInt 0)), (.str "a", .number (.ofInt 0))] false ∧
    jsval_to_cccolor4f exactCapabilities
        (cccolor4f_to_jsval exactCapabilities ⟨fun _ => 0, fun _ => 0⟩
          ⟨.finite (1 / 256), .finite (1 / 256), .finite (1 / 256), .finite (1 / 256)⟩)
        ⟨.nan, .nan, .nan, .nan⟩ =
      .ret true ⟨.ofInt 0, .ofInt 0, .ofInt 0, .ofInt 0⟩ ∧
    (⟨.ofInt 0, .ofInt 0, .ofInt 0, .ofInt 0⟩ : Color4F) ≠
      ⟨.finite (1 / 256), .finite (1 / 256), .finite (1 / 256), .finite (1 / 256)⟩ := by
  have hk : castInt32 ⟨fun _ => 0, fun _ => 0⟩
      (exactCapabilities.toFloat (JsNumber.finite (1 / 256)).mul255) = 0 := by
    have hfl : ⌊((1 : ℚ) / 256 * 255)⌋ = 0 := by
      rw [Int.floor_eq_iff]; norm_num
    have hnn : (0 : ℚ) ≤ 1 / 256 * 255 := by norm_num
    simp only [exactCapabilities, JsNumber.mul255, castInt32, JsNumber.trunc, hnn, if_true, hfl]
    decide
  have hobj := cccolor4f_to_jsval_ok exactCapabilities ⟨fun _ => 0, fun _ => 0⟩
    ⟨.finite (1 / 256), .finite (1 / 256), .finite (1 / 256), .finite (1 / 256)⟩ rfl
    (fun _ => rfl)
  simp only [hk] at hobj
  refine ⟨?_, hobj, ?_, ?_⟩
  · simp [JsNumber.inUnit]; norm_num
  · rw [hobj]
    simp [jsval_to_cccolor4f, JsVal.isObject, JS_GetProperty_rgba, JS_ToNumber,
      exactCapabilities, JsNumber.div255, JsNumber.ofInt]
  · simp [JsNumber.ofInt]

/-! ## The closed set of variants -/

theorem Value.closedList_append (xs ys : List Value) :
    Value.closedList (xs ++ ys) = (Value.closedList xs && Value.closedList ys) := by
  induction xs with
  | nil => simp [Value.closedList]
  | cons x rest ih => simp [Value.closedList, ih, Bool.and_assoc]

theorem Value.closedMap_append (xs ys : List (String × Value)) :
    Value.closedMap (xs ++ ys) = (Value.closedMap xs && Value.closedMap ys) := by
  induction xs with
  | nil => simp [Value.closedMap]
  | cons x rest ih =>
    obtain ⟨k, x⟩ := x
    simp [Value.closedMap, ih, Bool.and_assoc]

theorem Value.closedMap_insert (dict : ValueMap) (key : String) (x : Value)
    (hd : Value.closedMap dict = true) (hx : x.closed = true) :
    Value.closedMap (ValueMap.insert dict key x) = true := by
  unfold ValueMap.insert
  split
  · exact hd
  · simp [Value.closedMap_append, Value.closedMap, hd, hx]

theorem Value.closedList_push (ret : ValueVector) (x : Value)
    (hd : Value.closedList ret = true) (hx : x.closed = true) :
    Value.closedList (ret ++ [x]) = true := by
  simp [Value.closedList_append, Value.closedList, hd, hx]

mutual
theorem jsval_to_ccvaluemap_loop_closed : ∀ (ps : List (JsId × JsVal)) (ef : Bool)
    (dict : ValueMap) (ok : Bool) (out : ValueMap), Value.closedMap dict = true →
    jsval_to_ccvaluemap_loop ps ef dict = .ret ok out → Value.closedMap out = true
  | [], ef, dict, ok, out, hd, h => by
    simp only [jsval_to_ccvaluemap_loop] at h
    split at h <;> (injection h with _ h2; subst h2; exact hd)
  | (.int _, _) :: rest, ef, dict, ok, out, hd, h => by
    simp only [jsval_to_ccvaluemap_loop] at h
    exact jsval_to_ccvaluemap_loop_closed rest ef dict ok out hd h
  | (.str k, .undefined) :: rest, ef, dict, ok, out, _, h => by
    simp [jsval_to_ccvaluemap_loop] at h
  | (.str k, .null) :: rest, ef, dict, ok, out, _, h => by
    simp [jsval_to_ccvaluemap_loop] at h
  | (.str k, .boolean b) :: rest, ef, dict, ok, out, hd, h => by
    simp only [jsval_to_ccvaluemap_loop] at h
    exact jsval_to_ccvaluemap_loop_closed rest ef _ ok out
      (Value.closedMap_insert dict (c_str k) (.boolean b) hd rfl) h
  | (.str k, .number n) :: rest, ef, dict, ok, out, hd, h => by
    simp only [jsval_to_ccvaluemap_loop] at h
    exact jsval_to_ccvaluemap_loop_closed rest ef _ ok out
      (Value.closedMap_insert dict (c_str k) (.double n) hd rfl) h
  | (.str k, .string s) :: rest, ef, dict, ok, out, hd, h => by
    simp only [jsval_to_ccvaluemap_loop] at h
    exact jsval_to_ccvaluemap_loop_closed rest ef _ ok out
      (Value.closedMap_insert dict (c_str k) (.string (c_str s)) hd rfl) h
  | (.str k, .object proxy ps2 ef2) :: rest, ef, dict, ok, out, hd, h => by
    simp only [jsval_to_ccvaluemap_loop, jsval_to_ccvaluemap] at h
    cases proxy with
    | true => simp at h
    | false =>
      simp only [Bool.false_eq_true, if_false] at h
      cases h2 : jsval_to_ccvaluemap_loop ps2 ef2 [] with
      | abort => simp [h2] at h
      | ret ok2 out2 =>
        have hc := jsval_to_ccvaluemap_loop_closed ps2 ef2 [] ok2 out2 rfl h2
        cases ok2 with
        | true =>
          simp only [h2] at h
          exact jsval_to_ccvaluemap_loop_closed rest ef _ ok out
            (Value.closedMap_insert dict (c_str k) _ hd (by simpa [Value.closed] using hc)) h
        | false =>
          simp only [h2] at h
          exact jsval_to_ccvaluemap_loop_closed rest ef dict ok out hd h
  | (.str k, .array proxy es2 ps2 ef2) :: rest, ef, dict, ok, out, hd, h => by
    simp only [jsval_to_ccvaluemap_loop, jsval_to_ccvaluevector] at h
    cases proxy with
    | true => simp at h
    | false =>
      simp only [Bool.false_eq_true, if_false] at h
      cases h2 : jsval_to_ccvaluevector_loop es2 [] with
      | abort => simp [h2] at h
      | ret ok2 out2 =>
        have hc := jsval_to_ccvaluevector_loop_closed es2 [] ok2 out2 rfl h2
        cases ok2 with
        | true =>
          simp only [h2] at h
          exact jsval_to_ccvaluemap_loop_closed rest ef _ ok out
            (Value.closedMap_insert dict (c_str k) _ hd (by simpa [Value.closed] using hc)) h
        | false =>
          simp only [h2] at h
          exact jsval_to_ccvaluemap_loop_closed rest ef dict ok out hd h
theorem jsval_to_ccvaluevector_loop_closed : ∀ (es : List (Option JsVal))
    (ret : ValueVector) (ok : Bool) (out : ValueVector), Value.closedList ret = true →
    jsval_to_ccvaluevector_loop es ret = .ret ok out → Value.closedList out = true
  | [], ret, ok, out, hd, h => by
    simp only [jsval_to_ccvaluevector_loop] at h
    injection h with _ h2; subst h2; exact hd
  | none :: rest, ret, ok, out, hd, h => by
    simp only [jsval_to_ccvaluevector_loop] at h
    exact jsval_to_ccvaluevector_loop_closed rest ret ok out hd h
  | some .undefined :: rest, ret, ok, out, _, h => by
    simp [jsval_to_ccvaluevector_loop] at h
  | some .null :: rest, ret, ok, out, _, h => by
    simp [jsval_to_ccvaluevector_loop] at h
  | some (.boolean b) :: rest, ret, ok, out, hd, h => by
    simp only [jsval_to_ccvaluevector_loop] at h
    exact jsval_to_ccvaluevector_loop_closed rest _ ok out
      (Value.closedList_push ret (.boolean b) hd rfl) h
  | some (.number n) :: rest, ret, ok, out, hd, h => by
    simp only [jsval_to_ccvaluevector_loop] at h
    exact jsval_to_ccvaluevector_loop_closed rest _ ok out
      (Value.closedList_push ret (.double n) hd rfl) h
  | some (.string s) :: rest, ret, ok, out, hd, h => by
    simp only [jsval_to_ccvaluevector_loop] at h
    exact jsval_to_ccvaluevector_loop_closed rest _ ok out
      (Value.closedList_push ret (.string (c_str s)) hd rfl) h
  | some (.object proxy ps2 ef2) :: rest, ret, ok, out, hd, h => by
    simp only [jsval_to_ccvaluevector_loop, jsval_to_ccvaluemap] at h
    cases proxy with
    | true => simp at h
    | false =>
      simp only [Bool.false_eq_true, if_false] at h
      cases h2 : jsval_to_ccvaluemap_loop ps2 ef2 [] with
      | abort => simp [h2] at h
      | ret ok2 out2 =>
        have hc := jsval_to_ccvaluemap_loop_closed ps2 ef2 [] ok2 out2 rfl h2
        cases ok2 with
        | true =>
          simp only [h2] at h
          exact jsval_to_ccvaluevector_loop_closed rest _ ok out
            (Value.closedList_push ret _ hd (by simpa [Value.closed] using hc)) h
        | false =>
          simp only [h2] at h
          exact jsval_to_ccvaluevector_loop_closed rest ret ok out hd h
  | some (.array proxy es2 ps2 ef2) :: rest, ret, ok, out, hd, h => by
    simp only [jsval_to_ccvaluevector_loop, jsval_to_ccvaluevector] at h
    cases proxy with
    | true => simp at h
    | false =>
      simp only [Bool.false_eq_true, if_false] at h
      cases h2 : jsval_to_ccvaluevector_loop es2 [] with
      | abort => simp [h2] at h
      | ret ok2 out2 =>
        have hc := jsval_to_ccvaluevector_loop_closed es2 [] ok2 out2 rfl h2
        cases ok2 with
        | true =>
          simp only [h2] at h
          exact jsval_to_ccvaluevector_loop_closed rest _ ok out
            (Value.closedList_push ret _ hd (by simpa [Value.closed] using hc)) h
        | false =>
          simp only [h2] at h
          exact jsval_to_ccvaluevector_loop_closed rest ret ok out hd h
end

/-- C29. The empty variant on a true return. On an object whose property
iteration reports an error, `jsval_to_ccvalue` returns true and leaves the
output as the caller passed it: the empty variant for a default-constructed
value, which is not of the closed set. This is the only way out of the set:
whenever `jsval_to_ccvalue` returns true, the output is of the closed set at
every depth or it is the caller's value, untouched. -/
theorem jsval_to_ccvalue_none_on_success :
    jsval_to_ccvalue (.object false [] true) .none = .ret true .none ∧
    Value.closed .none = false ∧
    (∀ (v : JsVal) (ret : Value),
      match jsval_to_ccvalue v ret with
      | .ret true out => out.closed = true ∨ out = ret
      | _ => True) := by
  refine ⟨rfl, rfl, fun v ret => ?_⟩
  cases v with
  | undefined => simp [jsval_to_ccvalue]
  | null => simp [jsval_to_ccvalue]
  | boolean b => simp [jsval_to_ccvalue, Value.closed]
  | number n => simp [jsval_to_ccvalue, Value.closed]
  | string s => simp [jsval_to_ccvalue, Value.closed]
  | object proxy ps ef =>
    cases proxy with
    | true => simp [jsval_to_ccvalue]
    | false =>
      simp only [jsval_to_ccvalue, jsval_to_ccvaluemap, Bool.false_eq_true, if_false]
      cases h2 : jsval_to_ccvaluemap_loop ps ef [] with
      | abort => simp
      | ret ok2 out2 =>
        have hc := jsval_to_ccvaluemap_loop_closed ps ef [] ok2 out2 rfl h2
        cases ok2 <;> simp [Value.closed, hc]
  | array proxy es ps ef =>
    cases proxy with
    | true => simp [jsval_to_ccvalue]
    | false =>
      simp only [jsval_to_ccvalue, jsval_to_ccvaluevector, Bool.false_eq_true, if_false]
      cases h2 : jsval_to_ccvaluevector_loop es [] with
      | abort => simp
      | ret ok2 out2 =>
        have hc := jsval_to_ccvaluevector_loop_closed es [] ok2 out2 rfl h2
        cases ok2 <;> simp [Value.closed, hc]

/-! ## The string holder -/

/-- C31. The two release paths of `JSStringWrapper` use different routines. A
buffer that `set` finds in the wrapper is released exactly once, by
`delete[]` (through `CC_SAFE_DELETE_ARRAY`), and a buffer that the destructor
finds is released exactly once, by `JS_free`: the buffer of a second `set` on
a string, and of a `set` on a number, goes to `delete[]`, which does not match
the allocation of `JS_EncodeStringToUTF8`, while the same buffer at
destruction goes to `JS_free`, which does. -/
theorem JSStringWrapper_release_routines :
    (∀ (encodeOk : Bool) (old s : String),
      ((⟨some old⟩ : JSStringWrapper).setString encodeOk s).2 = [.delete_array]) ∧
    (∀ (encodeOk : Bool) (old : String) (n : JsNumber),
      ((⟨some old⟩ : JSStringWrapper).set encodeOk (.number n)).2 = [.delete_array]) ∧
    (∀ (encodeOk : Bool) (v : JsVal), ((⟨none⟩ : JSStringWrapper).set encodeOk v).2 = []) ∧
    (∀ old : String, (⟨some old⟩ : JSStringWrapper).destroy = [.JS_free]) ∧
    (⟨none⟩ : JSStringWrapper).destroy = [] ∧
    ((JSStringWrapper.new.setString true "a").1.setString true "b").2 = [.delete_array] ∧
    ((JSStringWrapper.new.setString true "a").1.setString true "b").1.destroy = [.JS_free] ∧
    Deallocator.matchesEncoding .delete_array = false ∧
    Deallocator.matchesEncoding .JS_free = true := by
  refine ⟨fun _ _ _ => rfl, fun _ _ _ => rfl, fun _ v => ?_, fun _ => rfl, rfl, rfl, rfl,
    rfl, rfl⟩
  cases v <;> rfl

/-! ## Vectors, integers, resources and opaque handles -/

theorem componentMissing_elim (C : Capabilities) (vp : JsVal) (name : String)
    (h : componentMissing C vp name = true) :
    JS_ToNumber C (JS_GetProperty vp name) = none ∨
      JS_ToNumber C (JS_GetProperty vp name) = some .nan := by
  simp only [componentMissing, Bool.or_eq_true] at h
  rcases h with h | h
  · right
    have : vp.props.lookup (.str name) = none := by
      cases hl : vp.props.lookup (.str name) with
      | none => rfl
      | some v => simp [hl] at h
    simp [JS_GetProperty, this, JS_ToNumber]
  · cases hn : JS_ToNumber C (JS_GetProperty vp name) with
    | none => left; rfl
    | some n =>
      right
      rw [hn] at h
      cases n <;> simp_all [JsNumber.isnan]

theorem componentIs_elim (C : Capabilities) (vp : JsVal) (name : String) (n : JsNumber)
    (h : componentIs C vp name n = true) :
    JS_ToNumber C (JS_GetProperty vp name) = some n ∧ n.isnan = false := by
  simp only [componentIs, Bool.and_eq_true, beq_iff_eq, Bool.not_eq_true'] at h
  exact h

/-- C32. The vector converters refuse not-a-number. For every value `vp`, each of
`jsval_to_vector2`, `jsval_to_vector3`, `jsval_to_vector4`,
`jsval_to_quaternion` and `jsval_to_cctex2f` returns false and leaves the output
as it was when `vp` is no object or one of its required components is absent
or does not coerce to a number (the coercion fails or gives not-a-number);
and when `vp` is an object whose required components coerce to numbers that
are not not-a-number, it returns true with every component narrowed to
float. -/
theorem vector_converters_reject_nan (C : Capabilities) (vp : JsVal) :
    ((vp.isObject = false ∨ componentMissing C vp "x" = true ∨
        componentMissing C vp "y" = true) →
      (∀ ret, jsval_to_vector2 C vp ret = .ret false ret) ∧
      (∀ ret, jsval_to_cctex2f C vp ret = .ret false ret)) ∧
    ((vp.isObject = false ∨ componentMissing C vp "x" = true ∨
        componentMissing C vp "y" = true ∨ componentMissing C vp "z" = true) →
      ∀ ret, jsval_to_vector3 C vp ret = .ret false ret) ∧
    ((vp.isObject = false ∨ componentMissing C vp "x" = true ∨
        componentMissing C vp "y" = true ∨ componentMissing C vp "z" = true ∨
        componentMissing C vp "w" = true) →
      (∀ ret, jsval_to_vector4 C vp ret = .ret false ret) ∧
      (∀ ret, jsval_to_quaternion C vp ret = .ret false ret)) ∧
    (∀ x y : JsNumber, vp.isObject = true → componentIs C vp "x" x = true →
      componentIs C vp "y" y = true →
      (∀ ret, jsval_to_vector2 C vp ret = .ret true ⟨C.toFloat x, C.toFloat y⟩) ∧
      (∀ ret, jsval_to_cctex2f C vp ret = .ret true ⟨C.toFloat x, C.toFloat y⟩)) ∧
    (∀ x y z : JsNumber, vp.isObject = true → componentIs C vp "x" x = true →
      componentIs C vp "y" y = true → componentIs C vp "z" z = true →
      ∀ ret, jsval_to_vector3 C vp ret = .ret true ⟨C.toFloat x, C.toFloat y, C.toFloat z⟩) ∧
    (∀ x y z w : JsNumber, vp.isObject = true → componentIs C vp "x" x = true →
      componentIs C vp "y" y = true → componentIs C vp "z" z = true →
      componentIs C vp "w" w = true →
      (∀ ret, jsval_to_vector4 C vp ret =
        .ret true ⟨C.toFloat x, C.toFloat y, C.toFloat z, C.toFloat w⟩) ∧
      (∀ ret, jsval_to_quaternion C vp ret =
        .ret true ⟨C.toFloat x, C.toFloat y, C.toFloat z, C.toFloat w⟩)) := by
  have ex := componentMissing_elim C vp "x"
  have ey := componentMissing_elim C vp "y"
  have ez := componentMissing_elim C vp "z"
  have ew := componentMissing_elim C vp "w"
  refine ⟨?_, ?_, ?_, ?_, ?_, ?_⟩
  · intro h
    simp only [jsval_to_vector2, jsval_to_cctex2f]
    generalize JS_ToNumber C (JS_GetProperty vp "x") = ox at ex ⊢
    generalize JS_ToNumber C (JS_GetProperty vp "y") = oy at ey ⊢
    rcases h with h | h | h
    · simp [h]
    · rcases ex h with rfl | rfl <;> cases oy <;> simp [JsNumber.isnan]
    · rcases ey h with rfl | rfl <;> cases ox <;> simp [JsNumber.isnan]
  · intro h
    simp only [jsval_to_vector3]
    generalize JS_ToNumber C (JS_GetProperty vp "x") = ox at ex ⊢
    generalize JS_ToNumber C (JS_GetProperty vp "y") = oy at ey ⊢
    generalize JS_ToNumber C (JS_GetProperty vp "z") = oz at ez ⊢
    rcases h with h | h | h | h
    · simp [h]
    · rcases ex h with rfl | rfl <;> cases oy <;> cases oz <;> simp [JsNumber.isnan]
    · rcases ey h with rfl | rfl <;> cases ox <;> cases oz <;> simp [JsNumber.isnan]
    · rcases ez h with rfl | rfl <;> cases ox <;> cases oy <;> simp [JsNumber.isnan]
  · intro h
    simp only [jsval_to_vector4, jsval_to_quaternion]
    generalize JS_ToNumber C (JS_GetProperty vp "x") = ox at ex ⊢
    generalize JS_ToNumber C (JS_GetProperty vp "y") = oy at ey ⊢
    generalize JS_ToNumber C (JS_GetProperty vp "z") = oz at ez ⊢
    generalize JS_ToNumber C (JS_GetProperty vp "w") = ow at ew ⊢
    rcases h with h | h | h | h | h
    · simp [h]
    · rcases ex h with rfl | rfl <;> cases oy <;> cases oz <;> cases ow <;>
        simp [JsNumber.isnan]
    · rcases ey h with rfl | rfl <;> cases ox <;> cases oz <;> cases ow <;>
        simp [JsNumber.isnan]
    · rcases ez h with rfl | rfl <;> cases ox <;> cases oy <;> cases ow <;>
        simp [JsNumber.isnan]
    · rcases ew h with rfl | rfl <;> cases ox <;> cases oy <;> cases oz <;>
        simp [JsNumber.isnan]
  · intro x y hv hx hy
    obtain ⟨hx1, hx2⟩ := componentIs_elim C vp "x" x hx
    obtain ⟨hy1, hy2⟩ := componentIs_elim C vp "y" y hy
    simp [jsval_to_vector2, jsval_to_cctex2f, hv, hx1, hy1, hx2, hy2]
  · intro x y z hv hx hy hz
    obtain ⟨hx1, hx2⟩ := componentIs_elim C vp "x" x hx
    obtain ⟨hy1, hy2⟩ := componentIs_elim C vp "y" y hy
    obtain ⟨hz1, hz2⟩ := componentIs_elim C vp "z" z hz
    simp [jsval_to_vector3, hv, hx1, hy1, hz1, hx2, hy2, hz2]
  · intro x y z w hv hx hy hz hw
    obtain ⟨hx1, hx2⟩ := componentIs_elim C vp "x" x hx
    obtain ⟨hy1, hy2⟩ := componentIs_elim C vp "y" y hy
    obtain ⟨hz1, hz2⟩ := componentIs_elim C vp "z" z hz
    obtain ⟨hw1, hw2⟩ := componentIs_elim C vp "w" w hw
    simp [jsval_to_vector4, jsval_to_quaternion, hv, hx1, hy1, hz1, hw1, hx2, hy2, hz2, hw2]

/-- The object `{x: 1}` has no `y`, the object `{x: 1, y: 2}` has both. -/
theorem vector_converters_reject_nan_witness :
    (componentMissing exactCapabilities
        (.object false [(.str "x", .number (.ofInt 1))] false) "y" = true ∧
      jsval_to_vector2 exactCapabilities (.object false [(.str "x", .number (.ofInt 1))] false)
        ⟨.ofInt 7, .ofInt 8⟩ = .ret false ⟨.ofInt 7, .ofInt 8⟩) ∧
    ((JsVal.object false [(.str "x", .number (.ofInt 1)), (.str "y", .number (.ofInt 2))]
          false).isObject = true ∧
      componentIs exactCapabilities
        (.object false [(.str "x", .number (.ofInt 1)), (.str "y", .number (.ofInt 2))] false)
        "x" (.ofInt 1) = true ∧
      componentIs exactCapabilities
        (.object false [(.str "x", .number (.ofInt 1)), (.str "y", .number (.ofInt 2))] false)
        "y" (.ofInt 2) = true ∧
      jsval_to_vector2 exactCapabilities
        (.object false [(.str "x", .number (.ofInt 1)), (.str "y", .number (.ofInt 2))] false)
        ⟨.ofInt 7, .ofInt 8⟩ = .ret true ⟨.ofInt 1, .ofInt 2⟩) :=
  ⟨⟨rfl, ((vector_converters_reject_nan exactCapabilities
      (.object false [(.str "x", .number (.ofInt 1))] false)).1 (Or.inr (Or.inr rfl))).1 _⟩,
    ⟨rfl, by decide, by decide, ((vector_converters_reject_nan exactCapabilities
      (.object false [(.str "x", .number (.ofInt 1)), (.str "y", .number (.ofInt 2))]
        false)).2.2.2.1 (.ofInt 1) (.ofInt 2) rfl (by decide) (by decide)).1 _⟩⟩

theorem jsval_to_matrix_loop_bounds (C : Capabilities) :
    ∀ (es : List (Option JsVal)) (i : Nat) (ret : Mat4),
      match jsval_to_matrix_loop C es i ret with
      | .outOfBounds j => 16 ≤ j ∧ j < i + es.length
      | _ => True
  | [], _, _ => by simp [jsval_to_matrix_loop]
  | none :: rest, i, ret => by
    have := jsval_to_matrix_loop_bounds C rest (i + 1) ret
    simp only [jsval_to_matrix_loop, List.length_cons]
    split <;> simp_all
    omega
  | some .undefined :: rest, i, ret => by simp [jsval_to_matrix_loop]
  | some .null :: rest, i, ret => by simp [jsval_to_matrix_loop]
  | some (.boolean _) :: rest, i, ret => by simp [jsval_to_matrix_loop]
  | some (.string _) :: rest, i, ret => by simp [jsval_to_matrix_loop]
  | some (.object _ _ _) :: rest, i, ret => by simp [jsval_to_matrix_loop]
  | some (.array _ _ _ _) :: rest, i, ret => by simp [jsval_to_matrix_loop]
  | some (.number n) :: rest, i, ret => by
    have := jsval_to_matrix_loop_bounds C rest (i + 1) ⟨ret.m.set i (C.toFloat n)⟩
    simp only [jsval_to_matrix_loop, JS_ToNumber, List.length_cons]
    by_cases hi : i < 16
    · simp only [hi, if_true]
      split <;> simp_all
      omega
    · simp only [hi, if_false]
      omega

/-- C33. A write past the end of the matrix. On an array of seventeen numbers
`jsval_to_matrix` writes the elements 0 to 15 and then the element 16 of the
sixteen-element array `m`. This is the only way out of the bounds: whenever
the function writes outside, the index is at least 16 and below the length of
the array, so an array of at most sixteen elements is written within the
bounds. -/
theorem jsval_to_matrix_writes_out_of_bounds :
    (∀ (C : Capabilities) (n : JsNumber) (ret : Mat4),
      jsval_to_matrix C (.array false (List.replicate 17 (some (.number n))) [] false) ret =
        .outOfBounds 16) ∧
    (∀ (C : Capabilities) (proxy : Bool) (es : List (Option JsVal)) (ps : List (JsId × JsVal))
        (ef : Bool) (ret : Mat4),
      match jsval_to_matrix C (.array proxy es ps ef) ret with
      | .outOfBounds j => 16 ≤ j ∧ j < es.length
      | _ => True) := by
  refine ⟨fun _ _ _ => rfl, fun C proxy es ps ef ret => ?_⟩
  have := jsval_to_matrix_loop_bounds C es 0 ret
  simpa [jsval_to_matrix, JsVal.isObject, JsVal.isArray, JsVal.elems] using this

theorem jsval_to_ccvaluemapintkey_loop_integerKeys (toInt32 : String → Int) :
    ∀ (props : List (JsId × JsVal)) (dict : ValueMapIntKey), integerKeys props = true →
      jsval_to_ccvaluemapintkey_loop toInt32 props false dict = .ret true dict
  | [], _, _ => by simp [jsval_to_ccvaluemapintkey_loop]
  | (.int _, _) :: rest, dict, h => by
    simp only [integerKeys] at h
    simp only [jsval_to_ccvaluemapintkey_loop]
    exact jsval_to_ccvaluemapintkey_loop_integerKeys toInt32 rest dict h
  | (.str _, _) :: rest, _, h => by simp [integerKeys] at h

/-- C35. Integer keys are passed over. In the loop of `jsval_to_ccvaluemapintkey`
a property whose key is an integer index is skipped without being examined;
so for an object (or an array) all of whose properties have integer keys, and
whose iteration ends without an error, the function returns true and the
output map is as the caller passed it: no entry is inserted. -/
theorem jsval_to_ccvaluemapintkey_skips_integer_keys (toInt32 : String → Int)
    (props : List (JsId × JsVal)) (ret : ValueMapIntKey) (h : integerKeys props = true) :
    (∀ proxy, jsval_to_ccvaluemapintkey toInt32 (.object proxy props false) ret =
      .ret true ret) ∧
    (∀ proxy es, jsval_to_ccvaluemapintkey toInt32 (.array proxy es props false) ret =
      .ret true ret) ∧
    (∀ (i : Int) (v : JsVal) (rest : List (JsId × JsVal)) (ef : Bool) (dict : ValueMapIntKey),
      jsval_to_ccvaluemapintkey_loop toInt32 ((.int i, v) :: rest) ef dict =
        jsval_to_ccvaluemapintkey_loop toInt32 rest ef dict) := by
  refine ⟨fun _ => ?_, fun _ _ => ?_, fun _ _ _ _ _ => ?_⟩
  · simp only [jsval_to_ccvaluemapintkey]
    exact jsval_to_ccvaluemapintkey_loop_integerKeys toInt32 props ret h
  · simp only [jsval_to_ccvaluemapintkey]
    exact jsval_to_ccvaluemapintkey_loop_integerKeys toInt32 props ret h
  · simp only [jsval_to_ccvaluemapintkey_loop]

/-- The object `{0: "a", 1: null}`: even the null under an integer key is passed
over. -/
theorem jsval_to_ccvaluemapintkey_skips_integer_keys_witness :
    integerKeys [(.int 0, .string "a"), (.int 1, .null)] = true ∧
    jsval_to_ccvaluemapintkey (fun _ => 0)
      (.object false [(.int 0, .string "a"), (.int 1, .null)] false) [] = .ret true [] :=
  ⟨rfl, (jsval_to_ccvaluemapintkey_skips_integer_keys (fun _ => 0)
    [(.int 0, .string "a"), (.int 1, .null)] [] rfl).1 false⟩

theorem castInt32_ofInt (P : Casts) (n : Int) (h0 : -2 ^ 31 ≤ n) (h1 : n < 2 ^ 31) :
    castInt32 P (.ofInt n) = n := by
  simp only [castInt32, JsNumber.trunc, JsNumber.ofInt]
  have : (if (0 : ℚ) ≤ (n : ℚ) then ⌊(n : ℚ)⌋ else ⌈(n : ℚ)⌉) = n := by
    split <;> simp
  rw [this, if_pos ⟨h0, h1⟩]

theorem resourcedata_roundtrip_back (C : Capabilities) (E : Engine) (P : Casts)
    (v ret : ResourceData)
    (hnew : C.newObjectOk = true) (hdef : ∀ name, C.definePropertyOk name = true)
    (hstr : ∀ x, C.toStringOk x = true)
    (htype : -2 ^ 31 ≤ v.type ∧ v.type < 2 ^ 31) :
    resourcedata_to_jsval C E v =
      .object false [(.str "type", .number (.ofInt v.type)),
        (.str "file", std_string_to_jsval E v.file),
        (.str "plist", std_string_to_jsval E v.plist)] false ∧
    jsval_to_resourcedata C P (resourcedata_to_jsval C E v) ret =
      .ret true { type := v.type, file := "",
                  plist := if E.transcodeOk v.plist = true ∧ E.newStringOk v.plist = true
                    then c_str v.plist else "" } := by
  have hobj : resourcedata_to_jsval C E v =
      .object false [(.str "type", .number (.ofInt v.type)),
        (.str "file", std_string_to_jsval E v.file),
        (.str "plist", std_string_to_jsval E v.plist)] false := by
    simp [resourcedata_to_jsval, hnew, hdef, JS_DefineProperty, JS_SetProperty]
  have g1 : ∀ a b : JsVal, JS_GetProperty (.object false [(.str "type",
      .number (.ofInt v.type)), (.str "file", a), (.str "plist", b)] false) "type" =
      .number (.ofInt v.type) := fun _ _ => rfl
  have g2 : ∀ a b : JsVal, JS_GetProperty (.object false [(.str "type",
      .number (.ofInt v.type)), (.str "file", a), (.str "plist", b)] false) "name" =
      .undefined := fun _ _ => rfl
  have g3 : ∀ a b : JsVal, JS_GetProperty (.object false [(.str "type",
      .number (.ofInt v.type)), (.str "file", a), (.str "plist", b)] false) "plist" =
      b := fun _ _ => rfl
  refine ⟨hobj, ?_⟩
  rw [hobj]
  have he : c_str "" = "" := rfl
  by_cases hp : v.plist = ""
  · simp [jsval_to_resourcedata, JsVal.isObject, g1, g2, g3, JS_ToNumber,
      jsval_to_std_string, JS_ToString, hstr, castInt32_ofInt P v.type htype.1 htype.2,
      std_string_to_jsval, c_string_to_jsval, hp, he]
  · by_cases hT : E.transcodeOk v.plist = true <;>
      by_cases hN : E.newStringOk v.plist = true <;>
      simp [jsval_to_resourcedata, JsVal.isObject, g1, g2, g3, JS_ToNumber,
        jsval_to_std_string, JS_ToString, hstr, castInt32_ofInt P v.type htype.1 htype.2,
        std_string_to_jsval, c_string_to_jsval, hp, hT, hN]

/-- C36, the failing instance. The plist of the three characters `a`, U+0000,
`b` comes back as `a`, and a plist that is not transcoded comes back empty;
the type comes back and the file name is lost. -/
theorem resourcedata_roundtrip_cuts_plist :
    jsval_to_resourcedata exactCapabilities ⟨fun _ => 0, fun _ => 0⟩
      (resourcedata_to_jsval exactCapabilities okEngine ⟨3, "hero.png", "a\x00b"⟩)
      ⟨0, "x", "y"⟩ = .ret true ⟨3, "", "a"⟩ ∧
    jsval_to_resourcedata exactCapabilities ⟨fun _ => 0, fun _ => 0⟩
      (resourcedata_to_jsval exactCapabilities noTranscodingEngine
        ⟨3, "hero.png", "hero.plist"⟩)
      ⟨0, "x", "y"⟩ = .ret true ⟨3, "", ""⟩ := by
  have k1 : c_str "a\x00b" = "a" := by decide
  constructor
  · rw [(resourcedata_roundtrip_back exactCapabilities okEngine ⟨fun _ => 0, fun _ => 0⟩
      ⟨3, "hero.png", "a\x00b"⟩ ⟨0, "x", "y"⟩ rfl (fun _ => rfl) (fun _ => rfl)
      (by decide)).2]
    simp [okEngine, k1]
  · rw [(resourcedata_roundtrip_back exactCapabilities noTranscodingEngine
      ⟨fun _ => 0, fun _ => 0⟩ ⟨3, "hero.png", "hero.plist"⟩ ⟨0, "x", "y"⟩ rfl
      (fun _ => rfl) (fun _ => rfl) (by decide)).2]
    simp [noTranscodingEngine]

/-- C36, amended. The file name is lost. When the engine creates the object,
defines its properties and converts strings to text, `resourcedata_to_jsval v`
is the object with exactly the properties `type`, `file` and `plist`, the last
two bound to what `std_string_to_jsval` delivers, and `jsval_to_resourcedata`,
which reads `name`, returns true on it with the type of `v`, with the empty
text as file, and with the plist of `v` up to its first U+0000 when that plist
is transcoded and created as a string, the empty text otherwise: the plist of
`v` itself when, besides, it holds no U+0000. -/
theorem resourcedata_roundtrip_c_string (C : Capabilities) (E : Engine) (P : Casts)
    (v ret : ResourceData)
    (hnew : C.newObjectOk = true) (hdef : ∀ name, C.definePropertyOk name = true)
    (hstr : ∀ x, C.toStringOk x = true)
    (htype : -2 ^ 31 ≤ v.type ∧ v.type < 2 ^ 31) :
    resourcedata_to_jsval C E v =
      .object false [(.str "type", .number (.ofInt v.type)),
        (.str "file", std_string_to_jsval E v.file),
        (.str "plist", std_string_to_jsval E v.plist)] false ∧
    jsval_to_resourcedata C P (resourcedata_to_jsval C E v) ret =
      .ret true { type := v.type, file := "",
                  plist := if E.transcodeOk v.plist = true ∧ E.newStringOk v.plist = true
                    then c_str v.plist else "" } ∧
    (E.transcodeOk v.plist = true → E.newStringOk v.plist = true → noNul v.plist = true →
      jsval_to_resourcedata C P (resourcedata_to_jsval C E v) ret =
        .ret true { type := v.type, file := "", plist := v.plist }) := by
  have hb := resourcedata_roundtrip_back C E P v ret hnew hdef hstr htype
  refine ⟨hb.1, hb.2, ?_⟩
  intro hT hN hs
  rw [hb.2]
  simp [hT, hN, c_str_of_noNul v.plist hs]

/-- The record of type 3 with the file `hero.png` and the plist `hero.plist`. -/
theorem resourcedata_roundtrip_c_string_witness :
    (exactCapabilities.newObjectOk = true ∧
      (∀ name, exactCapabilities.definePropertyOk name = true) ∧
      (∀ x, exactCapabilities.toStringOk x = true) ∧
      ((-2 : Int) ^ 31 ≤ 3 ∧ (3 : Int) < 2 ^ 31)) ∧
    (okEngine.transcodeOk "hero.plist" = true ∧ okEngine.newStringOk "hero.plist" = true ∧
      noNul "hero.plist" = true) ∧
    jsval_to_resourcedata exactCapabilities ⟨fun _ => 0, fun _ => 0⟩
      (resourcedata_to_jsval exactCapabilities okEngine ⟨3, "hero.png", "hero.plist"⟩)
      ⟨0, "x", "y"⟩ = .ret true ⟨3, "", "hero.plist"⟩ :=
  ⟨⟨rfl, fun _ => rfl, fun _ => rfl, by decide⟩, ⟨rfl, rfl, by rfl⟩,
    (resourcedata_roundtrip_c_string exactCapabilities okEngine ⟨fun _ => 0, fun _ => 0⟩
      ⟨3, "hero.png", "hero.plist"⟩ ⟨0, "x", "y"⟩ rfl (fun _ => rfl) (fun _ => rfl)
      (by decide)).2.2 rfl rfl (by rfl)⟩

/-- C37. A pointer, there and back, where `__LP64__` is defined. For every
pointer `p` below `2^64`, when the engine creates the array,
`opaque_to_jsval p` is a typed array of two 32-bit words, eight bytes long,
that holds the high 32 bits of `p` at index 0 and the low 32 bits at index 1,
and `jsval_to_opaque` returns true on it with `(a[0] << 32) | a[1]`, which is
`p`. -/
theorem opaque_roundtrip (p r : Nat) (hp : p < 2 ^ 64) :
    opaque_to_jsval true p = some (.typedArray [p / 2 ^ 32, p % 2 ^ 32] 0) ∧
    (OpaqueValue.typedArray [p / 2 ^ 32, p % 2 ^ 32] 0).byteLength = 8 ∧
    jsval_to_opaque (.typedArray [p / 2 ^ 32, p % 2 ^ 32] 0) r =
      .ret true (((p / 2 ^ 32) <<< 32) ||| (p % 2 ^ 32)) ∧
    ((p / 2 ^ 32) <<< 32) ||| (p % 2 ^ 32) = p := by
  have hhi : p / 2 ^ 32 < 2 ^ 32 := by omega
  have hlo : p % 2 ^ 32 < 2 ^ 32 := Nat.mod_lt _ (by norm_num)
  have hmask : p &&& 0xffffffff = p % 2 ^ 32 := by
    have := Nat.and_pow_two_sub_one_eq_mod p 32
    simpa using this
  have hor : ((p / 2 ^ 32) <<< 32) ||| (p % 2 ^ 32) = p := by
    rw [Nat.shiftLeft_eq, Nat.mul_comm, ← Nat.mul_add_lt_is_or hlo]
    exact Nat.div_add_mod p (2 ^ 32)
  refine ⟨?_, rfl, ?_, hor⟩
  · simp only [opaque_to_jsval, if_true, Nat.mod_eq_of_lt hp, Nat.shiftRight_eq_div_pow,
      Nat.mod_eq_of_lt hhi, hmask, Nat.mod_mod]
  · have hsh : ((p / 2 ^ 32) <<< 32) % 2 ^ 64 = (p / 2 ^ 32) <<< 32 := by
      apply Nat.mod_eq_of_lt
      rw [Nat.shiftLeft_eq]
      omega
    simp only [ jsval_to_opaque, OpaqueValue.byteLength, OpaqueValue.word, List.length_cons,
      List.length_nil, List.getD_cons_zero, List.getD_cons_succ, Nat.mod_eq_of_lt hhi,
      Nat.mod_mod, hsh]
    simp

theorem opaque_roundtrip_witness :
    (0x7ffe12345678 : Nat) < 2 ^ 64 ∧
    opaque_to_jsval true 0x7ffe12345678 =
      some (.typedArray [0x7ffe12345678 / 2 ^ 32, 0x7ffe12345678 % 2 ^ 32] 0) ∧
    jsval_to_opaque (.typedArray [0x7ffe12345678 / 2 ^ 32, 0x7ffe12345678 % 2 ^ 32] 0) 0 =
      .ret true (((0x7ffe12345678 / 2 ^ 32) <<< 32) ||| (0x7ffe12345678 % 2 ^ 32)) ∧
    ((0x7ffe12345678 / 2 ^ 32) <<< 32) ||| (0x7ffe12345678 % 2 ^ 32) = 0x7ffe12345678 :=
  ⟨by decide, (opaque_roundtrip 0x7ffe12345678 0 (by decide)).1,
    (opaque_roundtrip 0x7ffe12345678 0 (by decide)).2.2.1,
    (opaque_roundtrip 0x7ffe12345678 0 (by decide)).2.2.2⟩

/-- C39. The function `jsval_to_int32` returns false, with the output as it was,
exactly when the coercion of the value to a number fails or gives
not-a-number; otherwise it returns true with the cast `(int32_t)` of the
number, which for a finite number whose integer part lies in the range of
`int32_t` is that integer part (the fraction discarded, toward zero). -/
theorem jsval_to_int32_spec (C : Capabilities) (P : Casts) (vp : JsVal) (outval : Int) :
    ((JS_ToNumber C vp = none ∨ JS_ToNumber C vp = some .nan) ↔
      jsval_to_int32 C P vp outval = .ret false outval) ∧
    ((JS_ToNumber C vp = none ∨ JS_ToNumber C vp = some .nan) ∨
      ∃ out, jsval_to_int32 C P vp outval = .ret true out) ∧
    (∀ q : ℚ, JS_ToNumber C vp = some (.finite q) →
      -2 ^ 31 ≤ (if 0 ≤ q then ⌊q⌋ else ⌈q⌉) → (if 0 ≤ q then ⌊q⌋ else ⌈q⌉) < 2 ^ 31 →
      jsval_to_int32 C P vp outval = .ret true (if 0 ≤ q then ⌊q⌋ else ⌈q⌉)) := by
  refine ⟨?_, ?_, ?_⟩
  · cases h : JS_ToNumber C vp with
    | none => simp [jsval_to_int32, h]
    | some dp => cases dp <;> simp [jsval_to_int32, h, JsNumber.isnan]
  · cases h : JS_ToNumber C vp with
    | none => simp
    | some dp => cases dp <;> simp [jsval_to_int32, h, JsNumber.isnan]
  · intro q h h0 h1
    have hc : castInt32 P (.finite q) = (if 0 ≤ q then ⌊q⌋ else ⌈q⌉) := by
      simp only [castInt32, JsNumber.trunc]
      exact if_pos ⟨h0, h1⟩
    simp [jsval_to_int32, h, JsNumber.isnan, hc]

/-- The number -7 comes out as -7, the string that is no number is refused. -/
theorem jsval_to_int32_spec_witness :
    JS_ToNumber exactCapabilities (.number (.finite ((-7 : Int) : ℚ))) =
      some (.finite ((-7 : Int) : ℚ)) ∧
    jsval_to_int32 exactCapabilities ⟨fun _ => 0, fun _ => 0⟩
      (.number (.finite ((-7 : Int) : ℚ))) 5 =
        .ret true (if (0 : ℚ) ≤ ((-7 : Int) : ℚ) then ⌊((-7 : Int) : ℚ)⌋
          else ⌈((-7 : Int) : ℚ)⌉) ∧
    jsval_to_int32 exactCapabilities ⟨fun _ => 0, fun _ => 0⟩ (.string "abc") 5 =
      .ret false 5 :=
  ⟨rfl,
    (jsval_to_int32_spec exactCapabilities ⟨fun _ => 0, fun _ => 0⟩
      (.number (.finite ((-7 : Int) : ℚ))) 5).2.2 _ rfl (by decide) (by decide),
    (jsval_to_int32_spec exactCapabilities ⟨fun _ => 0, fun _ => 0⟩ (.string "abc") 5).1.mp
      (Or.inr rfl)⟩

/-! ## Long integers as decimal text -/

theorem digitChar_spec (d : Nat) (h : d < 10) :
    (digitChar d).toNat - 48 = d ∧ (digitChar d).isDigit = true ∧
    Char.ofNat ((digitChar d).toNat % 256) = digitChar d ∧
    ((digitChar d).toNat != 0) = true ∧ isspace (digitChar d) = false ∧
    digitChar d ≠ '-' ∧ digitChar d ≠ '+' := by
  interval_cases d <;> decide

theorem decimalDigits_spec (n : Nat) :
    (∀ c ∈ decimalDigits n, c.isDigit = true ∧ Char.ofNat (c.toNat % 256) = c ∧
      (c.toNat != 0) = true ∧ isspace c = false ∧ c ≠ '-' ∧ c ≠ '+') ∧
    decimalDigits n ≠ [] ∧
    (decimalDigits n).foldl (fun acc c => 10 * acc + (c.toNat - 48)) 0 = n := by
  by_cases hn : n = 0
  · subst hn
    refine ⟨?_, by simp [decimalDigits], by simp [decimalDigits]⟩
    intro c hc
    simp only [decimalDigits, if_true, List.mem_singleton] at hc
    subst hc
    decide
  · have hd : ∀ d ∈ Nat.digits 10 n, d < 10 := fun d hd =>
      Nat.digits_lt_base (by norm_num) hd
    refine ⟨?_, ?_, ?_⟩
    · intro c hc
      simp only [decimalDigits, hn, if_false, List.mem_map, List.mem_reverse] at hc
      obtain ⟨d, hdm, rfl⟩ := hc
      have := digitChar_spec d (hd d hdm)
      exact ⟨this.2.1, this.2.2.1, this.2.2.2.1, this.2.2.2.2.1, this.2.2.2.2.2.1,
        this.2.2.2.2.2.2⟩
    · simp only [decimalDigits, hn, if_false, ne_eq, List.map_eq_nil_iff,
        List.reverse_eq_nil_iff]
      exact Nat.digits_ne_nil_iff_ne_zero.mpr hn
    · simp only [decimalDigits, hn, if_false, List.foldl_map]
      have hcongr : List.foldl (fun acc d => 10 * acc + ((digitChar d).toNat - 48)) 0
          (Nat.digits 10 n).reverse =
          List.foldl (fun acc d => 10 * acc + d) 0 (Nat.digits 10 n).reverse := by
        apply List.foldl_ext
        intro a d hdm
        rw [(digitChar_spec d (hd d (List.mem_reverse.mp hdm))).1]
      rw [hcongr, List.foldl_reverse]
      have := Nat.ofDigits_digits 10 n
      rw [Nat.ofDigits_eq_foldr] at this
      simpa [Nat.add_comm] using this

theorem JS_EncodeString_decimal (cs : List Char)
    (h : ∀ c ∈ cs, Char.ofNat (c.toNat % 256) = c ∧ (c.toNat != 0) = true) :
    JS_EncodeString ⟨cs⟩ = cs := by
  have hmap : cs.map (fun c => Char.ofNat (c.toNat % 256)) = cs := by
    conv_rhs => rw [← List.map_id cs]
    exact List.map_congr_left (fun c hc => (h c hc).1)
  simp only [JS_EncodeString, hmap]
  exact List.takeWhile_eq_self_iff.mpr (fun c hc => (h c hc).2)

theorem strtol_digits (n : Nat) :
    (n < 2 ^ 63 → strtol (decimalDigits n) = n) ∧
    (n ≤ 2 ^ 63 → strtol ('-' :: decimalDigits n) = -(n : Int)) := by
  obtain ⟨hall, hne, hval⟩ := decimalDigits_spec n
  obtain ⟨c, rest, hcs⟩ := List.exists_cons_of_ne_nil hne
  have hc := hall c (by rw [hcs]; exact List.mem_cons_self _ _)
  have htake : (decimalDigits n).takeWhile Char.isDigit = decimalDigits n :=
    List.takeWhile_eq_self_iff.mpr (fun d hd => (hall d hd).1)
  constructor
  · intro hn
    have hdrop : (decimalDigits n).dropWhile isspace = decimalDigits n := by
      rw [hcs]; simp [List.dropWhile, hc.2.2.2.1]
    have hhead : ((decimalDigits n).head? == some '-') = false := by
      rw [hcs]; simpa using hc.2.2.2.2.1
    have hhead2 : ((decimalDigits n).head? == some '+') = false := by
      rw [hcs]; simpa using hc.2.2.2.2.2
    simp only [strtol, hdrop, hhead, hhead2, Bool.or_self, Bool.false_eq_true, if_false,
      htake, hval]
    rw [if_neg (by omega)]
  · intro hn
    have hdrop : ('-' :: decimalDigits n).dropWhile isspace = '-' :: decimalDigits n := by
      have : isspace '-' = false := by decide
      simp [List.dropWhile, this]
    simp only [strtol, hdrop, List.head?_cons, beq_self_eq_true, Bool.true_or, if_true,
      List.tail_cons, htake, hval]
    rw [if_neg (by omega)]

theorem strtol_printLong (n : Int) (h0 : -2 ^ 63 ≤ n) (h1 : n < 2 ^ 63) :
    strtol (JS_EncodeString (printLong n)) = n := by
  have hall := (decimalDigits_spec n.natAbs).1
  by_cases hneg : n < 0
  · have henc : JS_EncodeString (printLong n) = '-' :: decimalDigits n.natAbs := by
      simp only [printLong, hneg, if_true]
      apply JS_EncodeString_decimal
      intro c hc
      rcases List.mem_cons.mp hc with rfl | hc
      · decide
      · exact ⟨(hall c hc).2.1, (hall c hc).2.2.1⟩
    rw [henc, (strtol_digits n.natAbs).2 (by omega)]
    omega
  · have henc : JS_EncodeString (printLong n) = decimalDigits n.natAbs := by
      simp only [printLong, hneg, if_false]
      apply JS_EncodeString_decimal
      intro c hc
      exact ⟨(hall c hc).2.1, (hall c hc).2.2.1⟩
    rw [henc, (strtol_digits n.natAbs).1 (by omega)]
    omega

/-- C38. A long, there and back, where `__LP64__` is defined. For every signed
64-bit integer `n`, `long_to_jsval n` is the string of the decimal text of `n`
(a minus sign for a negative number, then the digits), and when the engine
delivers and encodes the string, `jsval_to_long` returns true on it with
exactly `n`: reading the decimal text gives the number back, the least and
the greatest value included. -/
theorem long_roundtrip (C : Capabilities) (objectToString : JsVal → Option String)
    (n r : Int) (hstr : ∀ x, C.toStringOk x = true)
    (h0 : -2 ^ 63 ≤ n) (h1 : n < 2 ^ 63) :
    long_to_jsval n = .string (printLong n) ∧
    strtol (JS_EncodeString (printLong n)) = n ∧
    jsval_to_long C objectToString true (long_to_jsval n) r = .ret true n := by
  have h := strtol_printLong n h0 h1
  refine ⟨rfl, h, ?_⟩
  simp [jsval_to_long, long_to_jsval, JS_ToString_any, JS_ToString, hstr, h]

/-- The least and the greatest value of a `long` of 64 bits. -/
theorem long_roundtrip_witness :
    ((∀ x, exactCapabilities.toStringOk x = true) ∧
      ((-2 : Int) ^ 63 ≤ -2 ^ 63 ∧ (-2 : Int) ^ 63 < 2 ^ 63) ∧
      ((-2 : Int) ^ 63 ≤ 2 ^ 63 - 1 ∧ (2 : Int) ^ 63 - 1 < 2 ^ 63)) ∧
    jsval_to_long exactCapabilities (fun _ => none) true (long_to_jsval (-2 ^ 63)) 0 =
      .ret true (-2 ^ 63) ∧
    jsval_to_long exactCapabilities (fun _ => none) true (long_to_jsval (2 ^ 63 - 1)) 0 =
      .ret true (2 ^ 63 - 1) ∧
    long_to_jsval (-42) = .string "-42" :=
  ⟨⟨fun _ => rfl, by decide, by decide⟩,
    (long_roundtrip exactCapabilities (fun _ => none) (-2 ^ 63) 0 (fun _ => rfl)
      (by decide) (by decide)).2.2,
    (long_roundtrip exactCapabilities (fun _ => none) (2 ^ 63 - 1) 0 (fun _ => rfl)
      (by decide) (by decide)).2.2,
    by simp [long_to_jsval, printLong, decimalDigits, digitChar]⟩

/-! ## Maps on the way back -/

theorem jsval_to_ccvaluevector_loop_total : ∀ (es : List (Option JsVal)) (ret : ValueVector),
    jsval_to_ccvaluevector_loop es ret = .abort ∨
      ∃ l, jsval_to_ccvaluevector_loop es ret = .ret true l
  | [], ret => by simp [jsval_to_ccvaluevector_loop]
  | none :: rest, ret => by
    simp only [jsval_to_ccvaluevector_loop]
    exact jsval_to_ccvaluevector_loop_total rest ret
  | some .undefined :: rest, ret => by simp [jsval_to_ccvaluevector_loop]
  | some .null :: rest, ret => by simp [jsval_to_ccvaluevector_loop]
  | some (.boolean b) :: rest, ret => by
    simp only [jsval_to_ccvaluevector_loop]
    exact jsval_to_ccvaluevector_loop_total rest _
  | some (.number n) :: rest, ret => by
    simp only [jsval_to_ccvaluevector_loop]
    exact jsval_to_ccvaluevector_loop_total rest _
  | some (.string s) :: rest, ret => by
    simp only [jsval_to_ccvaluevector_loop]
    exact jsval_to_ccvaluevector_loop_total rest _
  | some (.object proxy ps2 ef2) :: rest, ret => by
    simp only [jsval_to_ccvaluevector_loop]
    cases proxy with
    | true => simp
    | false =>
      simp only [Bool.false_eq_true, if_false]
      cases h2 : jsval_to_ccvaluemap (.object false ps2 ef2) [] with
      | abort => simp
      | ret ok2 out2 =>
        cases ok2
        · exact jsval_to_ccvaluevector_loop_total rest _
        · exact jsval_to_ccvaluevector_loop_total rest _
  | some (.array proxy es2 ps2 ef2) :: rest, ret => by
    simp only [jsval_to_ccvaluevector_loop]
    cases proxy with
    | true => simp
    | false =>
      simp only [Bool.false_eq_true, if_false]
      cases h2 : jsval_to_ccvaluevector (.array false es2 ps2 ef2) [] with
      | abort => simp
      | ret ok2 out2 =>
        cases ok2
        · exact jsval_to_ccvaluevector_loop_total rest _
        · exact jsval_to_ccvaluevector_loop_total rest _

theorem jsval_to_ccvalue_array (es : List (Option JsVal)) (ps : List (JsId × JsVal))
    (ef : Bool) (ret : Value) :
    (jsval_to_ccvaluevector_loop es [] = .abort ∧
      jsval_to_ccvalue (.array false es ps ef) ret = .abort) ∨
    ∃ l, jsval_to_ccvaluevector_loop es [] = .ret true l ∧
      jsval_to_ccvalue (.array false es ps ef) ret = .ret true (.vector l) := by
  rcases jsval_to_ccvaluevector_loop_total es [] with h | ⟨l, h⟩
  · left
    exact ⟨h, by simp [jsval_to_ccvalue, jsval_to_ccvaluevector, h]⟩
  · right
    exact ⟨l, h, by simp [jsval_to_ccvalue, jsval_to_ccvaluevector, h]⟩

theorem ccvaluemap_to_jsval_loop_elems (E : Engine) (m : ValueMap)
    (acc : List (Option JsVal) × List (JsId × JsVal))
    (h : ∀ k ∈ m.map Prod.fst, specialName (propertyName k) = false) :
    (ccvaluemap_to_jsval_loop E m acc).1 = acc.1 := by
  induction m generalizing acc with
  | nil => simp [ccvaluemap_to_jsval_loop]
  | cons e rest ih =>
    obtain ⟨key, obj⟩ := e
    simp only [List.map_cons, List.mem_cons, forall_eq_or_imp] at h
    cases obj <;> simp only [ccvaluemap_to_jsval_loop] <;> split <;>
      first
      | exact ih acc h.2
      | rw [ih _ h.2, JS_SetProperty_array_plain E acc (propertyName key) _ h.1]

theorem ccvaluemapintkey_to_jsval_loop_elems (E : Engine) (m : ValueMapIntKey)
    (acc : List (Option JsVal) × List (JsId × JsVal))
    (h : ∀ k ∈ m.map Prod.fst, k < 0) :
    (ccvaluemapintkey_to_jsval_loop E m acc).1 = acc.1 := by
  induction m generalizing acc with
  | nil => simp [ccvaluemapintkey_to_jsval_loop]
  | cons e rest ih =>
    obtain ⟨key, obj⟩ := e
    simp only [List.map_cons, List.mem_cons, forall_eq_or_imp] at h
    cases obj <;> simp only [ccvaluemapintkey_to_jsval_loop] <;> split <;>
      first
      | exact ih acc h.2
      | rw [ih _ h.2, JS_SetProperty_array_plain E acc _ _
          (by rw [propertyName_printLong]; exact specialName_printLong_negative key h.1)]

/-- C34, amended. A map does not come back as a map. For every string-keyed map
and every integer-keyed map, `ccvalue_to_jsval` produces an array object, and
`jsval_to_ccvalue` applied to it takes the array branch: it reaches the fatal
assertion or returns true with a list, which is built from the indexed
elements of the array only; it never yields a map. When no key of a
string-keyed map names a property an array treats specially (as is the case
when no key holds U+0000 and none is itself such a name), and when every key
of an integer-keyed map is negative, the array has no elements and the list
is empty. -/
theorem maps_come_back_as_lists (E : Engine) :
    (∀ (m : ValueMap) (ret : Value),
      jsval_to_ccvalue (ccvalue_to_jsval E (.map m)) ret = .abort ∨
        ∃ l, jsval_to_ccvalue (ccvalue_to_jsval E (.map m)) ret = .ret true (.vector l)) ∧
    (∀ (m : ValueMapIntKey) (ret : Value),
      jsval_to_ccvalue (ccvalue_to_jsval E (.intKeyMap m)) ret = .abort ∨
        ∃ l, jsval_to_ccvalue (ccvalue_to_jsval E (.intKeyMap m)) ret =
          .ret true (.vector l)) ∧
    (∀ (es : List (Option JsVal)) (ps : List (JsId × JsVal)) (ef : Bool) (ret ret2 : Value),
      jsval_to_ccvalue (.array false es ps ef) ret =
        jsval_to_ccvalue (.array false es [] false) ret2) ∧
    (∀ (m : ValueMap) (ret : Value),
      (∀ k ∈ m.map Prod.fst, specialName (propertyName k) = false) →
      jsval_to_ccvalue (ccvalue_to_jsval E (.map m)) ret = .ret true (.vector [])) ∧
    (∀ (m : ValueMap) (ret : Value),
      (∀ k ∈ m.map Prod.fst, noNul k = true ∧ specialName k = false) →
      jsval_to_ccvalue (ccvalue_to_jsval E (.map m)) ret = .ret true (.vector [])) ∧
    (∀ (m : ValueMapIntKey) (ret : Value), (∀ k ∈ m.map Prod.fst, k < 0) →
      jsval_to_ccvalue (ccvalue_to_jsval E (.intKeyMap m)) ret = .ret true (.vector [])) := by
  refine ⟨?_, ?_, ?_, ?_, ?_, ?_⟩
  · intro m ret
    rw [ccvalue_to_jsval, ccvaluemap_to_jsval]
    rcases jsval_to_ccvalue_array (ccvaluemap_to_jsval_loop E m ([], [])).1
      (ccvaluemap_to_jsval_loop E m ([], [])).2 false ret with h | ⟨l, h⟩
    · exact Or.inl h.2
    · exact Or.inr ⟨l, h.2⟩
  · intro m ret
    rw [ccvalue_to_jsval, ccvaluemapintkey_to_jsval]
    rcases jsval_to_ccvalue_array (ccvaluemapintkey_to_jsval_loop E m ([], [])).1
      (ccvaluemapintkey_to_jsval_loop E m ([], [])).2 false ret with h | ⟨l, h⟩
    · exact Or.inl h.2
    · exact Or.inr ⟨l, h.2⟩
  · intro es ps ef ret ret2
    rcases jsval_to_ccvalue_array es ps ef ret with h | ⟨l, h⟩
    · rcases jsval_to_ccvalue_array es [] false ret2 with h2 | ⟨l2, h2⟩
      · rw [h.2, h2.2]
      · rw [h.1] at h2; simp at h2
    · rcases jsval_to_ccvalue_array es [] false ret2 with h2 | ⟨l2, h2⟩
      · rw [h.1] at h2; simp at h2
      · rw [h.2, h2.2]
        rw [h.1] at h2
        simp only [Outcome.ret.injEq, true_and] at h2
        rw [h2.1]
  · intro m ret hm
    rw [ccvalue_to_jsval, ccvaluemap_to_jsval, ccvaluemap_to_jsval_loop_elems E m ([], []) hm]
    simp [jsval_to_ccvalue, jsval_to_ccvaluevector, jsval_to_ccvaluevector_loop]
  · intro m ret hm
    have hm2 : ∀ k ∈ m.map Prod.fst, specialName (propertyName k) = false := by
      intro k hk
      rw [specialName_propertyName k (hm k hk).1]
      exact (hm k hk).2
    rw [ccvalue_to_jsval, ccvaluemap_to_jsval, ccvaluemap_to_jsval_loop_elems E m ([], []) hm2]
    simp [jsval_to_ccvalue, jsval_to_ccvaluevector, jsval_to_ccvaluevector_loop]
  · intro m ret hm
    rw [ccvalue_to_jsval, ccvaluemapintkey_to_jsval,
      ccvaluemapintkey_to_jsval_loop_elems E m ([], []) hm]
    simp [jsval_to_ccvalue, jsval_to_ccvaluevector, jsval_to_ccvaluevector_loop]

/-- C34, counterexample. The integer-keyed map `{1: true}` becomes the array
`[undefined, true]`, whose element 0 is a hole, and `jsval_to_ccvalue` reaches
the fatal assertion on it: it yields no list. The same holds for the
string-keyed map `{"1": true}`. The map `{0: true}` becomes the array
`[true]` and comes back as the list `[true]`. -/
theorem intkey_map_comes_back_as_assert :
    ccvalue_to_jsval okEngine (.intKeyMap [(1, .boolean true)]) =
      .array false [some .undefined, some (.boolean true)] [] false ∧
    jsval_to_ccvalue (ccvalue_to_jsval okEngine (.intKeyMap [(1, .boolean true)])) .none =
      .abort ∧
    jsval_to_ccvalue (ccvalue_to_jsval okEngine (.map [("1", .boolean true)])) .none =
      .abort ∧
    jsval_to_ccvalue (ccvalue_to_jsval okEngine (.intKeyMap [(0, .boolean true)])) .none =
      .ret true (.vector [.boolean true]) := by
  have t1 : propertyName (printLong 1) = "1" := by
    rw [propertyName_printLong]; simp [printLong, decimalDigits, digitChar]
  have t0 : propertyName (printLong 0) = "0" := by
    rw [propertyName_printLong]; simp [printLong, decimalDigits, digitChar]
  have k1 : printLong 1 ≠ "" := printLong_ne_empty 1
  have k0 : printLong 0 ≠ "" := printLong_ne_empty 0
  have n1 : propertyName "1" = "1" := by decide
  have h1 : arrayIndex "1" = some 1 := by decide
  have h0 : arrayIndex "0" = some 0 := by decide
  have e1 : ccvalue_to_jsval okEngine (.intKeyMap [(1, .boolean true)]) =
      .array false [some .undefined, some (.boolean true)] [] false := by
    simp [ccvalue_to_jsval, ccvaluemapintkey_to_jsval, ccvaluemapintkey_to_jsval_loop,
      JS_SetProperty_array, t1, k1, h1, JS_SetElement]
  have e2 : ccvalue_to_jsval okEngine (.map [("1", .boolean true)]) =
      .array false [some .undefined, some (.boolean true)] [] false := by
    simp [ccvalue_to_jsval, ccvaluemap_to_jsval, ccvaluemap_to_jsval_loop,
      JS_SetProperty_array, n1, h1, JS_SetElement]
  have e3 : ccvalue_to_jsval okEngine (.intKeyMap [(0, .boolean true)]) =
      .array false [some (.boolean true)] [] false := by
    simp [ccvalue_to_jsval, ccvaluemapintkey_to_jsval, ccvaluemapintkey_to_jsval_loop,
      JS_SetProperty_array, t0, k0, h0, JS_SetElement]
  refine ⟨e1, ?_, ?_, ?_⟩
  · rw [e1]; rfl
  · rw [e2]; rfl
  · rw [e3]; rfl
